import Mathlib

/-!
# ImpulseLoader: a shallow embedding of the audio engine and its swap protocol

Sources embedded here:

* `engine/gain.cc`      (`gain::Dsp`)
* `engine/dry_wet.cc`   (`wet_dry::Dsp`)
* `engine/engine.h`     (`DenormalProtection`, `Engine`)
* `clap/ImpulseLoader.cc`, `standalone/ImpulseLoader.cc`, `lv2/ImpulseLoader.cpp`
  (the control-rate dispatch of kernel rebuilds, file names, the state string)
* `clap/ClapPlug.cpp` (the sync of parameters to the host, the audio callback `process`
  with its input events)
* `gui/ImpulseLoader.c` (`file_load_response`), `gui/widgets.cc` (`utf8crop`)

Conventions.  Samples (`float`/`double`) are rationals.  The two DSP stages are given
twice: in exact arithmetic, and with every operation rounded to its C++ type (the
definitions named `_float`).  Audio buffers live in a memory `Mem` indexed by a buffer identifier
(`Ptr`) and a frame index, so that in-place calls (the same pointer passed as
input and output) are modelled as the code performs them.  Atomics are plain
fields: every function below is one uninterrupted run of the corresponding
C++ function.
-/

/-- A sample value; the finite values of `float` and `double` are rationals. -/
abbrev Sample := ℚ

/-- A buffer identifier (the address held by a `float*`). -/
abbrev Ptr := Nat

/-- Audio memory: the frame `i` of the buffer `p`. -/
abbrev Mem := Ptr → Nat → Sample

/-- The assignment `p[i] = v`. -/
def Mem.write (m : Mem) (p : Ptr) (i : Nat) (v : Sample) : Mem :=
  fun q j => if q = p ∧ j = i then v else m q j

/-- The call `memcpy(dst, src, n*sizeof(float))` for two distinct buffers. -/
def memcpy (m : Mem) (dst src : Ptr) (n : Nat) : Mem :=
  fun q j => if q = dst ∧ j < n then m src j else m q j

/-- The loop `for (int i0 = 0; i0 < count; i0 = i0 + 1) body`, on the state `s`. -/
def forLoop {σ : Type} : Nat → (Nat → σ → σ) → σ → σ
  | 0, _, s => s
  | k + 1, body, s => body k (forLoop k body s)

/-- The conversion of a `uint32_t` argument to an `int` parameter (two's complement). -/
def int_of_uint32 (n : Nat) : Int :=
  if n % 2 ^ 32 < 2 ^ 31 then ((n % 2 ^ 32 : Nat) : Int) else ((n % 2 ^ 32 : Nat) : Int) - 2 ^ 32

/-- The value of a 32 bit `int` after an addition that wraps (`std::atomic<int>`). -/
def wrap_int32 (x : Int) : Int := (x + 2 ^ 31) % 2 ^ 32 - 2 ^ 31

/-! ## The rounding of `float` and `double`

Where a claim depends on it, the arithmetic of the C++ types is modelled by rounding the exact
result of each operation: `f32` for `float` (binary32), `f64` for `double` (binary64), IEEE 754
round to nearest, ties to even, with gradual underflow.  The values are rationals, so an
overflow to infinity is not represented: a result beyond the largest finite value of the
format (`FLT_MAX` for `float`) has no meaning here, and the statements that use `f32` or `f64`
say where they bound their arguments. -/

/-- Rounding to the nearest integer, ties to the even one. -/
def round_half_even (x : Sample) : Int :=
  if x - ⌊x⌋ < 1 / 2 then ⌊x⌋
  else if 1 / 2 < x - ⌊x⌋ then ⌊x⌋ + 1
  else if ⌊x⌋ % 2 = 0 then ⌊x⌋ else ⌊x⌋ + 1

/-- The value `x` rounded to the binary floating-point format with `p` bits of precision and
least normal exponent `emin`: the nearest multiple of `2^(e - (p - 1))`, ties to even, where
`e` is the binary exponent of `x`, or `emin` for a smaller (subnormal) value. -/
def round_binary (p : Nat) (emin : Int) (x : Sample) : Sample :=
  if x = 0 then 0
  else round_half_even (x / 2 ^ (max (Int.log 2 |x|) emin - ((p : Int) - 1)))
        * 2 ^ (max (Int.log 2 |x|) emin - ((p : Int) - 1))

/-- The conversion of a value to `float` (binary32): 24 bits of precision, exponents from -126. -/
def f32 (x : Sample) : Sample := round_binary 24 (-126) x

/-- The conversion of a value to `double` (binary64): 53 bits, exponents from -1022. -/
def f64 (x : Sample) : Sample := round_binary 53 (-1022) x

/-- The largest finite `float`, `(2^24 - 1) * 2^104`. -/
def FLT_MAX : Sample := (2 ^ 24 - 1) * 2 ^ 104

/-- The largest finite `double`, `(2^53 - 1) * 2^971`. -/
def DBL_MAX : Sample := (2 ^ 53 - 1) * 2 ^ 971

/-- The exact results that `float` arithmetic rounds as `f32` does whatever the mode of the
processor: zero, or a magnitude from the least normal `float` to the largest finite one.  A
result of smaller magnitude is flushed to zero while `DenormalProtection::set_` is in force,
one of larger magnitude may overflow. -/
def f32_range (x : Sample) : Prop :=
  x = 0 ∨ ((2 : Sample) ^ (-126 : Int) ≤ |x| ∧ |x| ≤ FLT_MAX)

/-- The exact results that `double` arithmetic rounds as `f64` does whatever the mode of the
processor: zero, or a magnitude from the least normal `double` to the largest finite one. -/
def f64_range (x : Sample) : Prop :=
  x = 0 ∨ ((2 : Sample) ^ (-1022 : Int) ≤ |x| ∧ |x| ≤ DBL_MAX)

namespace gain

/-- The class `gain::Dsp` of `gain.cc`. -/
structure Dsp where
  fSampleRate : Nat
  fRec0 : Sample × Sample
  gain : Sample
  deriving DecidableEq

/-- The constructor `Dsp::Dsp()`; `fRec0` is cleared by `init`. -/
def Dsp.new : Dsp := { fSampleRate := 0, fRec0 := (0, 0), gain := 0 }

/-- The method `Dsp::clear_state_f`. -/
def Dsp.clear_state_f (d : Dsp) : Dsp := { d with fRec0 := (0, 0) }

/-- The method `Dsp::init`. -/
def Dsp.init (d : Dsp) (sample_rate : Nat) : Dsp :=
  Dsp.clear_state_f { d with fSampleRate := sample_rate }

/-- The value `fSlow0` of `Dsp::compute`; `pow` stands for `std::pow`. -/
def Dsp.fSlow0 (pow : Sample → Sample → Sample) (d : Dsp) : Sample :=
  0.0010000000000000009 * pow 10 (0.05 * d.gain)

/-- One iteration of the loop of `Dsp::compute`. -/
def Dsp.step (fSlow0 : Sample) (input0 output0 : Ptr) (i0 : Nat) (s : Dsp × Mem) : Dsp × Mem :=
  let r0 := fSlow0 + 0.999 * s.1.fRec0.2
  let m := s.2.write output0 i0 (s.2 input0 i0 * r0)
  ({ s.1 with fRec0 := (r0, r0) }, m)

/-- The method `Dsp::compute(int count, float *input0, float *output0)`, in exact arithmetic
(`Dsp.compute_float` is the same loop with the rounding of the code). -/
def Dsp.compute (pow : Sample → Sample → Sample) (d : Dsp) (count : Int)
    (input0 output0 : Ptr) (m : Mem) : Dsp × Mem :=
  forLoop count.toNat (Dsp.step (d.fSlow0 pow) input0 output0) (d, m)

/-- The value of `fRec0[0]` after `k` iterations of the loop of `Dsp::compute` that started
with `fRec0[1] = r`: the recurrence `fRec0[0] = fSlow0 + 0.999 * fRec0[1]`. -/
def Dsp.rec0 (fSlow0 r : Sample) : Nat → Sample
  | 0 => r
  | k + 1 => fSlow0 + 0.999 * Dsp.rec0 fSlow0 r k

end gain

namespace wet_dry

/-- The class `wet_dry::Dsp` of `dry_wet.cc`. -/
structure Dsp where
  fSampleRate : Nat
  dry_wet : Sample
  deriving DecidableEq

/-- The constructor `Dsp::Dsp()`. -/
def Dsp.new : Dsp := { fSampleRate := 0, dry_wet := 100 }

/-- The method `Dsp::init`. -/
def Dsp.init (d : Dsp) (sample_rate : Nat) : Dsp := { d with fSampleRate := sample_rate }

/-- One iteration of the loop of `Dsp::compute`. -/
def Dsp.step (fSlow0 fSlow1 : Sample) (input0 input1 output0 : Ptr) (i0 : Nat) (m : Mem) : Mem :=
  m.write output0 i0 (fSlow1 * m input0 i0 + fSlow0 * m input1 i0)

/-- The method `Dsp::compute(int count, float *input0, float *input1, float *output0)`, in
exact arithmetic (`Dsp.compute_float` is the same loop with the rounding of the code). -/
def Dsp.compute (d : Dsp) (count : Int) (input0 input1 output0 : Ptr) (m : Mem) : Mem :=
  let fSlow0 := 0.01 * d.dry_wet
  let fSlow1 := 1 - fSlow0
  forLoop count.toNat (Dsp.step fSlow0 fSlow1 input0 input1 output0) m

end wet_dry

/-- Modelled from the spec: the class `ConvolverSelector` (`fftconvolver.h`) is not
part of the sources; the spec treats the kernel as an external capability with the
lifecycle configure, poll-ready, compute, stop, cleanup.  The record keeps what the
engine can observe of it: the ready flag, the settings handed over, the file the
kernel was last configured from, the number of `checkstate` polls that still
answer "not ready", and the kernel's internal sample history. -/
structure ConvolverSelector where
  ready : Bool
  samplerate : Nat
  buffersize : Nat
  norm : Nat
  irfile : Option String
  pending : Nat
  history : List Sample
  deriving DecidableEq

/-- The capabilities the program takes from outside the sources: `std::pow`, of the
convolution library whether a kernel can be started for a file, how many `checkstate`
polls a configuration takes and the block transform of `compute`, and `dirname` of libc. -/
structure Env where
  pow : Sample → Sample → Sample
  startOk : String → Bool
  polls : String → Nat
  kernel : ConvolverSelector → Int → (Nat → Sample) → (Nat → Sample) × ConvolverSelector
  dirname : String → String

namespace ConvolverSelector

/-- The state of a default constructed convolver: nothing loaded. -/
def new : ConvolverSelector :=
  { ready := false, samplerate := 0, buffersize := 0, norm := 0, irfile := none,
    pending := 0, history := [] }

/-- Modelled from the spec: `is_runnable` (the spec's is-ready) reads the ready flag. -/
def is_runnable (c : ConvolverSelector) : Bool := c.ready

/-- Modelled from the spec: `set_not_runnable` clears the ready flag. -/
def set_not_runnable (c : ConvolverSelector) : ConvolverSelector := { c with ready := false }

/-- Modelled from the spec: `stop_process` (the spec's stop) leaves a kernel that is not ready. -/
def stop_process (c : ConvolverSelector) : ConvolverSelector := { c with ready := false }

/-- Modelled from the spec: `cleanup` releases the loaded kernel. -/
def cleanup (c : ConvolverSelector) : ConvolverSelector :=
  { c with ready := false, irfile := none, pending := 0, history := [] }

/-- Modelled from the spec: `set_samplerate` stores the rate. -/
def set_samplerate (c : ConvolverSelector) (r : Nat) : ConvolverSelector := { c with samplerate := r }

/-- Modelled from the spec: `set_buffersize` stores the block size. -/
def set_buffersize (c : ConvolverSelector) (b : Nat) : ConvolverSelector := { c with buffersize := b }

/-- Modelled from the spec: `set_normalisation` stores the normalise option. -/
def set_normalisation (c : ConvolverSelector) (n : Nat) : ConvolverSelector := { c with norm := n }

/-- Modelled from the spec: `configure(file, ...)` records the file the kernel is built from
and becomes ready after `polls file` further polls; its result is not used by the engine. -/
def configure (env : Env) (c : ConvolverSelector) (file : String) : ConvolverSelector :=
  { c with irfile := some file, pending := env.polls file }

/-- Modelled from the spec: `checkstate` answers whether the configuration has settled;
each poll that answers no brings it one poll closer ("eventually-ready"). -/
def checkstate (c : ConvolverSelector) : Bool × ConvolverSelector :=
  match c.pending with
  | 0 => (true, c)
  | k + 1 => (false, { c with pending := k })

/-- The loop `while (!co->checkstate());` of `Engine::setIRFile`. -/
def wait_checkstate (c : ConvolverSelector) : ConvolverSelector :=
  if c.checkstate.1 then c.checkstate.2 else wait_checkstate c.checkstate.2
termination_by c.pending
decreasing_by
  all_goals simp_wf
  all_goals (unfold checkstate at *; split <;> simp_all)

/-- Modelled from the spec: `start(prio, policy)` answers whether the kernel for the configured
file could be built and started, and makes the kernel ready when it could. -/
def start (env : Env) (c : ConvolverSelector) (_prio _policy : Int) : Bool × ConvolverSelector :=
  match c.irfile with
  | none => (false, c)
  | some f => if env.startOk f then (true, { c with ready := true }) else (false, c)

/-- Modelled from the spec: `compute(count, input, output)` replaces the first `count` frames of
the output buffer by the kernel's transform of the input buffer. -/
def compute (env : Env) (c : ConvolverSelector) (count : Int) (input output : Ptr) (m : Mem) :
    ConvolverSelector × Mem :=
  let r := env.kernel c count (m input)
  (r.2, fun q j => if q = output ∧ j < count.toNat then r.1 j else m q j)

end ConvolverSelector

/-- Modelled from the spec: the class `ParallelThread` (`ParallelThread.h`) is not part of the
sources; the spec's Worker runs one unit of work per trigger and is either idle or running.
The record keeps whether the thread waits for a trigger and how often `runProcess` was called. -/
structure ParallelThread where
  isWaiting : Bool
  triggers : Nat
  deriving DecidableEq

namespace ParallelThread

/-- The worker after `start()`: waiting, never triggered. -/
def new : ParallelThread := { isWaiting := true, triggers := 0 }

/-- Modelled from the spec: `getProcess` answers whether the worker is idle. -/
def getProcess (t : ParallelThread) : Bool := t.isWaiting

/-- Modelled from the spec: `runProcess` wakes the worker for one run of its callback. -/
def runProcess (t : ParallelThread) : ParallelThread :=
  { isWaiting := false, triggers := t.triggers + 1 }

/-- Modelled from the spec: the worker returns to idle when its callback has returned. -/
def finish (t : ParallelThread) : ParallelThread := { t with isWaiting := true }

end ParallelThread

namespace impulseloader

/-- The constant `_MM_DENORMALS_ZERO_MASK` of the SSE headers. -/
def MM_DENORMALS_ZERO_MASK : Nat := 0x0040

/-- The constant `_MM_FLUSH_ZERO_MASK` of the SSE headers. -/
def MM_FLUSH_ZERO_MASK : Nat := 0x8000

/-- The class `DenormalProtection` (built with `USE_SSE`). -/
structure DenormalProtection where
  mxcsr_mask : Nat
  mxcsr : Nat
  old_mxcsr : Nat
  deriving DecidableEq

/-- The constructor `DenormalProtection()`; `mask` is the MXCSR mask read by `fxsave`. -/
def DenormalProtection.new (mask : Nat) : DenormalProtection :=
  { mxcsr_mask := if mask ≠ 0 then mask else 0xffbf, mxcsr := 0, old_mxcsr := 0 }

/-- The method `set_`: `csr` is the control register, the result the guard and the new register. -/
def DenormalProtection.set_ (d : DenormalProtection) (csr : Nat) : DenormalProtection × Nat :=
  ({ d with old_mxcsr := csr, mxcsr := csr },
   (csr ||| MM_DENORMALS_ZERO_MASK ||| MM_FLUSH_ZERO_MASK) &&& d.mxcsr_mask)

/-- The method `reset_`: the new value of the control register. -/
def DenormalProtection.reset_ (d : DenormalProtection) (_csr : Nat) : Nat := d.old_mxcsr

/-- The class `Engine` of `engine.h`. -/
structure Engine where
  xrworker : ParallelThread
  conv : ConvolverSelector
  plugin1 : gain.Dsp
  plugin2 : wet_dry.Dsp
  rt_prio : Int
  rt_policy : Int
  s_rate : Nat
  bypass : Nat
  bufsize : Nat
  normA : Nat
  ir_file : String
  _execute : Bool
  _notify_ui : Bool
  _cd : Int
  MXCSR : DenormalProtection
  deriving DecidableEq

/-- What a processing call works on: the audio memory and the MXCSR register. -/
structure World where
  mem : Mem
  csr : Nat

/-- The constructor `Engine::Engine()`. -/
def Engine.new : Engine :=
  { xrworker := ParallelThread.new, conv := ConvolverSelector.new,
    plugin1 := gain.Dsp.new, plugin2 := wet_dry.Dsp.new,
    rt_prio := 0, rt_policy := 0, s_rate := 0,
    bypass := 0, bufsize := 0, normA := 0, ir_file := "None",
    _execute := false, _notify_ui := false, _cd := 0,
    MXCSR := DenormalProtection.new 0 }

/-- The method `Engine::init`. -/
def Engine.init (e : Engine) (rate : Nat) (rt_prio_ rt_policy_ : Int) : Engine :=
  { e with s_rate := rate, plugin1 := e.plugin1.init rate, plugin2 := e.plugin2.init rate,
           rt_prio := rt_prio_, rt_policy := rt_policy_,
           _execute := false, _notify_ui := false, _cd := 0 }

/-- The method `Engine::setIRFile(co, file)`: the new convolver and the new content of `*file`. -/
def Engine.setIRFile (env : Env) (e : Engine) (co : ConvolverSelector) (file : String) :
    ConvolverSelector × String :=
  let co1 := if co.is_runnable then (co.set_not_runnable).stop_process else co
  let co2 := ((co1.cleanup).set_samplerate e.s_rate).set_buffersize e.bufsize
  if file ≠ "None" then
    let co3 := (co2.configure env file).wait_checkstate
    let r := co3.start env e.rt_prio e.rt_policy
    if !r.1 then (r.2, "None") else (r.2, file)
  else (co2, file)

/-- The method `Engine::do_work_mono`. -/
def Engine.do_work_mono (env : Env) (e : Engine) : Engine :=
  let e1 :=
    if e._cd = 1 then
      let r := e.setIRFile env e.conv e.ir_file
      { e with conv := r.1, ir_file := r.2 }
    else e
  { e1 with _execute := false, _notify_ui := true }

/-- The stack buffer `buf0` of `Engine::process`: an object distinct from both arguments. -/
def buf0_ptr (input0 output0 : Ptr) : Ptr := input0 + output0 + 1

/-- The lines under `// process conv` of `Engine::process`: the gain stage in place on
`output0`, then the convolution kernel in place when no rebuild is in flight and the kernel
is runnable.  The result is the gain stage, the convolver and the memory handed on. -/
def Engine.process_conv (env : Env) (e : Engine) (n_samples : Nat) (output0 : Ptr) (m : Mem) :
    gain.Dsp × ConvolverSelector × Mem :=
  let p1 := e.plugin1.compute env.pow (int_of_uint32 n_samples) output0 output0 m
  if !e._execute && e.conv.is_runnable then
    let c := e.conv.compute env (int_of_uint32 n_samples) output0 output0 p1.2
    (p1.1, c.1, c.2)
  else (p1.1, e.conv, p1.2)

/-- The memory of `Engine::process` when the stages start: `output0` and the stack buffer
`buf0` both hold a copy of the first `n_samples` frames of `input0`. -/
def Engine.process_copies (n_samples : Nat) (input0 output0 : Ptr) (m : Mem) : Mem :=
  let m1 := if output0 ≠ input0 then memcpy m output0 input0 n_samples else m
  memcpy m1 (buf0_ptr input0 output0) input0 n_samples

/-- The method `Engine::process(n_samples, input0, output0)`. -/
def Engine.process (env : Env) (e : Engine) (n_samples : Nat) (input0 output0 : Ptr)
    (w : World) : Engine × World :=
  if n_samples < 1 then (e, w)
  else if e.bypass = 0 then (e, w)
  else
    let m2 := Engine.process_copies n_samples input0 output0 w.mem
    let g := e.MXCSR.set_ w.csr
    let c := e.process_conv env n_samples output0 m2
    let m5 := e.plugin2.compute (int_of_uint32 n_samples) (buf0_ptr input0 output0)
                output0 output0 c.2.2
    ({ e with bufsize := n_samples, MXCSR := g.1, plugin1 := c.1, conv := c.2.1 },
     { mem := m5, csr := g.1.reset_ g.2 })

end impulseloader

/-! ## The stages with the rounding of the code

The definitions above compute the two stages in exact arithmetic.  The ones below are the same
loops with every operation rounded as the C++ types prescribe on x86-64 (SSE arithmetic, each
operation rounded on its own, no fused multiply-add): `float` operations to binary32, `double`
operations to binary64, decimal literals to the nearest value of their type. -/

namespace gain

/-- The value `fSlow0` of `Dsp::compute` as the code computes it: `0.05 * gain` and the product
with the result of `std::pow` are `double` operations, and the assignment to `float fSlow0`
narrows the product; `pow` stands for `std::pow`. -/
def Dsp.fSlow0_float (pow : Sample → Sample → Sample) (d : Dsp) : Sample :=
  f32 (f64 (f64 0.0010000000000000009 * pow 10 (f64 (f64 0.05 * d.gain))))

/-- One iteration of the loop of `Dsp::compute` as the code computes it: `fRec0` is a
`double`, the product `input0[i0] * fRec0[0]` is a `double` narrowed to the `float` output. -/
def Dsp.step_float (fSlow0 : Sample) (input0 output0 : Ptr) (i0 : Nat) (s : Dsp × Mem) :
    Dsp × Mem :=
  ({ s.1 with fRec0 := (f64 (fSlow0 + f64 (f64 0.999 * s.1.fRec0.2)),
                        f64 (fSlow0 + f64 (f64 0.999 * s.1.fRec0.2))) },
   s.2.write output0 i0
     (f32 (f64 (s.2 input0 i0 * f64 (fSlow0 + f64 (f64 0.999 * s.1.fRec0.2))))))

/-- The operations that compute `fSlow0` stay in range: the parameter, the product
`0.05 * gain`, the result of `std::pow` (a `double`), the product with the literal and its
narrowing to `float`. -/
def Dsp.fSlow0_in_range (pow : Sample → Sample → Sample) (d : Dsp) : Prop :=
  f32_range d.gain ∧ f64_range (f64 0.05 * d.gain) ∧
  f64 (pow 10 (f64 (f64 0.05 * d.gain))) = pow 10 (f64 (f64 0.05 * d.gain)) ∧
  f64_range (pow 10 (f64 (f64 0.05 * d.gain))) ∧
  f64_range (f64 0.0010000000000000009 * pow 10 (f64 (f64 0.05 * d.gain))) ∧
  f32_range (f64 (f64 0.0010000000000000009 * pow 10 (f64 (f64 0.05 * d.gain))))

/-- The operations of one iteration of the loop stay in range, for the coefficient `c`, the
state `r = fRec0[1]` and the input frame `a`: the two operands, the product `0.999 * r`, the
sum, the product with the input and its narrowing to `float`. -/
def Dsp.step_in_range (c r a : Sample) : Prop :=
  f64_range r ∧ f32_range a ∧ f64_range (f64 0.999 * r) ∧
  f64_range (c + f64 (f64 0.999 * r)) ∧
  f64_range (a * f64 (c + f64 (f64 0.999 * r))) ∧
  f32_range (f64 (a * f64 (c + f64 (f64 0.999 * r))))

/-- The method `Dsp::compute(int count, float *input0, float *output0)` as the code computes
it. -/
def Dsp.compute_float (pow : Sample → Sample → Sample) (d : Dsp) (count : Int)
    (input0 output0 : Ptr) (m : Mem) : Dsp × Mem :=
  forLoop count.toNat (Dsp.step_float (d.fSlow0_float pow) input0 output0) (d, m)

/-- The value of `fRec0[0]` after `k` iterations of the loop of `Dsp::compute` as the code
computes it, started with `fRec0[1] = r`. -/
def Dsp.rec0_float (fSlow0 r : Sample) : Nat → Sample
  | 0 => r
  | k + 1 => f64 (fSlow0 + f64 (f64 0.999 * Dsp.rec0_float fSlow0 r k))

end gain

namespace wet_dry

/-- One iteration of the loop of `Dsp::compute` as the code computes it: two `float` products
and their `float` sum. -/
def Dsp.step_float (fSlow0 fSlow1 : Sample) (input0 input1 output0 : Ptr) (i0 : Nat)
    (m : Mem) : Mem :=
  m.write output0 i0 (f32 (f32 (fSlow1 * m input0 i0) + f32 (fSlow0 * m input1 i0)))

/-- The value `fSlow0 = 0.01f * dry_wet` of `Dsp::compute` as the code computes it. -/
def Dsp.fSlow0_float (d : Dsp) : Sample := f32 (f32 0.01 * d.dry_wet)

/-- The value `fSlow1 = 1.0f - fSlow0` of `Dsp::compute` as the code computes it. -/
def Dsp.fSlow1_float (d : Dsp) : Sample := f32 (1 - d.fSlow0_float)

/-- The operations of the mix stay in range, for the dry frame `a` and the wet frame `b`: the
parameter, the two coefficients, the two frames, the two products and their sum. -/
def Dsp.in_range (d : Dsp) (a b : Sample) : Prop :=
  f32_range d.dry_wet ∧ f32_range (f32 0.01 * d.dry_wet) ∧ f32_range (1 - d.fSlow0_float) ∧
  f32_range a ∧ f32_range b ∧
  f32_range (d.fSlow1_float * a) ∧ f32_range (d.fSlow0_float * b) ∧
  f32_range (f32 (d.fSlow1_float * a) + f32 (d.fSlow0_float * b))

/-- The method `Dsp::compute(int count, float *input0, float *input1, float *output0)` as the
code computes it. -/
def Dsp.compute_float (d : Dsp) (count : Int) (input0 input1 output0 : Ptr) (m : Mem) : Mem :=
  forLoop count.toNat (Dsp.step_float d.fSlow0_float d.fSlow1_float input0 input1 output0) m

end wet_dry

namespace impulseloader

/-- The lines under `// process conv` of `Engine::process`, with the gain stage as the code
computes it. -/
def Engine.process_conv_float (env : Env) (e : Engine) (n_samples : Nat) (output0 : Ptr)
    (m : Mem) : gain.Dsp × ConvolverSelector × Mem :=
  let p1 := e.plugin1.compute_float env.pow (int_of_uint32 n_samples) output0 output0 m
  if !e._execute && e.conv.is_runnable then
    let c := e.conv.compute env (int_of_uint32 n_samples) output0 output0 p1.2
    (p1.1, c.1, c.2)
  else (p1.1, e.conv, p1.2)

/-- The method `Engine::process(n_samples, input0, output0)`, with the gain and the mix stage
as the code computes them. -/
def Engine.process_float (env : Env) (e : Engine) (n_samples : Nat) (input0 output0 : Ptr)
    (w : World) : Engine × World :=
  if n_samples < 1 then (e, w)
  else if e.bypass = 0 then (e, w)
  else
    let m2 := Engine.process_copies n_samples input0 output0 w.mem
    let g := e.MXCSR.set_ w.csr
    let c := e.process_conv_float env n_samples output0 m2
    let m5 := e.plugin2.compute_float (int_of_uint32 n_samples) (buf0_ptr input0 output0)
                output0 output0 c.2.2
    ({ e with bufsize := n_samples, MXCSR := g.1, plugin1 := c.1, conv := c.2.1 },
     { mem := m5, csr := g.1.reset_ g.2 })

end impulseloader

/-- Modelled from the spec: the helper `ends_with(name, ext)` of the widget library is not
part of the sources; by the spec a file name is accepted when it "has extension `.wav`/`.WAV`",
so `ends_with(name, "wav")` tests whether `name` ends in a dot followed by `ext`. -/
def ends_with (name ext : String) : Bool := ('.' :: ext.data).isSuffixOf name.data

/-- The part of the struct `ModelPicker` the plugin classes read and write. -/
structure ModelPicker where
  filename : String
  dir_name : Option String
  deriving DecidableEq

/-- The method `get_file(fileName, m)` of both `ImpulseLoader` classes: the confirmation from
the engine that a file is loaded (the rebuilt file menu is not modelled). -/
def get_file (env : Env) (fileName : String) (m : ModelPicker) : ModelPicker :=
  if !fileName.isEmpty && fileName ≠ "None" then
    if fileName ≠ m.filename then
      let dn := env.dirname fileName
      if m.dir_name = none ∨ m.dir_name ≠ some dn then
        { filename := fileName, dir_name := some dn }
      else { m with filename := fileName }
    else m
  else if m.filename ≠ "None" then { m with filename := "None" }
  else m

/-- Modelled from the spec: the class `Params` (`Parameter.h`) is not part of the sources; the
spec's ParameterTable mirrors the backing values of the engine and keeps one dirty bit per
parameter, in registration order.  The record keeps the dirty bits and the two change flags. -/
structure Params where
  dirty : List Bool
  paramChanged : Bool
  controllerChanged : Bool
  deriving DecidableEq

namespace Params

/-- The table before any parameter is registered. -/
def new : Params := { dirty := [], paramChanged := false, controllerChanged := false }

/-- Modelled from the spec: `registerParam` appends a parameter, clean, at the next index. -/
def registerParam (p : Params) : Params := { p with dirty := p.dirty ++ [false] }

/-- Modelled from the spec: `getParamCount` is the number of registered parameters. -/
def getParamCount (p : Params) : Nat := p.dirty.length

/-- Modelled from the spec: `isParamDirty(i)` reads the dirty bit of the parameter `i`. -/
def isParamDirty (p : Params) (i : Nat) : Bool := p.dirty.getD i false

/-- Modelled from the spec: `setParamDirty(i, b)` writes the dirty bit of the parameter `i`. -/
def setParamDirty (p : Params) (i : Nat) (b : Bool) : Params := { p with dirty := p.dirty.set i b }

end Params

namespace Clap

/-- The state of the class `ImpulseLoader` of `clap/ImpulseLoader.cc`: the engine, the
parameter table, the swap request `workToDo`, the IR picker of the GUI and `firstLoop`. -/
structure ImpulseLoader where
  engine : impulseloader.Engine
  param : Params
  workToDo : Bool
  ir : ModelPicker
  firstLoop : Bool
  deriving DecidableEq

/-- The method `registerParameters`: Enable, Gain, Wet/Dry, Normalise, in this order. -/
def registerParameters (p : Params) : Params :=
  (((p.registerParam).registerParam).registerParam).registerParam

/-- The constructor `ImpulseLoader()` followed by `plugin_create_controller_widgets`. -/
def ImpulseLoader.new : ImpulseLoader :=
  { engine := impulseloader.Engine.new, param := registerParameters Params.new,
    workToDo := false, ir := { filename := "None", dir_name := none }, firstLoop := true }

/-- The method `initEngine(rate, prio, policy)` of `clap/ImpulseLoader.cc` (`s_time`, a
display constant, is not modelled). -/
def ImpulseLoader.initEngine (s : ImpulseLoader) (rate : Nat) (prio policy : Int) :
    ImpulseLoader :=
  { s with engine := { s.engine.init rate prio policy with bypass := 1 },
           param := { s.param.setParamDirty 1 true with controllerChanged := true } }

/-- The method `checkEngine` of `clap/ImpulseLoader.cc`. -/
def ImpulseLoader.checkEngine (env : Env) (s : ImpulseLoader) : ImpulseLoader :=
  if s.workToDo then
    if s.engine.xrworker.getProcess then
      { s with workToDo := false,
               engine := { s.engine with _execute := true,
                                         xrworker := s.engine.xrworker.runProcess } }
    else s
  else if s.engine._notify_ui then
    { s with ir := get_file env s.engine.ir_file s.ir,
             engine := { s.engine with _notify_ui := false, _cd := 0 } }
  else s

/-- The method `sendFileName(m, old)` of `clap/ImpulseLoader.cc`; `filename` is `m->filename`
and `m_is_ir` tells whether `m == &ps->ir`. -/
def ImpulseLoader.sendFileName (s : ImpulseLoader) (filename : String) (m_is_ir : Bool)
    (old : Int) : ImpulseLoader :=
  if filename = "None" then
    if old = 2 then
      let s1 :=
        if m_is_ir then
          { s with engine := { s.engine with ir_file := filename,
                                             _cd := wrap_int32 (s.engine._cd + 1) } }
        else s
      { s1 with workToDo := true }
    else s
  else if ends_with filename "wav" || ends_with filename "WAV" then
    let s1 :=
      if m_is_ir then
        { s with engine := { s.engine with ir_file := filename,
                                           _cd := wrap_int32 (s.engine._cd + 1) } }
      else s
    { s1 with workToDo := true }
  else s

/-- Modelled from the spec: the body of the worker thread is not part of the sources; a
triggered worker runs its registered callback `Engine::do_work_mono` once and returns to idle. -/
def ImpulseLoader.workerRun (env : Env) (s : ImpulseLoader) : ImpulseLoader :=
  let e := s.engine.do_work_mono env
  { s with engine := { e with xrworker := e.xrworker.finish } }

/-- The file requests `names`, sent in order from the IR picker of the GUI. -/
def ImpulseLoader.sendFileNames (s : ImpulseLoader) (names : List String) : ImpulseLoader :=
  names.foldl (fun t name => t.sendFileName name true 0) s

end Clap

namespace Standalone

/-- The state of the class `ImpulseLoader` of `standalone/ImpulseLoader.cc` the dispatch works on. -/
structure ImpulseLoader where
  engine : impulseloader.Engine
  workToDo : Bool
  ir : ModelPicker
  processCounter : Int
  settingsHaveChanged : Bool
  deriving DecidableEq

/-- The constructor `ImpulseLoader()` followed by `plugin_create_controller_widgets`. -/
def ImpulseLoader.new : ImpulseLoader :=
  { engine := impulseloader.Engine.new, workToDo := false,
    ir := { filename := "None", dir_name := none }, processCounter := 0,
    settingsHaveChanged := false }

/-- The method `checkEngine` of `standalone/ImpulseLoader.cc`. -/
def ImpulseLoader.checkEngine (env : Env) (s : ImpulseLoader) : ImpulseLoader :=
  if s.processCounter < 3 then { s with processCounter := s.processCounter + 1 }
  else if s.workToDo then
    if s.engine.xrworker.getProcess then
      { s with workToDo := false,
               engine := { s.engine with _execute := true,
                                         xrworker := s.engine.xrworker.runProcess } }
    else s
  else if s.engine._notify_ui then
    { s with ir := get_file env s.engine.ir_file s.ir,
             engine := { s.engine with _notify_ui := false, _cd := 0 } }
  else s

/-- Modelled from the spec: the body of the worker thread is not part of the sources; a
triggered worker runs its registered callback `Engine::do_work_mono` once and returns to idle. -/
def ImpulseLoader.workerRun (env : Env) (s : ImpulseLoader) : ImpulseLoader :=
  let e := s.engine.do_work_mono env
  { s with engine := { e with xrworker := e.xrworker.finish } }

end Standalone

namespace Lv2

/-- The atoms `read_set_file` tells apart: a URID, a path, anything else. -/
inductive Atom where
  | urid (body : Nat)
  | path (s : String)
  | other
  deriving DecidableEq

/-- The object types `check_messages` tells apart. -/
inductive OType where
  | patch_Get
  | patch_Set
  | other
  deriving DecidableEq

/-- An event of the control port: an object with its type and its `patch:property` and
`patch:value` entries (when present), or an atom that is no object. -/
inductive ControlEvent where
  | object (otype : OType) (property value : Option Atom)
  | nonObject
  deriving DecidableEq

/-- The values of the control ports `*_bypass`, `*_gain`, `*_wet_dry`, `*_normA`. -/
structure Ports where
  bypass : Sample
  gain : Sample
  wet_dry : Sample
  normA : Sample
  deriving DecidableEq

/-- The integral part of a value: truncation toward zero. -/
def trunc (x : Sample) : Int := if 0 ≤ x then ⌊x⌋ else ⌈x⌉

/-- The conversion `static_cast<uint32_t>(x)` of a `float`: the value is truncated toward
zero.  For a truncated value outside `0 .. 2^32 - 1`, where the C++ standard leaves the result
undefined, the value is the one x86-64 code gives: the conversion to a 64 bit integer
(`cvttss2si`), of which the low 32 bits are kept, and 0 beyond 64 bits. -/
def uint32_of_float (x : Sample) : Nat :=
  if -(2 : Int) ^ 63 ≤ trunc x ∧ trunc x < 2 ^ 63 then (trunc x % 2 ^ 32).toNat else 0

/-- The state of the class `Ximpulseloader` of `lv2/ImpulseLoader.cpp` that `check_messages`
works on; `notify` lists the files written to the notify port in this cycle. -/
structure Ximpulseloader where
  engine : impulseloader.Engine
  doit : Bool
  _restore : Bool
  processCounter : Int
  xlv2_ir_file : Nat
  notify : List String
  deriving DecidableEq

/-- The method `read_set_file(obj)`: the engine (whose `_cd` it may store) and the file path. -/
def Ximpulseloader.read_set_file (s : Ximpulseloader) (otype : OType)
    (property value : Option Atom) : Ximpulseloader × Option String :=
  if otype ≠ OType.patch_Set then (s, none)
  else
    let r : Option Ximpulseloader :=
      match property with
      | some (Atom.urid body) =>
          if body = s.xlv2_ir_file then some { s with engine := { s.engine with _cd := 1 } }
          else none
      | _ => some s
    match r with
    | none => (s, none)
    | some s1 =>
        match value with
        | some (Atom.path f) => (s1, some f)
        | _ => (s1, none)

/-- The body of the loop `LV2_ATOM_SEQUENCE_FOREACH(control, ev)` of `check_messages`. -/
def Ximpulseloader.on_event (s : Ximpulseloader) (ev : ControlEvent) : Ximpulseloader :=
  match ev with
  | ControlEvent.nonObject => s
  | ControlEvent.object otype property value =>
      if otype = OType.patch_Get then
        if s.engine.ir_file ≠ "None" then { s with notify := s.notify ++ [s.engine.ir_file] }
        else s
      else if otype = OType.patch_Set then
        let r := s.read_set_file otype property value
        match r.2 with
        | some f =>
            let s1 := r.1
            let s2 :=
              if s1.engine._cd = 1 then { s1 with engine := { s1.engine with ir_file := f } }
              else s1
            { s2 with doit := true }
        | none => r.1
      else s

/-- The lines of `check_messages` from `// fetch parameters from host` to the test of
`_restore`: the port values are stored, a changed normalise value is counted in `_cd` and
raises `doit` when a file is loaded, and a restored state raises `doit`. -/
def Ximpulseloader.fetch_ports (s1 : Ximpulseloader) (ports : Ports) : Ximpulseloader :=
  let s2 := { s1 with engine :=
    { s1.engine with bypass := uint32_of_float ports.bypass,
                     plugin1 := { s1.engine.plugin1 with gain := ports.gain },
                     plugin2 := { s1.engine.plugin2 with dry_wet := ports.wet_dry } } }
  let s3 :=
    if s2.engine.normA ≠ uint32_of_float ports.normA then
      let e := { s2.engine with normA := uint32_of_float ports.normA,
                                _cd := wrap_int32 (s2.engine._cd + 1),
                                conv := s2.engine.conv.set_normalisation
                                          (uint32_of_float ports.normA) }
      { s2 with engine := e, doit := if e.ir_file ≠ "None" then true else s2.doit }
    else s2
  if s3._restore then { s3 with doit := true, _restore := false } else s3

/-- The lines of `check_messages` under `// run worker thread when needed`. -/
def Ximpulseloader.run_worker (s4 : Ximpulseloader) : Ximpulseloader :=
  if s4.doit && !s4.engine._execute then
    { s4 with doit := false,
              engine := { s4.engine with _execute := true,
                                         xrworker := s4.engine.xrworker.runProcess } }
  else s4

/-- The lines of `check_messages` under `// notify UI on changed model files`. -/
def Ximpulseloader.notify_ui (s5 : Ximpulseloader) : Ximpulseloader :=
  if s5.engine._notify_ui then
    { s5 with notify := s5.notify ++ [s5.engine.ir_file],
              engine := { s5.engine with _notify_ui := false, _cd := 0 } }
  else s5

/-- The method `check_messages(n_samples)`: the guard, the forge reset and `bufsize`, the
event loop, then the three parts above in the order of the source. -/
def Ximpulseloader.check_messages (s : Ximpulseloader) (n_samples : Nat)
    (control : List ControlEvent) (ports : Ports) : Ximpulseloader :=
  if n_samples < 1 then s
  else
    let s0 := { s with notify := [], engine := { s.engine with bufsize := n_samples } }
    let s1 := control.foldl Ximpulseloader.on_event s0
    ((s1.fetch_ports ports).run_worker).notify_ui

end Lv2

/-! ## Text: the operations of `std::string` and `std::istringstream` the state code uses

Strings are processed as lists of characters.  The library functions whose result depends on
the platform (`std::stod`, the stream output of numbers, the decimal point of the locale) are
parameters, collected in `Stdlib`. -/

/-- The method `std::string::find(pat)` on the characters `s`: the index of the first
occurrence of `pat`, or `none` for `npos`. -/
def str_find (pat : List Char) : List Char → Option Nat
  | [] => if pat = [] then some 0 else none
  | c :: cs => if pat.isPrefixOf (c :: cs) then some 0 else (str_find pat cs).map (· + 1)

/-- The method `std::string::replace(pos, len, r)`: the `len` characters from `pos` on (fewer
when the string ends before) are replaced by `r`. -/
def str_replace (s : List Char) (pos len : Nat) (r : List Char) : List Char :=
  s.take pos ++ r ++ s.drop (pos + len)

/-- The method `std::string::erase(first, last)` on indices. -/
def str_erase (s : List Char) (first last : Nat) : List Char :=
  s.take first ++ s.drop last

/-- The test `isspace` of the C locale: space, and the controls 9 to 13. -/
def is_space (c : Char) : Bool := c = ' ' || (9 ≤ c.toNat && c.toNat ≤ 13)

/-- An input string stream: the characters not yet read and whether the stream is `good()`. -/
structure IStream where
  rest : List Char
  good : Bool
  deriving DecidableEq

/-- The extraction `buf >> value` of a `std::string`: when the stream is not good, or only
white space is left, the extraction fails and `value` keeps its content; otherwise `value`
becomes the next run of characters that are not white space, and the stream stays good only
when that run ended before the end of the stream. -/
def IStream.extract (buf : IStream) (value : String) : IStream × String :=
  if !buf.good then (buf, value)
  else
    let r := buf.rest.dropWhile is_space
    if r = [] then ({ rest := [], good := false }, value)
    else
      let rest := r.dropWhile (fun c => !is_space c)
      ({ rest := rest, good := !rest.isEmpty }, String.mk (r.takeWhile (fun c => !is_space c)))

/-- The library functions of the state code: the decimal point of the C locale
(`localeconv()->decimal_point`), `std::stod` (`none` when it throws `std::invalid_argument`
or `std::out_of_range`), and the stream output of a `float` and of a `uint32_t`. -/
structure Stdlib where
  decimal_point : String
  stod : String → Option Sample
  show_float : Sample → String
  show_uint : Nat → String

/-- The string `check_stod(str)` hands to `std::stod` (both `ImpulseLoader` classes): under a
locale whose decimal point is not ".", the copy of `str` after
`temp_str.replace(point_it, point_it + 1, point)` at the first "." of `str`. -/
def check_stod_arg (point : String) (str : String) : String :=
  if "." ≠ point then
    match str_find ['.'] str.data with
    | some point_it => String.mk (str_replace str.data point_it (point_it + 1) point.data)
    | none => str
  else str

/-- The method `float check_stod(str)` of both `ImpulseLoader` classes: the `double` that
`std::stod` returns, narrowed to `float` by the `return`; `none` when `std::stod` throws. -/
def check_stod (lib : Stdlib) (str : String) : Option Sample :=
  (lib.stod (check_stod_arg lib.decimal_point str)).map f32

/-- The method `remove_sub(a, b)` of both `ImpulseLoader` classes. -/
def remove_sub (a b : String) : String :=
  match str_find b.data a.data with
  | some fpos => String.mk (str_erase a.data fpos (fpos + b.data.length))
  | none => a

namespace Clap

/-- The body of the loop of `readState` from `std::istringstream buf(line)` to the end of the
`if`/`else if`: one segment of the state string; `none` when `check_stod` throws. -/
def ImpulseLoader.readState_line (lib : Stdlib) (s : ImpulseLoader) (line : List Char) :
    Option ImpulseLoader :=
  let buf : IStream := { rest := line, good := true }
  let k := buf.extract ""
  let v := k.1.extract ""
  if k.2 = "[CONTROLS]" then
    (check_stod lib v.2).bind fun g =>
    let v2 := v.1.extract v.2
    (check_stod lib v2.2).bind fun w =>
    let v3 := v2.1.extract v2.2
    (check_stod lib v3.2).bind fun b =>
    let v4 := v3.1.extract v3.2
    (check_stod lib v4.2).bind fun n =>
    some { s with engine :=
      { s.engine with plugin1 := { s.engine.plugin1 with gain := g },
                      plugin2 := { s.engine.plugin2 with dry_wet := w },
                      bypass := Lv2.uint32_of_float b,
                      normA := Lv2.uint32_of_float n,
                      _cd := 1,
                      conv := s.engine.conv.set_normalisation (Lv2.uint32_of_float n) } }
  else if k.2 = "[IrFile]" then
    some { s with engine :=
      { s.engine with ir_file := remove_sub (String.mk line) "[IrFile] ", _cd := 1 } }
  else some s

/-- The loop `while (pos != std::string::npos)` of `readState` on the rest `stream` of the
state string and the position `pos` of its first "|".  Every round drops at least one
character of `stream`, so `stream.length + 1` rounds of `fuel` are never used up. -/
def ImpulseLoader.readState_loop (lib : Stdlib) :
    Nat → ImpulseLoader → List Char → Option Nat → Option ImpulseLoader
  | 0, s, _, _ => some s
  | _ + 1, s, _, none => some s
  | fuel + 1, s, stream, some pos =>
      (ImpulseLoader.readState_line lib s (stream.take pos)).bind fun s1 =>
      let stream1 := stream.drop (pos + 1)
      ImpulseLoader.readState_loop lib fuel s1 stream1 (str_find ['|'] stream1)

/-- The lines of `readState` after the loop: the request is raised and, when the worker is
idle, dispatched at once. -/
def ImpulseLoader.readState_dispatch (s : ImpulseLoader) : ImpulseLoader :=
  let s1 := { s with workToDo := true }
  if s1.engine.xrworker.getProcess then
    { s1 with workToDo := false,
              engine := { s1.engine with _execute := true,
                                         xrworker := s1.engine.xrworker.runProcess } }
  else s1

/-- The method `readState(_stream)` of `clap/ImpulseLoader.cc`; `none` when an exception of
`std::stod` leaves it. -/
def ImpulseLoader.readState (lib : Stdlib) (s : ImpulseLoader) (_stream : String) :
    Option ImpulseLoader :=
  (ImpulseLoader.readState_loop lib (_stream.data.length + 1) s _stream.data
    (str_find ['|'] _stream.data)).map ImpulseLoader.readState_dispatch

/-- The method `saveState(state)` of `clap/ImpulseLoader.cc`: the text written to `*state`. -/
def ImpulseLoader.saveState (lib : Stdlib) (s : ImpulseLoader) : String :=
  "[CONTROLS] " ++ lib.show_float s.engine.plugin1.gain ++ " "
    ++ lib.show_float s.engine.plugin2.dry_wet ++ " "
    ++ lib.show_uint s.engine.bypass ++ " "
    ++ lib.show_uint s.engine.normA ++ " "
    ++ "|" ++ "[IrFile] " ++ s.engine.ir_file ++ "|"

end Clap

/-! ## Runs of the control-rate dispatch

The claims on latched requests speak of later calls.  A run is a list of events, each one
uninterrupted run of a function: a call of the dispatching method, the worker finishing its
callback, or a call of any other method of the class.  The other methods are given by what
they cannot do, which is read off the sources: each field named below is written by no other
method than the ones listed with it. -/

namespace Standalone

/-- What moves the standalone program from one state to the next: a call of `checkEngine`, the
worker finishing its run, or a call of another method.  In `standalone/ImpulseLoader.cc`,
`processCounter` is written by the constructor and `checkEngine` only, `runProcess` is called
by `checkEngine` only and `false` is stored to `workToDo` by the constructor and `checkEngine`
only; `other t` stands for any other method and leaves the fields of `t` elsewhere. -/
inductive Event where
  | tick
  | worker
  | other (t : ImpulseLoader)

/-- The state after one event. -/
def ImpulseLoader.step (env : Env) (s : ImpulseLoader) : Event → ImpulseLoader
  | Event.tick => s.checkEngine env
  | Event.worker => if s.engine.xrworker.getProcess then s else s.workerRun env
  | Event.other t =>
      { t with workToDo := s.workToDo || t.workToDo, processCounter := s.processCounter,
               engine := { t.engine with xrworker := s.engine.xrworker } }

/-- The state after the events `es`, in order. -/
def ImpulseLoader.run (env : Env) (s : ImpulseLoader) (es : List Event) : ImpulseLoader :=
  es.foldl (ImpulseLoader.step env) s

/-- Every call of `checkEngine` among the events `es`, run from `s`, finds the worker busy. -/
def ImpulseLoader.ticks_busy (env : Env) : ImpulseLoader → List Event → Bool
  | _, [] => true
  | s, Event.tick :: es =>
      !s.engine.xrworker.getProcess && ImpulseLoader.ticks_busy env (s.checkEngine env) es
  | s, e :: es => ImpulseLoader.ticks_busy env (s.step env e) es

end Standalone

namespace Clap

/-- What moves the CLAP plugin from one state to the next: a call of `checkEngine`, the worker
finishing its run, a call of `readState`, or a call of another method.  In
`clap/ImpulseLoader.cc`, `runProcess` is called and `false` is stored to `workToDo` by
`checkEngine` and `readState` only (and `false` by the constructor); `other t` stands for any
other method and leaves the fields of `t` elsewhere, `load t` stands for `readState`, whose
loop leaves the fields of `t` and whose last lines are `readState_dispatch`. -/
inductive Event where
  | tick
  | worker
  | other (t : ImpulseLoader)
  | load (t : ImpulseLoader)

/-- The state after one event. -/
def ImpulseLoader.step (env : Env) (s : ImpulseLoader) : Event → ImpulseLoader
  | Event.tick => s.checkEngine env
  | Event.worker => if s.engine.xrworker.getProcess then s else s.workerRun env
  | Event.other t =>
      { t with workToDo := s.workToDo || t.workToDo,
               engine := { t.engine with xrworker := s.engine.xrworker } }
  | Event.load t =>
      ImpulseLoader.readState_dispatch
        { t with workToDo := s.workToDo || t.workToDo,
                 engine := { t.engine with xrworker := s.engine.xrworker } }

/-- The state after the events `es`, in order. -/
def ImpulseLoader.run (env : Env) (s : ImpulseLoader) (es : List Event) : ImpulseLoader :=
  es.foldl (ImpulseLoader.step env) s

/-- Every call of `checkEngine` among the events `es`, run from `s`, finds the worker busy. -/
def ImpulseLoader.ticks_busy (env : Env) : ImpulseLoader → List Event → Bool
  | _, [] => true
  | s, Event.tick :: es =>
      !s.engine.xrworker.getProcess && ImpulseLoader.ticks_busy env (s.checkEngine env) es
  | s, e :: es => ImpulseLoader.ticks_busy env (s.step env e) es

end Clap

namespace Lv2

/-- The method `runBufferedDsp(n_samples)` of `lv2/ImpulseLoader.cpp`, the only caller of
`check_messages`; `input0` and `output0` are the connected audio ports. -/
def Ximpulseloader.runBufferedDsp (env : Env) (s : Ximpulseloader) (n_samples : Nat)
    (control : List ControlEvent) (ports : Ports) (input0 output0 : Ptr)
    (w : impulseloader.World) : Ximpulseloader × impulseloader.World :=
  if n_samples < 1 then (s, w)
  else
    let m1 := if output0 ≠ input0 then memcpy w.mem output0 input0 n_samples else w.mem
    if s.processCounter < 5 then
      ({ s with processCounter := s.processCounter + 1 }, { w with mem := m1 })
    else
      let s1 := s.check_messages n_samples control ports
      let r := s1.engine.process_float env n_samples output0 output0 { w with mem := m1 }
      ({ s1 with engine := r.1 }, r.2)

/-- Modelled from the spec: the body of the worker thread is not part of the sources; a
triggered worker runs its registered callback `Engine::do_work_mono` once and returns to idle. -/
def Ximpulseloader.workerRun (env : Env) (s : Ximpulseloader) : Ximpulseloader :=
  { s with engine := { s.engine.do_work_mono env with
                         xrworker := (s.engine.do_work_mono env).xrworker.finish } }

/-- The value of `doit` when `check_messages(n_samples)` reaches the test under
`// run worker thread when needed`. -/
def Ximpulseloader.requested (s : Ximpulseloader) (n_samples : Nat)
    (control : List ControlEvent) (ports : Ports) : Bool :=
  ((control.foldl Ximpulseloader.on_event
      { s with notify := [], engine := { s.engine with bufsize := n_samples } }).fetch_ports
    ports).doit

/-- What moves the LV2 plugin from one state to the next: a call of `runBufferedDsp` (with the
control events, the port values, the audio ports and the memory the host passes), the worker
finishing its run, a call of the worker interface `work` by the host (it runs
`engine.do_work_mono()` whether the worker was triggered or not), or a call of another method.
In `lv2/ImpulseLoader.cpp` and `engine.h`, after `init_dsp_`, `doit` is written by
`check_messages` only, `processCounter` by `runBufferedDsp` only, `_execute` by
`check_messages` and `do_work_mono` only, and `runProcess` is called by `check_messages` only;
`other t` stands for any other method (such as `restore_state`) and leaves the fields of `t`
elsewhere. -/
inductive Event where
  | cycle (n_samples : Nat) (control : List ControlEvent) (ports : Ports)
      (input0 output0 : Ptr) (w : impulseloader.World)
  | worker
  | work
  | other (t : Ximpulseloader)

/-- The state after one event. -/
def Ximpulseloader.step (env : Env) (s : Ximpulseloader) : Event → Ximpulseloader
  | Event.cycle n_samples control ports input0 output0 w =>
      (s.runBufferedDsp env n_samples control ports input0 output0 w).1
  | Event.worker => if s.engine.xrworker.getProcess then s else s.workerRun env
  | Event.work => { s with engine := s.engine.do_work_mono env }
  | Event.other t =>
      { t with doit := s.doit, processCounter := s.processCounter,
               engine := { t.engine with _execute := s.engine._execute,
                                         xrworker := s.engine.xrworker } }

/-- The state after the events `es`, in order. -/
def Ximpulseloader.run (env : Env) (s : Ximpulseloader) (es : List Event) : Ximpulseloader :=
  es.foldl (Ximpulseloader.step env) s

/-- No new request arrives once the pending one is dispatched: every call of `check_messages`
among the events `es`, run from `s`, that starts with `doit` clear reaches the test of `doit`
with `doit` clear. -/
def Ximpulseloader.no_new_request (env : Env) : Ximpulseloader → List Event → Bool
  | _, [] => true
  | s, Event.cycle n_samples control ports input0 output0 w :: es =>
      (decide (n_samples < 1) || decide (s.processCounter < 5) || s.doit
        || !s.requested n_samples control ports)
      && Ximpulseloader.no_new_request env
          (s.step env (Event.cycle n_samples control ports input0 output0 w)) es
  | s, e :: es => Ximpulseloader.no_new_request env (s.step env e) es

end Lv2

namespace Clap

/-- Modelled from the spec: `Params::getParam(i)` (`Parameter.h`, not part of the sources) reads
the backing value registered at index `i`; by `registerParameters` these are `engine.bypass`,
`engine.plugin1->gain`, `engine.plugin2->dry_wet` and `engine.normA`. -/
def ImpulseLoader.getParam (s : ImpulseLoader) (i : Nat) : Sample :=
  match i with
  | 0 => (s.engine.bypass : Sample)
  | 1 => s.engine.plugin1.gain
  | 2 => s.engine.plugin2.dry_wet
  | 3 => (s.engine.normA : Sample)
  | _ => 0

/-- The method `sendValueChanged(port, value)` of `clap/ImpulseLoader.cc`. -/
def ImpulseLoader.sendValueChanged (s : ImpulseLoader) (port : Int) (value : Sample) :
    ImpulseLoader :=
  let s1 :=
    if port = 2 then
      { s with engine := { s.engine with bypass := Lv2.uint32_of_float value },
               param := s.param.setParamDirty 2 true }
    else if port = 3 then
      { s with engine := { s.engine with plugin1 := { s.engine.plugin1 with gain := value } },
               param := s.param.setParamDirty 0 true }
    else if port = 4 then
      { s with engine := { s.engine with plugin2 := { s.engine.plugin2 with dry_wet := value } },
               param := s.param.setParamDirty 1 true }
    else if port = 7 then
      { s with engine := { s.engine with
                             normA := Lv2.uint32_of_float value,
                             _cd := 1,
                             conv := s.engine.conv.set_normalisation
                                       (Lv2.uint32_of_float value) },
               param := s.param.setParamDirty 3 true,
               workToDo := true }
    else s
  { s1 with param := { s1.param with controllerChanged := true } }

/-- The event `clap_event_param_value_t` pushed by `sync_params_to_host`: the fields that vary
(`time`, `flags` are 0, `note_id`, `port_index`, `channel`, `key` are -1 in every event). -/
structure ParamEvent where
  param_id : Nat
  value : Sample
  deriving DecidableEq

/-- The events the host is to receive for the first `k` parameters of `s`: one for each dirty
parameter, in index order, with the index as identifier and the current value. -/
def dirty_events (s : ImpulseLoader) (k : Nat) : List ParamEvent :=
  (List.range k).filterMap fun i =>
    if s.param.isParamDirty i then some { param_id := i, value := s.getParam i } else none

/-- One round of the loop of `sync_params_to_host`; `out->try_push` is taken to queue the
event at the end of the host's list. -/
def sync_step (i : Nat) (t : ImpulseLoader × List ParamEvent) : ImpulseLoader × List ParamEvent :=
  if t.1.param.isParamDirty i then
    ({ t.1 with param := t.1.param.setParamDirty i false },
     t.2 ++ [{ param_id := i, value := t.1.getParam i }])
  else t

/-- The function `sync_params_to_host(plugin, out)` of `ClapPlug.cpp`. -/
def sync_params_to_host (s : ImpulseLoader) (out : List ParamEvent) :
    ImpulseLoader × List ParamEvent :=
  forLoop s.param.getParamCount sync_step (s, out)

/-- The lines of `process` of `ClapPlug.cpp` that report GUI changes to the host: the sync runs
when `controllerChanged` is set, and the flag is cleared. -/
def process_sync (s : ImpulseLoader) (out : List ParamEvent) : ImpulseLoader × List ParamEvent :=
  if s.param.controllerChanged then
    let r := sync_params_to_host s out
    ({ r.1 with param := { r.1.param with controllerChanged := false } }, r.2)
  else (s, out)

/-- The struct `plugin_t` of `ClapPlug.cpp`: the fields the state code uses. -/
structure plugin_t where
  r : ImpulseLoader
  state : String
  isInited : Bool
  deriving DecidableEq

/-- The callback `file_load_response(w_, user_data)` of `gui/ImpulseLoader.c` in the CLAP build,
for the file button of the IR picker (`m == &ps->ir`); `user_data` is the chosen file name. -/
def file_load_response (s : ImpulseLoader) (user_data : Option String) : ImpulseLoader :=
  match user_data with
  | none => s
  | some name =>
      let old : Int :=
        if ends_with s.ir.filename "wav" || ends_with s.ir.filename "WAV" then 2 else 0
      let s1 := { s with ir := { s.ir with filename := name } }
      let s2 := s1.sendFileName s1.ir.filename true old
      { s2 with ir := { s2.ir with filename := "None" } }

end Clap

namespace Standalone

/-- The method `sendFileName(m, old)` of `standalone/ImpulseLoader.cc`; `filename` is
`m->filename` and `m_is_ir` tells whether `m == &ps->ir`. -/
def ImpulseLoader.sendFileName (s : ImpulseLoader) (filename : String) (m_is_ir : Bool)
    (old : Int) : ImpulseLoader :=
  if filename = "None" then
    if old = 2 then
      let s1 :=
        if m_is_ir then
          { s with engine := { s.engine with ir_file := filename,
                                             _cd := wrap_int32 (s.engine._cd + 1) } }
        else s
      { s1 with settingsHaveChanged := true, workToDo := true }
    else s
  else if ends_with filename "wav" || ends_with filename "WAV" then
    let s1 :=
      if m_is_ir then
        { s with engine := { s.engine with ir_file := filename,
                                           _cd := wrap_int32 (s.engine._cd + 1) } }
      else s
    { s1 with settingsHaveChanged := true, workToDo := true }
  else s

/-- The callback `file_load_response(w_, user_data)` of `gui/ImpulseLoader.c` in the standalone
build, for the file button of the IR picker. -/
def file_load_response (s : ImpulseLoader) (user_data : Option String) : ImpulseLoader :=
  match user_data with
  | none => s
  | some name =>
      let old : Int :=
        if ends_with s.ir.filename "wav" || ends_with s.ir.filename "WAV" then 2 else 0
      let s1 := { s with ir := { s.ir with filename := name } }
      let s2 := s1.sendFileName s1.ir.filename true old
      { s2 with ir := { s2.ir with filename := "None" } }

end Standalone

/-! ## The form of a state string -/

/-- A token of a state string: not empty, without white space and without "|". -/
def is_token (t : String) : Bool :=
  !t.data.isEmpty && t.data.all (fun c => !is_space c && c != '|')

/-- The characters of the segment `[CONTROLS] g w b n ` (each token followed by one space). -/
def controls_text (g w b n : String) : List Char :=
  "[CONTROLS] ".data ++ g.data ++ [' '] ++ w.data ++ [' '] ++ b.data ++ [' '] ++ n.data ++ [' ']

/-- The characters of the segment `[IrFile] p`. -/
def irfile_text (p : String) : List Char := "[IrFile] ".data ++ p.data

/-- The state string `[CONTROLS] g w b n |[IrFile] p|`. -/
def state_text (g w b n p : String) : String :=
  String.mk (controls_text g w b n ++ '|' :: (irfile_text p ++ ['|']))

/-! ## The audio callback of the CLAP plugin: input events, then the engine -/

namespace Clap

/-- The constant `CLAP_CORE_EVENT_SPACE_ID` of the CLAP headers. -/
def CLAP_CORE_EVENT_SPACE_ID : Nat := 0

/-- The constant `CLAP_EVENT_PARAM_VALUE` of the CLAP headers. -/
def CLAP_EVENT_PARAM_VALUE : Nat := 5

/-- The constant `CLAP_PROCESS_ERROR` of the CLAP headers, the status `return false` gives. -/
def CLAP_PROCESS_ERROR : Int := 0

/-- The constant `CLAP_PROCESS_CONTINUE` of the CLAP headers. -/
def CLAP_PROCESS_CONTINUE : Int := 1

/-- An input event of the host: the header fields `time`, `space_id` and `type`, and the fields
`param_id` and `value` a `clap_event_param_value_t` carries. -/
structure InEvent where
  time : Nat
  space_id : Nat
  type : Nat
  param_id : Nat
  value : Sample
  deriving DecidableEq

/-- Modelled from the spec: `Params::setParam(i, value)` (`Parameter.h`, not part of the
sources) is the spec's `set(index, value)`, a "direct read/write of the backing value" that
"also marks the corresponding dirty bit"; the backing values are those `registerParameters`
registers (`engine.bypass`, `engine.plugin1->gain`, `engine.plugin2->dry_wet`, `engine.normA`,
the two `IS_UINT` ones stored as `uint32_t`).  An index that is not registered changes nothing. -/
def ImpulseLoader.setParam (s : ImpulseLoader) (i : Nat) (value : Sample) : ImpulseLoader :=
  match i with
  | 0 => { s with engine := { s.engine with bypass := Lv2.uint32_of_float value },
                  param := s.param.setParamDirty 0 true }
  | 1 => { s with engine := { s.engine with plugin1 := { s.engine.plugin1 with gain := value } },
                  param := s.param.setParamDirty 1 true }
  | 2 => { s with engine := { s.engine with plugin2 := { s.engine.plugin2 with dry_wet := value } },
                  param := s.param.setParamDirty 2 true }
  | 3 => { s with engine := { s.engine with normA := Lv2.uint32_of_float value },
                  param := s.param.setParamDirty 3 true }
  | _ => s

/-- The function `sync_params_to_plug(plugin, hdr)` of `ClapPlug.cpp`. -/
def sync_params_to_plug (s : ImpulseLoader) (hdr : InEvent) : ImpulseLoader :=
  if hdr.space_id = CLAP_CORE_EVENT_SPACE_ID then
    if hdr.type = CLAP_EVENT_PARAM_VALUE then s.setParam hdr.param_id hdr.value
    else s
  else s

/-- The variables of the event loop of `process`: what the calls of `sync_params_to_plug`
work on, `ev_index` and `next_ev_frame`. -/
structure EventLoop (σ : Type) where
  r : σ
  ev_index : Nat
  next_ev_frame : Nat

/-- The loop `while (ev_index < nev && next_ev_frame == i)` of `process`, at the frame `i`;
`sync` stands for the call `sync_params_to_plug(plugin, hdr)`. -/
def event_while {σ : Type} (sync : σ → InEvent → σ) (in_events : List InEvent)
    (nframes i : Nat) (st : EventLoop σ) : EventLoop σ :=
  if h : st.ev_index < in_events.length ∧ st.next_ev_frame = i then
    let hdr := in_events.get ⟨st.ev_index, h.1⟩
    if hdr.time ≠ i then { st with next_ev_frame := hdr.time }
    else
      let st1 : EventLoop σ := { st with r := sync st.r hdr, ev_index := st.ev_index + 1 }
      if st1.ev_index = in_events.length then { st1 with next_ev_frame := nframes }
      else event_while sync in_events nframes i st1
  else st
termination_by in_events.length - st.ev_index
decreasing_by
  all_goals simp_wf
  all_goals omega

/-- The loop `for (uint32_t i = 0; i < nframes; ++i)` of `process` with the initial values of
`ev_index` and `next_ev_frame`. -/
def event_loop {σ : Type} (sync : σ → InEvent → σ) (in_events : List InEvent)
    (nframes : Nat) (r : σ) : EventLoop σ :=
  forLoop nframes (event_while sync in_events nframes)
    { r := r, ev_index := 0, next_ev_frame := if in_events.length > 0 then 0 else nframes }

/-- The method `process(n_samples, output, output1)` of `clap/ImpulseLoader.cc`. -/
def ImpulseLoader.process (env : Env) (s : ImpulseLoader) (n_samples : Nat)
    (output output1 : Ptr) (w : impulseloader.World) : ImpulseLoader × impulseloader.World :=
  let r := s.engine.process env n_samples output output1 w
  ({ s with engine := r.1 }, r.2)

/-- The fields of `clap_process_t` the callback reads: the channel counts and the first
channel of the first input and output port, the frame count and the input events. -/
structure clap_process_t where
  in_channel_count : Nat
  out_channel_count : Nat
  input : Ptr
  left_output : Ptr
  frames_count : Nat
  in_events : List InEvent

/-- The callback `process(plugin, process)` of `ClapPlug.cpp`: the status returned, the
plugin, the events pushed to the host and the audio memory. -/
def process (env : Env) (plug : plugin_t) (p : clap_process_t) (out_events : List ParamEvent)
    (w : impulseloader.World) : Int × plugin_t × List ParamEvent × impulseloader.World :=
  if p.in_channel_count < 1 ∨ p.out_channel_count < 1 then
    (CLAP_PROCESS_ERROR, plug, out_events, w)
  else
    let h := process_sync plug.r out_events
    let st := event_loop sync_params_to_plug p.in_events p.frames_count h.1
    let m1 :=
      if p.left_output ≠ p.input then memcpy w.mem p.left_output p.input p.frames_count
      else w.mem
    let r := st.r.process env p.frames_count p.left_output p.left_output { w with mem := m1 }
    (CLAP_PROCESS_CONTINUE, { plug with r := r.1 }, h.2, r.2)

/-- The longest run from the start of an event list whose times do not decrease and stay
below `nframes`: the events a block is said to apply.  `last` is the time of the event before
(0 at the start of the list). -/
def ordered_run (nframes : Nat) : Nat → List InEvent → List InEvent
  | _, [] => []
  | last, e :: es =>
      if last ≤ e.time ∧ e.time < nframes then e :: ordered_run nframes e.time es else []

end Clap

/-! ## Block splitting and the label crop of the GUI -/

/-- The memory as seen through pointers advanced by `k` frames (`input0 + k`, `output0 + k`). -/
def Mem.shift (m : Mem) (k : Nat) : Mem := fun q j => m q (j + k)

/-- The test `(*lastByte & 0xC0) != 0x80` of `utf8crop`: the byte does not continue a
UTF-8 character. -/
def utf8_lead (b : Nat) : Bool := b &&& 0xC0 != 0x80

/-- The inner loop `while (lastByte-- > src) if (..) break;` of `utf8crop`, started with
`lastByte = src + n`: the final `lastByte - src`, or `none` when the loop ran through and
left `lastByte` at `src - 1`.  The string `src` is the list of its bytes before the NUL. -/
def utf8crop_scan (src : List Nat) : (n : Nat) → Option (Fin n)
  | 0 => none
  | k + 1 =>
      if utf8_lead (src.getD k 0) then some ⟨k, Nat.lt_succ_self k⟩
      else (utf8crop_scan src k).map Fin.castSucc

/-- The loop `while (sizeSrc >= sizeDest)` of `utf8crop`: the final `sizeSrc`.  When the
inner loop leaves `lastByte` at `src - 1` the difference `lastByte - src` is not a size and
the next round would read before the string: the result is `none`. -/
def utf8crop_loop (src : List Nat) (sizeDest sizeSrc : Nat) : Option Nat :=
  if sizeSrc ≥ sizeDest then
    match utf8crop_scan src sizeSrc with
    | some k => utf8crop_loop src sizeDest k.val
    | none => none
  else some sizeSrc
termination_by sizeSrc
decreasing_by exact k.isLt

/-- The function `utf8crop(dst, src, sizeDest)` of `widgets.cc`: the string `dst` holds
afterwards (`memcpy` of `sizeSrc` bytes, then the NUL). -/
def utf8crop (dst src : List Nat) (sizeDest : Nat) : Option (List Nat) :=
  if sizeDest ≠ 0 then (utf8crop_loop src sizeDest src.length).map fun sizeSrc => src.take sizeSrc
  else some dst

/-! ## Stand-ins for the library functions, for the examples -/

/-- The value of a run of decimal digits. -/
def digits_value (ds : List Char) : Nat :=
  ds.foldl (fun acc d => acc * 10 + (d.toNat - 48)) 0

/-- A stand-in for `std::stod` under a locale with the decimal point `point`: an optional sign,
digits, optionally the decimal point and digits; whatever follows is left unread, and without
any digit the conversion fails.  (Exponents, hexadecimal forms, `inf` and `nan` are not
covered; the examples do not use them.) -/
def stod_simple (point : Char) (str : String) : Option Sample :=
  let t := str.data.dropWhile is_space
  let neg := t.head? = some '-'
  let u := if t.head? = some '-' ∨ t.head? = some '+' then t.tail else t
  let ip := u.takeWhile Char.isDigit
  let r := u.dropWhile Char.isDigit
  let fp := if r.head? = some point then r.tail.takeWhile Char.isDigit else []
  if ip = [] ∧ fp = [] then none
  else
    let v : Sample := (digits_value ip : Sample) + (digits_value fp : Sample) / 10 ^ fp.length
    some (if neg then -v else v)

/-- A stand-in for the stream output of a `float`: exact on the integral values the examples
print (`3` is printed as "3"); other values are printed as their integral part. -/
def show_float_simple (q : Sample) : String :=
  if q < 0 then "-" ++ toString (Int.toNat (-⌊q⌋)) else toString (Int.toNat ⌊q⌋)

/-- The library under the C locale, decimal point ".". -/
def lib_c : Stdlib :=
  { decimal_point := ".", stod := stod_simple '.', show_float := show_float_simple,
    show_uint := fun n => toString n }

/-- The library under a locale whose decimal point is ",". -/
def lib_comma : Stdlib :=
  { decimal_point := ",", stod := stod_simple ',', show_float := show_float_simple,
    show_uint := fun n => toString n }

/-! ## A concrete environment and concrete states for the examples -/

/-- An environment for the examples: `pow` is exact at integral exponents (the examples use the
exponent 0 only), every file can be started at the first poll, the kernel doubles each frame. -/
def env0 : Env :=
  { pow := fun b x => b ^ ⌊x⌋,
    startOk := fun _ => true,
    polls := fun _ => 0,
    kernel := fun c _ b => (fun i => 2 * b i, c),
    dirname := fun f => f }

/-- The environment `env0`, except that no kernel can be started. -/
def env_fail : Env := { env0 with startOk := fun _ => false }

/-- A memory with the sample 1 in every frame. -/
def mem_ones : Mem := fun _ _ => 1

/-- A memory with the sample 1 in every frame of the buffer 0 and silence elsewhere. -/
def mem_dry_one : Mem := fun p _ => if p = 0 then 1 else 0

/-- The gain stage at the parameter 0 with the smoothing state at `1 + 2^(-50)`, the `double`
next to `0.0010000000000000009 / (1 - 0.999)`. -/
def gain_settled : gain.Dsp :=
  { fSampleRate := 48000, gain := 0, fRec0 := (1 + 1 / 2 ^ 50, 1 + 1 / 2 ^ 50) }

/-- The engine after construction and `init(48000, 25, 1)`, switched on (`bypass = 1`). -/
def engine_on : impulseloader.Engine :=
  { impulseloader.Engine.init impulseloader.Engine.new 48000 25 1 with bypass := 1 }

/-- The switched-on engine after a successful rebuild from `a.wav`: the kernel is runnable. -/
def engine_loaded : impulseloader.Engine :=
  { engine_on with
      ir_file := "a.wav",
      conv := { ConvolverSelector.new with ready := true, samplerate := 48000,
                                            irfile := some "a.wav" } }

/-- The switched-on engine with a dispatched rebuild request for `missing.wav`. -/
def engine_request_missing : impulseloader.Engine :=
  { engine_on with ir_file := "missing.wav", _cd := 1, _execute := true }

/-- The CLAP plugin after construction and `initEngine(48000, 25, 1)`: engine switched on,
nothing loaded, worker idle, no request pending. -/
def clap_inited : Clap.ImpulseLoader := Clap.ImpulseLoader.new.initEngine 48000 25 1

/-- The CLAP plugin with the file `a.wav` requested and not yet dispatched. -/
def clap_pending : Clap.ImpulseLoader := clap_inited.sendFileName "a.wav" true 0

/-- The standalone program after construction and `initEngine`, before the first call of
`checkEngine`, with a request pending and the worker idle. -/
def standalone_pending : Standalone.ImpulseLoader :=
  { Standalone.ImpulseLoader.new with engine := engine_on, workToDo := true }

/-- The standalone program after its warm-up, with a request pending and the worker idle. -/
def standalone_warm : Standalone.ImpulseLoader :=
  { standalone_pending with processCounter := 3 }

/-- The CLAP plugin with the request for `a.wav` dispatched and a request for `b.wav` latched
while the worker is running: `initEngine`, `sendFileName`, `checkEngine`, `sendFileName`. -/
def clap_latched : Clap.ImpulseLoader :=
  ((clap_inited.sendFileName "a.wav" true 0).checkEngine env0).sendFileName "b.wav" true 0

/-- The standalone program after construction and the three calls of `checkEngine` of its
warm-up. -/
def standalone_warmed : Standalone.ImpulseLoader :=
  Standalone.ImpulseLoader.new.run env0
    [Standalone.Event.tick, Standalone.Event.tick, Standalone.Event.tick]

/-- The warmed-up standalone program after a request for `a.wav` and the call of `checkEngine`
that dispatches it. -/
def standalone_dispatched : Standalone.ImpulseLoader :=
  (standalone_warmed.sendFileName "a.wav" true 0).checkEngine env0

/-- The standalone program with the request for `a.wav` dispatched and a request for `b.wav`
latched while the worker is running. -/
def standalone_latched : Standalone.ImpulseLoader :=
  standalone_dispatched.sendFileName "b.wav" true 0

/-- The events that take the standalone program from its construction to
`standalone_latched`. -/
def standalone_latched_events : List Standalone.Event :=
  [Standalone.Event.tick, Standalone.Event.tick, Standalone.Event.tick,
   Standalone.Event.other (standalone_warmed.sendFileName "a.wav" true 0),
   Standalone.Event.tick,
   Standalone.Event.other (standalone_dispatched.sendFileName "b.wav" true 0)]

/-- The control ports at their defaults: switched on, gain 0, fully wet, normalise off. -/
def ports_default : Lv2.Ports := { bypass := 1, gain := 0, wet_dry := 100, normA := 0 }

/-- The LV2 plugin after `init_dsp_(48000)`: no request, the worker idle, the warm-up of
`runBufferedDsp` still to come. -/
def lv2_inited : Lv2.Ximpulseloader :=
  { engine := impulseloader.Engine.init impulseloader.Engine.new 48000 25 1, doit := false,
    _restore := false, processCounter := 0, xlv2_ir_file := 1, notify := [] }

/-- A cycle of 64 frames, processed in place on a block of ones, with the control events
`control` and the ports at their defaults. -/
def lv2_cycle (control : List Lv2.ControlEvent) : Lv2.Event :=
  Lv2.Event.cycle 64 control ports_default 0 0 ⟨mem_ones, 0⟩

/-- The control event that sets the impulse response file to `name`. -/
def lv2_set_file (name : String) : Lv2.ControlEvent :=
  Lv2.ControlEvent.object Lv2.OType.patch_Set (some (Lv2.Atom.urid 1))
    (some (Lv2.Atom.path name))

/-- The events that take the LV2 plugin from `init_dsp_` to a latched request: the five cycles
of the warm-up, a cycle that receives `a.wav` and dispatches the rebuild, and a cycle that
receives `b.wav` while the worker is running. -/
def lv2_latched_events : List Lv2.Event :=
  [lv2_cycle [], lv2_cycle [], lv2_cycle [], lv2_cycle [], lv2_cycle [],
   lv2_cycle [lv2_set_file "a.wav"], lv2_cycle [lv2_set_file "b.wav"]]

/-- The LV2 plugin with the request for `b.wav` latched while the worker is running the
rebuild for `a.wav`. -/
def lv2_latched : Lv2.Ximpulseloader := lv2_inited.run env0 lv2_latched_events

/-- The LV2 plugin with the request for `b.wav` still latched when the worker has finished the
rebuild for `a.wav`. -/
def lv2_ready : Lv2.Ximpulseloader := lv2_latched.step env0 Lv2.Event.worker

/-- The CLAP plugin after `initEngine` with an impulse response whose path holds a "|". -/
def clap_bar_path : Clap.ImpulseLoader :=
  { clap_inited with engine := { clap_inited.engine with ir_file := "a|b.wav" } }

/-- The CLAP plugin after `initEngine` with the impulse response `/tmp/x.wav`. -/
def clap_x_wav : Clap.ImpulseLoader :=
  { clap_inited with engine := { clap_inited.engine with ir_file := "/tmp/x.wav" } }

/-- The switched-on engine with `a.wav` loaded and a dispatched request that names `a.wav`
again (the normalise option is the same): a redundant rebuild. -/
def engine_redundant : impulseloader.Engine :=
  { engine_loaded with _cd := 1, _execute := true }

/-- The CLAP plugin after `activate`, with no state buffered. -/
def clap_plug_active : Clap.plugin_t :=
  { r := clap_inited, state := "", isInited := true }

/-- Two parameter events of the host: gain 5 at frame 0, wet/dry 50 at frame 2. -/
def clap_two_events : List Clap.InEvent :=
  [{ time := 0, space_id := 0, type := 5, param_id := 1, value := 5 },
   { time := 2, space_id := 0, type := 5, param_id := 2, value := 50 }]

/-- A block of four frames, in place on the buffer 0, with the two events. -/
def clap_block : Clap.clap_process_t :=
  { in_channel_count := 1, out_channel_count := 1, input := 0, left_output := 0,
    frames_count := 4, in_events := clap_two_events }

/-- The same block as the host hands it over when the input port has no channel. -/
def clap_block_no_input : Clap.clap_process_t :=
  { clap_block with in_channel_count := 0 }

/-- The audio memory and control register of the examples. -/
def world_ones : impulseloader.World := { mem := mem_ones, csr := 0 }

/-! ## Rounding: the nearest integer, the nearest `float` and `double` -/

/-- The rounded value is within one half, and even at exactly one half. -/
theorem round_half_even_spec (x : Sample) :
    |x - round_half_even x| ≤ 1 / 2 ∧
    (|x - round_half_even x| = 1 / 2 → round_half_even x % 2 = 0) := by
  have h1 : (⌊x⌋ : Sample) ≤ x := Int.floor_le x
  have h2 : x < ⌊x⌋ + 1 := Int.lt_floor_add_one x
  unfold round_half_even
  split_ifs with ha hb hc
  · constructor
    · rw [abs_le]
      constructor <;> linarith
    · intro h
      rw [abs_of_nonneg (by linarith)] at h
      linarith
  · constructor
    · rw [abs_le]
      push_cast
      constructor <;> linarith
    · intro h
      push_cast at h
      rw [abs_of_nonpos (by linarith)] at h
      linarith
  · exact ⟨by rw [abs_le]; constructor <;> linarith, fun _ => hc⟩
  · have he : x - ⌊x⌋ = 1 / 2 := le_antisymm (not_lt.mp hb) (not_lt.mp ha)
    constructor
    · rw [abs_le]
      push_cast
      constructor <;> linarith
    · intro _
      omega

/-- The integer within one half that is even at exactly one half is the rounded value. -/
theorem round_half_even_unique (x : Sample) (n : Int) (h : |x - n| ≤ 1 / 2)
    (he : |x - n| = 1 / 2 → n % 2 = 0) : round_half_even x = n := by
  obtain ⟨s1, s2⟩ := round_half_even_spec x
  generalize round_half_even x = r at s1 s2
  rw [abs_le] at h s1
  have hd : (r : Sample) - n < 2 ∧ (n : Sample) - r < 2 := by
    constructor <;> linarith [h.1, h.2, s1.1, s1.2]
  have hd1 : r - n < 2 := by exact_mod_cast hd.1
  have hd2 : n - r < 2 := by exact_mod_cast hd.2
  by_contra hne
  have hcase : r = n + 1 ∨ n = r + 1 := by omega
  rcases hcase with hc | hc
  · have hx : x = n + 1 / 2 := by
      have e1 : (r : Sample) = n + 1 := by exact_mod_cast hc
      linarith [h.1, h.2, s1.1, s1.2]
    have t1 : |x - n| = 1 / 2 := by rw [hx]; norm_num
    have t2 : |x - r| = 1 / 2 := by
      rw [hx, hc]; push_cast; norm_num
    have := he t1
    have := s2 t2
    omega
  · have hx : x = r + 1 / 2 := by
      have e1 : (n : Sample) = r + 1 := by exact_mod_cast hc
      linarith [h.1, h.2, s1.1, s1.2]
    have t1 : |x - r| = 1 / 2 := by rw [hx]; norm_num
    have t2 : |x - n| = 1 / 2 := by
      rw [hx, hc]; push_cast; norm_num
    have := he t2
    have := s2 t1
    omega

/-- An integer is its own rounded value. -/
theorem round_half_even_int (n : Int) : round_half_even (n : Sample) = n :=
  round_half_even_unique _ n (by simp) (by simp)

/-- A value closer than one half to an integer is rounded to it. -/
theorem round_half_even_near (x : Sample) (n : Int) (h : |x - n| < 1 / 2) :
    round_half_even x = n :=
  round_half_even_unique x n (le_of_lt h) (fun e => absurd e (ne_of_lt h))

/-- Rounding commutes with the change of sign. -/
theorem round_half_even_neg (x : Sample) : round_half_even (-x) = -round_half_even x := by
  obtain ⟨s1, s2⟩ := round_half_even_spec x
  apply round_half_even_unique
  · push_cast
    rw [show -x - -(round_half_even x : Sample) = -(x - round_half_even x) by ring, abs_neg]
    exact s1
  · intro h
    push_cast at h
    rw [show -x - -(round_half_even x : Sample) = -(x - round_half_even x) by ring, abs_neg] at h
    have := s2 h
    omega

/-- Rounding to the nearest integer is monotone. -/
theorem round_half_even_mono (x y : Sample) (h : x ≤ y) :
    round_half_even x ≤ round_half_even y := by
  obtain ⟨a1, a2⟩ := round_half_even_spec x
  obtain ⟨b1, b2⟩ := round_half_even_spec y
  generalize round_half_even x = a at a1 a2
  generalize round_half_even y = b at b1 b2
  by_contra hlt
  have hab : b + 1 ≤ a := by omega
  have hab2 : (b : Sample) + 1 ≤ a := by exact_mod_cast hab
  rw [abs_le] at a1 b1
  have hx : x - a = -(1 / 2) := by linarith [a1.1, a1.2, b1.1, b1.2]
  have hy : y - b = 1 / 2 := by linarith [a1.1, a1.2, b1.1, b1.2]
  have hab3 : (a : Sample) = b + 1 := by linarith [a1.1, a1.2, b1.1, b1.2]
  have hab4 : a = b + 1 := by exact_mod_cast hab3
  have t1 := a2 (by rw [hx]; norm_num)
  have t2 := b2 (by rw [hy]; norm_num)
  omega

/-- Rounding does not pass an integer. -/
theorem round_half_even_le (x : Sample) (n : Int) (h : x ≤ n) : round_half_even x ≤ n := by
  have := round_half_even_mono x n h
  rwa [round_half_even_int] at this

theorem le_round_half_even (x : Sample) (n : Int) (h : (n : Sample) ≤ x) :
    n ≤ round_half_even x := by
  have := round_half_even_mono n x h
  rwa [round_half_even_int] at this

/-- The binary exponent of a positive value: the `e` with `2^e ≤ r < 2^(e+1)`. -/
theorem log_two_eq (r : Sample) (e : Int) (h1 : (2 : Sample) ^ e ≤ r)
    (h2 : r < (2 : Sample) ^ (e + 1)) : Int.log 2 r = e := by
  have hr : 0 < r := lt_of_lt_of_le (zpow_pos (by norm_num) e) h1
  have a1 : e ≤ Int.log 2 r := by
    rw [← Int.zpow_le_iff_le_log (by norm_num) hr]
    exact_mod_cast h1
  have a2 : Int.log 2 r < e + 1 := by
    rw [← Int.lt_zpow_iff_log_lt (by norm_num) hr]
    exact_mod_cast h2
  omega

theorem zpow_log_two_le (r : Sample) (hr : 0 < r) : (2 : Sample) ^ Int.log 2 r ≤ r := by
  have := Int.zpow_log_le_self (b := 2) (r := r) (by norm_num) hr
  exact_mod_cast this

theorem lt_zpow_log_two (r : Sample) : r < (2 : Sample) ^ (Int.log 2 r + 1) := by
  have := Int.lt_zpow_succ_log_self (b := 2) (by norm_num) r
  exact_mod_cast this

/-- The value of `round_binary` at a value other than 0. -/
theorem round_binary_ne (p : Nat) (emin : Int) (x : Sample) (hx : x ≠ 0) :
    round_binary p emin x
      = round_half_even (x / 2 ^ (max (Int.log 2 |x|) emin - ((p : Int) - 1)))
          * 2 ^ (max (Int.log 2 |x|) emin - ((p : Int) - 1)) := by
  unfold round_binary
  rw [if_neg hx]

/-- The value of `round_binary` from the binary exponent and the nearest multiple. -/
theorem round_binary_eval (p : Nat) (emin : Int) (x : Sample) (e n : Int)
    (h1 : (2 : Sample) ^ e ≤ |x|) (h2 : |x| < (2 : Sample) ^ (e + 1))
    (hn : round_half_even (x / 2 ^ (max e emin - ((p : Int) - 1))) = n) :
    round_binary p emin x = n * 2 ^ (max e emin - ((p : Int) - 1)) := by
  have hx : x ≠ 0 := by
    intro h
    rw [h, abs_zero] at h1
    exact absurd h1 (not_le.mpr (zpow_pos (by norm_num) e))
  rw [round_binary_ne p emin x hx, log_two_eq |x| e h1 h2, hn]

/-- Rounding commutes with the change of sign. -/
theorem round_binary_neg (p : Nat) (emin : Int) (x : Sample) :
    round_binary p emin (-x) = -round_binary p emin x := by
  by_cases hx : x = 0
  · subst hx
    simp [round_binary]
  · rw [round_binary_ne p emin x hx, round_binary_ne p emin (-x) (neg_ne_zero.mpr hx), abs_neg,
      neg_div, round_half_even_neg]
    push_cast
    ring

/-- A value on the grid of `x` that is at or above `x` is at or above the rounded `x`. -/
theorem round_binary_le_grid (p : Nat) (emin : Int) (x : Sample) (hx : x ≠ 0) (k j : Int)
    (hj : max (Int.log 2 |x|) emin - ((p : Int) - 1) ≤ j) (h : x ≤ k * 2 ^ j) :
    round_binary p emin x ≤ k * 2 ^ j := by
  rw [round_binary_ne p emin x hx]
  generalize max (Int.log 2 |x|) emin - ((p : Int) - 1) = ue at hj ⊢
  have hu : (0 : Sample) < 2 ^ ue := zpow_pos (by norm_num) ue
  obtain ⟨d, hd⟩ : ∃ d : Nat, j = ue + d := ⟨(j - ue).toNat, by omega⟩
  have hz : (k : Sample) * 2 ^ j = ((k * 2 ^ d : Int) : Sample) * 2 ^ ue := by
    rw [hd, zpow_add₀ (by norm_num), zpow_natCast]
    push_cast
    ring
  rw [hz] at h ⊢
  have h3 : x / 2 ^ ue ≤ ((k * 2 ^ d : Int) : Sample) := by
    rw [div_le_iff₀ hu]
    exact h
  have h4 := round_half_even_le _ _ h3
  have h5 : (round_half_even (x / 2 ^ ue) : Sample) ≤ ((k * 2 ^ d : Int) : Sample) := by
    exact_mod_cast h4
  exact mul_le_mul_of_nonneg_right h5 (le_of_lt hu)

/-- A value on the grid of `x` that is at or below `x` is at or below the rounded `x`. -/
theorem grid_le_round_binary (p : Nat) (emin : Int) (x : Sample) (hx : x ≠ 0) (k j : Int)
    (hj : max (Int.log 2 |x|) emin - ((p : Int) - 1) ≤ j) (h : (k : Sample) * 2 ^ j ≤ x) :
    (k : Sample) * 2 ^ j ≤ round_binary p emin x := by
  have h1 := round_binary_le_grid p emin (-x) (neg_ne_zero.mpr hx) (-k) j
    (by rw [abs_neg]; exact hj) (by push_cast; linarith)
  rw [round_binary_neg] at h1
  push_cast at h1
  linarith

/-- A value `m * 2^j` with `|m| < 2^p` and `j` not below the least grid exponent is
representable: rounding leaves it as it is. -/
theorem round_binary_fixed (p : Nat) (emin : Int) (m j : Int) (hm : |m| < 2 ^ p)
    (hj : emin - ((p : Int) - 1) ≤ j) :
    round_binary p emin (m * 2 ^ j) = m * 2 ^ j := by
  by_cases hm0 : m = 0
  · subst hm0
    simp [round_binary]
  have h2j : (0 : Sample) < 2 ^ j := zpow_pos (by norm_num) j
  have hx : (m : Sample) * 2 ^ j ≠ 0 :=
    mul_ne_zero (by exact_mod_cast hm0) (ne_of_gt h2j)
  have habs : |(m : Sample) * 2 ^ j| < 2 ^ ((p : Int) + j) := by
    rw [abs_mul, abs_of_pos h2j, zpow_add₀ (by norm_num), zpow_natCast]
    apply mul_lt_mul_of_pos_right _ h2j
    have : ((|m| : Int) : Sample) < ((2 ^ p : Int) : Sample) := by exact_mod_cast hm
    push_cast at this
    exact this
  have hlog : Int.log 2 |(m : Sample) * 2 ^ j| < (p : Int) + j := by
    rw [← Int.lt_zpow_iff_log_lt (by norm_num) (abs_pos.mpr hx)]
    exact_mod_cast habs
  have hue : max (Int.log 2 |(m : Sample) * 2 ^ j|) emin - ((p : Int) - 1) ≤ j := by
    rcases max_cases (Int.log 2 |(m : Sample) * 2 ^ j|) emin with ⟨h, _⟩ | ⟨h, _⟩ <;>
      rw [h] <;> omega
  apply le_antisymm
  · exact round_binary_le_grid p emin _ hx m j hue le_rfl
  · exact grid_le_round_binary p emin _ hx m j hue le_rfl

/-- Rounding keeps the sign. -/
theorem round_binary_nonneg (p : Nat) (emin : Int) (x : Sample) (h : 0 ≤ x) :
    0 ≤ round_binary p emin x := by
  by_cases hx : x = 0
  · subst hx
    simp [round_binary]
  · rw [round_binary_ne p emin x hx]
    generalize max (Int.log 2 |x|) emin - ((p : Int) - 1) = ue
    have hu : (0 : Sample) < 2 ^ ue := zpow_pos (by norm_num) ue
    have h3 : ((0 : Int) : Sample) ≤ x / 2 ^ ue := by
      push_cast
      exact div_nonneg h (le_of_lt hu)
    have h4 := le_round_half_even _ _ h3
    have h5 : (0 : Sample) ≤ (round_half_even (x / 2 ^ ue) : Sample) := by exact_mod_cast h4
    exact mul_nonneg h5 (le_of_lt hu)

theorem round_binary_nonpos (p : Nat) (emin : Int) (x : Sample) (h : x ≤ 0) :
    round_binary p emin x ≤ 0 := by
  have := round_binary_nonneg p emin (-x) (by linarith)
  rw [round_binary_neg] at this
  linarith

/-- Rounding is monotone on the positive values. -/
theorem round_binary_mono_pos (p : Nat) (emin : Int) (hp : 1 ≤ p) (x y : Sample) (hx : 0 < x)
    (h : x ≤ y) : round_binary p emin x ≤ round_binary p emin y := by
  have hy : 0 < y := lt_of_lt_of_le hx h
  have hlog : Int.log 2 x ≤ Int.log 2 y := Int.log_mono_right hx h
  have ax : |x| = x := abs_of_pos hx
  have ay : |y| = y := abs_of_pos hy
  by_cases he : max (Int.log 2 x) emin = max (Int.log 2 y) emin
  · rw [round_binary_ne p emin x (ne_of_gt hx), round_binary_ne p emin y (ne_of_gt hy), ax, ay,
      he]
    generalize max (Int.log 2 y) emin - ((p : Int) - 1) = ue
    have hu : (0 : Sample) < 2 ^ ue := zpow_pos (by norm_num) ue
    have h3 : x / 2 ^ ue ≤ y / 2 ^ ue := div_le_div_of_nonneg_right h (le_of_lt hu)
    have h4 := round_half_even_mono _ _ h3
    have h5 : (round_half_even (x / 2 ^ ue) : Sample) ≤ round_half_even (y / 2 ^ ue) := by
      exact_mod_cast h4
    exact mul_le_mul_of_nonneg_right h5 (le_of_lt hu)
  · have hlt : Int.log 2 x < Int.log 2 y := by
      rcases lt_or_eq_of_le hlog with h1 | h1
      · exact h1
      · rw [h1] at he
        exact absurd rfl he
    have hemin : emin < Int.log 2 y := by
      by_contra hc
      have h1 : max (Int.log 2 y) emin = emin := max_eq_right (by omega)
      have h2 : max (Int.log 2 x) emin = emin := max_eq_right (by omega)
      exact he (h2.trans h1.symm)
    have hz1 : x ≤ ((1 : Int) : Sample) * 2 ^ Int.log 2 y := by
      have h1 := lt_zpow_log_two x
      have h2 : (2 : Sample) ^ (Int.log 2 x + 1) ≤ 2 ^ Int.log 2 y :=
        zpow_le_zpow_right₀ (by norm_num) (by omega)
      push_cast
      linarith
    have hz2 : ((1 : Int) : Sample) * 2 ^ Int.log 2 y ≤ y := by
      have h1 := zpow_log_two_le y hy
      push_cast
      linarith
    have pc : (1 : Int) ≤ (p : Int) := by exact_mod_cast hp
    have g1 := round_binary_le_grid p emin x (ne_of_gt hx) 1 (Int.log 2 y)
      (by
        rw [ax]
        rcases max_cases (Int.log 2 x) emin with ⟨h, _⟩ | ⟨h, _⟩ <;> rw [h] <;> omega) hz1
    have g2 := grid_le_round_binary p emin y (ne_of_gt hy) 1 (Int.log 2 y)
      (by
        rw [ay]
        rcases max_cases (Int.log 2 y) emin with ⟨h, _⟩ | ⟨h, _⟩ <;> rw [h] <;> omega) hz2
    exact le_trans g1 g2

/-- Rounding is monotone. -/
theorem round_binary_mono (p : Nat) (emin : Int) (hp : 1 ≤ p) (x y : Sample) (h : x ≤ y) :
    round_binary p emin x ≤ round_binary p emin y := by
  rcases lt_trichotomy 0 x with hx | hx | hx
  · exact round_binary_mono_pos p emin hp x y hx h
  · subst hx
    have : round_binary p emin 0 = 0 := by simp [round_binary]
    rw [this]
    exact round_binary_nonneg p emin y h
  · rcases le_or_lt 0 y with hy | hy
    · exact le_trans (round_binary_nonpos p emin x (le_of_lt hx)) (round_binary_nonneg p emin y hy)
    · have h1 := round_binary_mono_pos p emin hp (-y) (-x) (by linarith) (by linarith)
      rw [round_binary_neg, round_binary_neg] at h1
      linarith

/-- The value of `round_binary` at a positive value, from the binary exponent and an integer
closer than one half. -/
theorem round_binary_near (p : Nat) (emin : Int) (x : Sample) (e n : Int)
    (h1 : (2 : Sample) ^ e ≤ x) (h2 : x < (2 : Sample) ^ (e + 1))
    (hn : |x / 2 ^ (max e emin - ((p : Int) - 1)) - n| < 1 / 2) :
    round_binary p emin x = n * 2 ^ (max e emin - ((p : Int) - 1)) := by
  have hx : 0 < x := lt_of_lt_of_le (zpow_pos (by norm_num) e) h1
  exact round_binary_eval p emin x e n (by rw [abs_of_pos hx]; exact h1)
    (by rw [abs_of_pos hx]; exact h2) (round_half_even_near _ n hn)

/-- The value of `round_binary` at a positive tie: the even neighbour. -/
theorem round_binary_tie (p : Nat) (emin : Int) (x : Sample) (e n : Int)
    (h1 : (2 : Sample) ^ e ≤ x) (h2 : x < (2 : Sample) ^ (e + 1))
    (hn : |x / 2 ^ (max e emin - ((p : Int) - 1)) - n| = 1 / 2) (he : n % 2 = 0) :
    round_binary p emin x = n * 2 ^ (max e emin - ((p : Int) - 1)) := by
  have hx : 0 < x := lt_of_lt_of_le (zpow_pos (by norm_num) e) h1
  exact round_binary_eval p emin x e n (by rw [abs_of_pos hx]; exact h1)
    (by rw [abs_of_pos hx]; exact h2)
    (round_half_even_unique _ n (le_of_eq hn) (fun _ => he))

/-- The float nearest to a positive value in the normal range. -/
theorem f32_near (x : Sample) (e n : Int)
    (h1 : (2 : Sample) ^ e ≤ x) (h2 : x < (2 : Sample) ^ (e + 1)) (he : -126 ≤ e)
    (hn : |x / 2 ^ (e - 23) - n| < 1 / 2) :
    f32 x = n * 2 ^ (e - 23) := by
  have h := round_binary_near 24 (-126) x e n h1 h2 (by
    rw [max_eq_left he]
    simpa using hn)
  rw [max_eq_left he] at h
  simpa [f32] using h

/-- The float at a positive tie in the normal range. -/
theorem f32_tie (x : Sample) (e n : Int)
    (h1 : (2 : Sample) ^ e ≤ x) (h2 : x < (2 : Sample) ^ (e + 1)) (he : -126 ≤ e)
    (hn : |x / 2 ^ (e - 23) - n| = 1 / 2) (hev : n % 2 = 0) :
    f32 x = n * 2 ^ (e - 23) := by
  have h := round_binary_tie 24 (-126) x e n h1 h2 (by
    rw [max_eq_left he]
    simpa using hn) hev
  rw [max_eq_left he] at h
  simpa [f32] using h

/-- The double nearest to a positive value in the normal range. -/
theorem f64_near (x : Sample) (e n : Int)
    (h1 : (2 : Sample) ^ e ≤ x) (h2 : x < (2 : Sample) ^ (e + 1)) (he : -1022 ≤ e)
    (hn : |x / 2 ^ (e - 52) - n| < 1 / 2) :
    f64 x = n * 2 ^ (e - 52) := by
  have h := round_binary_near 53 (-1022) x e n h1 h2 (by
    rw [max_eq_left he]
    simpa using hn)
  rw [max_eq_left he] at h
  simpa [f64] using h

/-- Naturals up to `2^24` are floats. -/
theorem f32_nat (k : Nat) (h : k ≤ 2 ^ 24) : f32 (k : Sample) = k := by
  rcases Nat.lt_or_ge k (2 ^ 24) with hk | hk
  · have := round_binary_fixed 24 (-126) (k : Int) 0
      (by rw [abs_of_nonneg (by omega)]; exact_mod_cast hk) (by norm_num)
    simpa [f32] using this
  · have hk2 : k = 2 ^ 24 := by omega
    subst hk2
    have := round_binary_fixed 24 (-126) 1 24 (by norm_num) (by norm_num)
    simp only [f32]
    norm_num at this ⊢
    exact this

/-- The value of `f64` at a positive tie: the even neighbour. -/
theorem f64_tie (x : Sample) (e n : Int)
    (h1 : (2 : Sample) ^ e ≤ x) (h2 : x < (2 : Sample) ^ (e + 1)) (he : -1022 ≤ e)
    (hn : |x / 2 ^ (e - 52) - n| = 1 / 2) (hev : n % 2 = 0) :
    f64 x = n * 2 ^ (e - 52) := by
  have h := round_binary_tie 53 (-1022) x e n h1 h2 (by
    rw [max_eq_left he]
    simpa using hn) hev
  rw [max_eq_left he] at h
  simpa [f64] using h

theorem f32_zero : f32 0 = 0 := by simp [f32, round_binary]

theorem f64_zero : f64 0 = 0 := by simp [f64, round_binary]

/-- A value `m * 2^j` with `|m| < 2^24` and `j ≥ -149` is a `float`. -/
theorem f32_fixed (m j : Int) (hm : |m| < 2 ^ 24) (hj : -149 ≤ j) :
    f32 (m * 2 ^ j) = m * 2 ^ j :=
  round_binary_fixed 24 (-126) m j hm (by norm_num; omega)

/-- A value `m * 2^j` with `|m| < 2^53` and `j ≥ -1074` is a `double`. -/
theorem f64_fixed (m j : Int) (hm : |m| < 2 ^ 53) (hj : -1074 ≤ j) :
    f64 (m * 2 ^ j) = m * 2 ^ j :=
  round_binary_fixed 53 (-1022) m j hm (by norm_num; omega)

theorem f32_mono (x y : Sample) (h : x ≤ y) : f32 x ≤ f32 y :=
  round_binary_mono 24 (-126) (by norm_num) x y h

theorem f64_mono (x y : Sample) (h : x ≤ y) : f64 x ≤ f64 y :=
  round_binary_mono 53 (-1022) (by norm_num) x y h

theorem f32_one : f32 1 = 1 := by
  have := f32_fixed 1 0 (by norm_num) (by norm_num)
  simpa using this

theorem f64_one : f64 1 = 1 := by
  have := f64_fixed 1 0 (by norm_num) (by norm_num)
  simpa using this

/-- The literal `0.01f`. -/
theorem f32_literal_hundredth : f32 0.01 = 5368709 / 2 ^ 29 := by
  rw [f32_near 0.01 (-7) 10737418 (by norm_num) (by norm_num) (by norm_num)
    (by norm_num [abs_lt])]
  norm_num

/-- The literal `0.0010000000000000009`. -/
theorem f64_literal_gain : f64 0.0010000000000000009 = 9007199254741 / 2 ^ 53 := by
  rw [f64_near 0.0010000000000000009 (-10) 4611686018427392 (by norm_num) (by norm_num)
    (by norm_num) (by norm_num [abs_lt])]
  norm_num

/-- The literal `0.999`. -/
theorem f64_literal_pole : f64 0.999 = 8998192055486251 / 2 ^ 53 := by
  rw [f64_near 0.999 (-1) 8998192055486251 (by norm_num) (by norm_num)
    (by norm_num) (by norm_num [abs_lt])]
  norm_num

/-- The narrowing of the `double` next to `0.0010000000000000009` to `float`. -/
theorem f32_gain_coefficient : f32 (9007199254741 / 2 ^ 53) = 8589935 / 2 ^ 33 := by
  rw [f32_near (9007199254741 / 2 ^ 53) (-10) 8589935 (by norm_num) (by norm_num)
    (by norm_num) (by norm_num [abs_lt])]
  norm_num

/-! ## The loops of the two DSP stages -/

theorem forLoop_succ {σ : Type} (k : Nat) (body : Nat → σ → σ) (s : σ) :
    forLoop (k + 1) body s = body k (forLoop k body s) := rfl

theorem int_of_uint32_toNat (n : Nat) (h : n < 2 ^ 31) : (int_of_uint32 n).toNat = n := by
  unfold int_of_uint32
  have h1 : n % 2 ^ 32 = n := Nat.mod_eq_of_lt (by omega)
  rw [h1, if_pos h]
  simp

namespace wet_dry

theorem Dsp.step_apply (f0 f1 : Sample) (in0 in1 out : Ptr) (k : Nat) (m : Mem) (q : Ptr) (j : Nat) :
    Dsp.step f0 f1 in0 in1 out k m q j
      = if q = out ∧ j = k then f1 * m in0 k + f0 * m in1 k else m q j := rfl

/-- The mix loop after `k` iterations: frames `i < k` of `output0` hold the mix of the frames
the two inputs had before the loop, everything else is untouched. -/
theorem Dsp.mix_loop_spec (f0 f1 : Sample) (in0 in1 out : Ptr) (m : Mem) (k : Nat) :
    (∀ q j, (q ≠ out ∨ k ≤ j) → forLoop k (Dsp.step f0 f1 in0 in1 out) m q j = m q j) ∧
    (∀ i, i < k → forLoop k (Dsp.step f0 f1 in0 in1 out) m out i
        = f1 * m in0 i + f0 * m in1 i) := by
  induction k with
  | zero => exact ⟨fun _ _ _ => rfl, fun i hi => absurd hi (Nat.not_lt_zero i)⟩
  | succ k ih =>
    obtain ⟨ihA, ihB⟩ := ih
    refine ⟨?_, ?_⟩
    · intro q j hqj
      rw [forLoop_succ, Dsp.step_apply]
      have hne : ¬ (q = out ∧ j = k) := by
        rintro ⟨h1, h2⟩
        rcases hqj with h | h
        · exact h h1
        · omega
      rw [if_neg hne]
      exact ihA q j (by rcases hqj with h | h; exact Or.inl h; exact Or.inr (by omega))
    · intro i hi
      rw [forLoop_succ, Dsp.step_apply]
      by_cases hik : i = k
      · subst hik
        rw [if_pos ⟨rfl, rfl⟩, ihA in0 i (Or.inr le_rfl), ihA in1 i (Or.inr le_rfl)]
      · rw [if_neg (fun h => hik h.2)]
        exact ihB i (by omega)

end wet_dry

namespace gain

theorem Dsp.step_fst (f : Sample) (inp out : Ptr) (k : Nat) (s : Dsp × Mem) :
    (Dsp.step f inp out k s).1 =
      { s.1 with fRec0 := (f + 0.999 * s.1.fRec0.2, f + 0.999 * s.1.fRec0.2) } := rfl

theorem Dsp.step_snd (f : Sample) (inp out : Ptr) (k : Nat) (s : Dsp × Mem) (q : Ptr) (j : Nat) :
    (Dsp.step f inp out k s).2 q j =
      if q = out ∧ j = k then s.2 inp k * (f + 0.999 * s.1.fRec0.2) else s.2 q j := rfl

/-- The gain loop after `k` iterations: the smoothing state follows `rec0`, the parameter is
kept, frame `i < k` of `output0` is the frame the input had before the loop times the smoothed
gain `rec0 (i + 1)`, and everything else is untouched. -/
theorem Dsp.gain_loop_spec (f : Sample) (inp out : Ptr) (d : Dsp) (m : Mem) (k : Nat) :
    (forLoop k (Dsp.step f inp out) (d, m)).1.fRec0.2 = Dsp.rec0 f d.fRec0.2 k ∧
    (forLoop k (Dsp.step f inp out) (d, m)).1.gain = d.gain ∧
    (forLoop k (Dsp.step f inp out) (d, m)).1.fSampleRate = d.fSampleRate ∧
    (∀ q j, (q ≠ out ∨ k ≤ j) → (forLoop k (Dsp.step f inp out) (d, m)).2 q j = m q j) ∧
    (∀ i, i < k → (forLoop k (Dsp.step f inp out) (d, m)).2 out i
        = m inp i * Dsp.rec0 f d.fRec0.2 (i + 1)) := by
  induction k with
  | zero => exact ⟨rfl, rfl, rfl, fun _ _ _ => rfl, fun i hi => absurd hi (Nat.not_lt_zero i)⟩
  | succ k ih =>
    obtain ⟨ihR, ihG, ihS, ihA, ihB⟩ := ih
    refine ⟨?_, ?_, ?_, ?_, ?_⟩
    · rw [forLoop_succ, Dsp.step_fst]
      simp only [Dsp.rec0, ihR]
    · rw [forLoop_succ, Dsp.step_fst]
      exact ihG
    · rw [forLoop_succ, Dsp.step_fst]
      exact ihS
    · intro q j hqj
      rw [forLoop_succ, Dsp.step_snd]
      have hne : ¬ (q = out ∧ j = k) := by
        rintro ⟨h1, h2⟩
        rcases hqj with h | h
        · exact h h1
        · omega
      rw [if_neg hne]
      exact ihA q j (by rcases hqj with h | h; exact Or.inl h; exact Or.inr (by omega))
    · intro i hi
      rw [forLoop_succ, Dsp.step_snd]
      by_cases hik : i = k
      · subst hik
        rw [if_pos ⟨rfl, rfl⟩, ihA inp i (Or.inr le_rfl), ihR]
        rfl
      · rw [if_neg (fun h => hik h.2)]
        exact ihB i (by omega)

end gain

namespace impulseloader

theorem buf0_ne_input (input0 output0 : Nat) : buf0_ptr input0 output0 ≠ input0 := by
  intro h
  have h2 : input0 + output0 + 1 = input0 := h
  omega

theorem buf0_ne_output (input0 output0 : Nat) : buf0_ptr input0 output0 ≠ output0 := by
  intro h
  have h2 : input0 + output0 + 1 = output0 := h
  omega

/-- After the two copies the stack buffer holds the input block. -/
theorem process_copies_buf0 (n : Nat) (input0 output0 : Ptr) (m : Mem) (i : Nat) (hi : i < n) :
    Engine.process_copies n input0 output0 m (buf0_ptr input0 output0) i = m input0 i := by
  unfold Engine.process_copies memcpy
  simp only [hi, and_self, if_true, true_and]
  by_cases h : output0 = input0
  · simp [h]
  · have h2 : ¬ input0 = output0 := fun e => h e.symm
    simp [h, h2]

/-- After the two copies the output buffer holds the input block. -/
theorem process_copies_output (n : Nat) (input0 output0 : Ptr) (m : Mem) (i : Nat) (hi : i < n) :
    Engine.process_copies n input0 output0 m output0 i = m input0 i := by
  unfold Engine.process_copies memcpy
  have hb : ¬ output0 = buf0_ptr input0 output0 := fun e => buf0_ne_output input0 output0 e.symm
  by_cases h : output0 = input0
  · simp [h, hb, buf0_ne_input]
  · simp [h, hb, hi]

/-- The gain and kernel stages write the output buffer only. -/
theorem process_conv_other (env : Env) (e : Engine) (n : Nat) (output0 : Ptr) (m : Mem)
    (q : Ptr) (j : Nat) (h : q ≠ output0 ∨ (int_of_uint32 n).toNat ≤ j) :
    (e.process_conv env n output0 m).2.2 q j = m q j := by
  have hg := (gain.Dsp.gain_loop_spec (e.plugin1.fSlow0 env.pow) output0 output0 e.plugin1 m
    (int_of_uint32 n).toNat).2.2.2.1 q j h
  unfold Engine.process_conv
  by_cases hc : (!e._execute && e.conv.is_runnable) = true
  · simp only [hc, if_true]
    unfold ConvolverSelector.compute
    have hne : ¬ (q = output0 ∧ j < (int_of_uint32 n).toNat) := by
      rintro ⟨h1, h2⟩
      rcases h with h | h
      · exact h h1
      · omega
    simp only [hne, if_false]
    exact hg
  · simp only [hc]
    exact hg

end impulseloader

namespace impulseloader

theorem int_of_uint32_toNat_le (n : Nat) : (int_of_uint32 n).toNat ≤ n := by
  unfold int_of_uint32
  have h1 : n % 2 ^ 32 ≤ n := Nat.mod_le n _
  have h2 : n % 2 ^ 32 < 2 ^ 32 := Nat.mod_lt n (by norm_num)
  split <;> omega

/-- With the engine switched on, a frame the mix loop reaches is the mix of the input frame
(from the stack copy) and the frame left in `output0` by the gain and kernel stages. -/
theorem process_mem_output (env : Env) (e : Engine) (n : Nat) (input0 output0 : Ptr) (w : World)
    (hn : 1 ≤ n) (hb : e.bypass ≠ 0) (i : Nat) (hi : i < (int_of_uint32 n).toNat) :
    (e.process env n input0 output0 w).2.mem output0 i =
      (1 - 0.01 * e.plugin2.dry_wet) * w.mem input0 i
        + 0.01 * e.plugin2.dry_wet *
          (e.process_conv env n output0
            (Engine.process_copies n input0 output0 w.mem)).2.2 output0 i := by
  have hin : i < n := lt_of_lt_of_le hi (int_of_uint32_toNat_le n)
  have hn1 : ¬ n < 1 := by omega
  unfold Engine.process
  simp only [hn1, hb, if_false]
  unfold wet_dry.Dsp.compute
  rw [(wet_dry.Dsp.mix_loop_spec _ _ _ _ _ _ _).2 i hi,
    process_conv_other env e n output0 _ _ i (Or.inl (buf0_ne_output input0 output0)),
    process_copies_buf0 n input0 output0 w.mem i hin]

/-- When the kernel is skipped, a frame of `output0` after the gain and kernel stages is the
frame it held before, times the smoothed gain. -/
theorem process_conv_skipped (env : Env) (e : Engine) (n : Nat) (output0 : Ptr) (m : Mem)
    (h : (!e._execute && e.conv.is_runnable) = false) (i : Nat)
    (hi : i < (int_of_uint32 n).toNat) :
    (e.process_conv env n output0 m).2.2 output0 i =
      m output0 i * gain.Dsp.rec0 (e.plugin1.fSlow0 env.pow) e.plugin1.fRec0.2 (i + 1) := by
  unfold Engine.process_conv
  simp only [h, Bool.false_eq_true, if_false]
  exact (gain.Dsp.gain_loop_spec _ output0 output0 e.plugin1 m _).2.2.2.2 i hi

/-- The smoothing state of the gain stage after a processed block. -/
theorem process_plugin1 (env : Env) (e : Engine) (n : Nat) (input0 output0 : Ptr) (w : World)
    (hn : 1 ≤ n) (hb : e.bypass ≠ 0) :
    (e.process env n input0 output0 w).1.plugin1.fRec0.2 =
      gain.Dsp.rec0 (e.plugin1.fSlow0 env.pow) e.plugin1.fRec0.2 (int_of_uint32 n).toNat := by
  have hn1 : ¬ n < 1 := by omega
  unfold Engine.process
  simp only [hn1, hb, if_false]
  unfold Engine.process_conv
  split
  · exact (gain.Dsp.gain_loop_spec _ output0 output0 e.plugin1 _ _).1
  · exact (gain.Dsp.gain_loop_spec _ output0 output0 e.plugin1 _ _).1

theorem fSlow0_engine_on : engine_on.plugin1.fSlow0 env0.pow = 0.0010000000000000009 := by
  simp [gain.Dsp.fSlow0, engine_on, env0, Engine.init, Engine.new, gain.Dsp.init,
    gain.Dsp.clear_state_f, gain.Dsp.new]

end impulseloader

open impulseloader

/-! ## C2: the early exit of `Engine::process` -/

/-- C2, as stated, fails: with the `bypass` field set to 1 `Engine::process` runs the stages.
On the switched-on engine and the one-frame block `[1]` processed in place the output frame is
`0.0010000000000000009`, not the input frame `1`, and the smoothing state of the gain stage
has changed. -/
theorem C2_bypass_nonzero_runs_stages :
    engine_on.bypass ≠ 0 ∧
    (engine_on.process env0 1 0 0 ⟨mem_ones, 0⟩).2.mem 0 0 = 0.0010000000000000009 ∧
    (engine_on.process env0 1 0 0 ⟨mem_ones, 0⟩).2.mem 0 0 ≠ mem_ones 0 0 ∧
    (engine_on.process env0 1 0 0 ⟨mem_ones, 0⟩).1.plugin1.fRec0 ≠ engine_on.plugin1.fRec0 := by
  have h1 : (1 : Nat) ≤ 1 := le_rfl
  have hb : engine_on.bypass ≠ 0 := by decide
  have hi : 0 < (int_of_uint32 1).toNat := by decide
  have hs : (!engine_on._execute && engine_on.conv.is_runnable) = false := by decide
  have hout : (engine_on.process env0 1 0 0 ⟨mem_ones, 0⟩).2.mem 0 0 = 0.0010000000000000009 := by
    rw [process_mem_output env0 engine_on 1 0 0 ⟨mem_ones, 0⟩ h1 hb 0 hi,
      process_conv_skipped env0 engine_on 1 0 _ hs 0 hi,
      process_copies_output 1 0 0 mem_ones 0 (by decide), fSlow0_engine_on]
    simp [gain.Dsp.rec0, mem_ones, engine_on, Engine.init, Engine.new, gain.Dsp.init,
      gain.Dsp.clear_state_f, gain.Dsp.new, wet_dry.Dsp.init, wet_dry.Dsp.new]
    norm_num
  refine ⟨hb, hout, ?_, ?_⟩
  · rw [hout]
    norm_num [mem_ones]
  · intro h
    have h2 := process_plugin1 env0 engine_on 1 0 0 ⟨mem_ones, 0⟩ h1 hb
    rw [h, fSlow0_engine_on] at h2
    have h3 : (int_of_uint32 1).toNat = 1 := by decide
    rw [h3] at h2
    simp [gain.Dsp.rec0, engine_on, Engine.init, Engine.new, gain.Dsp.init,
      gain.Dsp.clear_state_f, gain.Dsp.new] at h2
    norm_num at h2

/-- C2 (amended): for every block (of `n ≥ 1` frames, and of none), when the `bypass` field is zero (the
Enable switch is off) `Engine::process` returns at once: the engine (gain smoothing state,
kernel, mix stage and every other field) and the whole memory are as before the call, so with
in-place buffers the output block is the input block. -/
theorem C2_bypass_zero_early_exit (env : Env) (e : Engine) (n : Nat) (input0 output0 : Ptr)
    (w : World) (hb : e.bypass = 0) :
    e.process env n input0 output0 w = (e, w) ∧
    (output0 = input0 →
      ∀ i, (e.process env n input0 output0 w).2.mem output0 i = w.mem input0 i) := by
  have hp : e.process env n input0 output0 w = (e, w) := by
    unfold Engine.process
    simp [hb]
  refine ⟨hp, ?_⟩
  intro h i
  rw [hp, h]

/-- C2 (amended), at the freshly constructed engine (whose `bypass` is 0) and a block of
two frames processed in place. -/
theorem C2_bypass_zero_early_exit_witness :
    Engine.new.bypass = 0 ∧
    (Engine.new.process env0 2 0 0 ⟨mem_ones, 0⟩ = (Engine.new, ⟨mem_ones, 0⟩) ∧
     ((0 : Ptr) = 0 →
      ∀ i, (Engine.new.process env0 2 0 0 ⟨mem_ones, 0⟩).2.mem 0 i = mem_ones 0 i)) :=
  ⟨rfl, C2_bypass_zero_early_exit env0 Engine.new 2 0 0 ⟨mem_ones, 0⟩ rfl⟩

/-! ## The loops of the two DSP stages, with the rounding of the code -/

namespace wet_dry

theorem Dsp.step_float_apply (f0 f1 : Sample) (in0 in1 out : Ptr) (k : Nat) (m : Mem) (q : Ptr)
    (j : Nat) :
    Dsp.step_float f0 f1 in0 in1 out k m q j
      = if q = out ∧ j = k then f32 (f32 (f1 * m in0 k) + f32 (f0 * m in1 k)) else m q j := rfl

/-- The rounded mix loop after `k` iterations: frames `i < k` of `output0` hold the rounded mix
of the frames the two inputs had before the loop, everything else is untouched. -/
theorem Dsp.mix_float_loop_spec (f0 f1 : Sample) (in0 in1 out : Ptr) (m : Mem) (k : Nat) :
    (∀ q j, (q ≠ out ∨ k ≤ j) →
      forLoop k (Dsp.step_float f0 f1 in0 in1 out) m q j = m q j) ∧
    (∀ i, i < k → forLoop k (Dsp.step_float f0 f1 in0 in1 out) m out i
        = f32 (f32 (f1 * m in0 i) + f32 (f0 * m in1 i))) := by
  induction k with
  | zero => exact ⟨fun _ _ _ => rfl, fun i hi => absurd hi (Nat.not_lt_zero i)⟩
  | succ k ih =>
    obtain ⟨ihA, ihB⟩ := ih
    refine ⟨?_, ?_⟩
    · intro q j hqj
      rw [forLoop_succ, Dsp.step_float_apply]
      have hne : ¬ (q = out ∧ j = k) := by
        rintro ⟨h1, h2⟩
        rcases hqj with h | h
        · exact h h1
        · omega
      rw [if_neg hne]
      exact ihA q j (by rcases hqj with h | h; exact Or.inl h; exact Or.inr (by omega))
    · intro i hi
      rw [forLoop_succ, Dsp.step_float_apply]
      by_cases hik : i = k
      · subst hik
        rw [if_pos ⟨rfl, rfl⟩, ihA in0 i (Or.inr le_rfl), ihA in1 i (Or.inr le_rfl)]
      · rw [if_neg (fun h => hik h.2)]
        exact ihB i (by omega)

end wet_dry

namespace gain

theorem Dsp.step_float_fst (f : Sample) (inp out : Ptr) (k : Nat) (s : Dsp × Mem) :
    (Dsp.step_float f inp out k s).1 =
      { s.1 with fRec0 := (f64 (f + f64 (f64 0.999 * s.1.fRec0.2)),
                            f64 (f + f64 (f64 0.999 * s.1.fRec0.2))) } := rfl

theorem Dsp.step_float_snd (f : Sample) (inp out : Ptr) (k : Nat) (s : Dsp × Mem) (q : Ptr)
    (j : Nat) :
    (Dsp.step_float f inp out k s).2 q j =
      if q = out ∧ j = k then f32 (f64 (s.2 inp k * f64 (f + f64 (f64 0.999 * s.1.fRec0.2))))
      else s.2 q j := rfl

/-- The rounded gain loop after `k` iterations: the smoothing state follows `rec0_float`, the
parameter is kept, frame `i < k` of `output0` is the rounded product of the frame the input had
before the loop and the smoothed gain `rec0_float (i + 1)`, and everything else is untouched. -/
theorem Dsp.gain_float_loop_spec (f : Sample) (inp out : Ptr) (d : Dsp) (m : Mem) (k : Nat) :
    (forLoop k (Dsp.step_float f inp out) (d, m)).1.fRec0.2 = Dsp.rec0_float f d.fRec0.2 k ∧
    (forLoop k (Dsp.step_float f inp out) (d, m)).1.gain = d.gain ∧
    (forLoop k (Dsp.step_float f inp out) (d, m)).1.fSampleRate = d.fSampleRate ∧
    (∀ q j, (q ≠ out ∨ k ≤ j) →
      (forLoop k (Dsp.step_float f inp out) (d, m)).2 q j = m q j) ∧
    (∀ i, i < k → (forLoop k (Dsp.step_float f inp out) (d, m)).2 out i
        = f32 (f64 (m inp i * Dsp.rec0_float f d.fRec0.2 (i + 1)))) := by
  induction k with
  | zero => exact ⟨rfl, rfl, rfl, fun _ _ _ => rfl, fun i hi => absurd hi (Nat.not_lt_zero i)⟩
  | succ k ih =>
    obtain ⟨ihR, ihG, ihS, ihA, ihB⟩ := ih
    refine ⟨?_, ?_, ?_, ?_, ?_⟩
    · rw [forLoop_succ, Dsp.step_float_fst]
      simp only [Dsp.rec0_float, ihR]
    · rw [forLoop_succ, Dsp.step_float_fst]
      exact ihG
    · rw [forLoop_succ, Dsp.step_float_fst]
      exact ihS
    · intro q j hqj
      rw [forLoop_succ, Dsp.step_float_snd]
      have hne : ¬ (q = out ∧ j = k) := by
        rintro ⟨h1, h2⟩
        rcases hqj with h | h
        · exact h h1
        · omega
      rw [if_neg hne]
      exact ihA q j (by rcases hqj with h | h; exact Or.inl h; exact Or.inr (by omega))
    · intro i hi
      rw [forLoop_succ, Dsp.step_float_snd]
      by_cases hik : i = k
      · subst hik
        rw [if_pos ⟨rfl, rfl⟩, ihA inp i (Or.inr le_rfl), ihR]
        rfl
      · rw [if_neg (fun h => hik h.2)]
        exact ihB i (by omega)

end gain

namespace impulseloader

/-- The rounded gain stage and the kernel stage write the output buffer only. -/
theorem process_conv_float_other (env : Env) (e : Engine) (n : Nat) (output0 : Ptr) (m : Mem)
    (q : Ptr) (j : Nat) (h : q ≠ output0 ∨ (int_of_uint32 n).toNat ≤ j) :
    (e.process_conv_float env n output0 m).2.2 q j = m q j := by
  have hg := (gain.Dsp.gain_float_loop_spec (e.plugin1.fSlow0_float env.pow) output0 output0
    e.plugin1 m (int_of_uint32 n).toNat).2.2.2.1 q j h
  unfold Engine.process_conv_float
  by_cases hc : (!e._execute && e.conv.is_runnable) = true
  · simp only [hc, if_true]
    unfold ConvolverSelector.compute
    have hne : ¬ (q = output0 ∧ j < (int_of_uint32 n).toNat) := by
      rintro ⟨h1, h2⟩
      rcases h with h | h
      · exact h h1
      · omega
    simp only [hne, if_false]
    exact hg
  · simp only [hc]
    exact hg

/-- When the kernel is skipped, a frame of `output0` after the rounded gain stage and the
kernel stage is the rounded product of the frame it held before and the smoothed gain. -/
theorem process_conv_float_skipped (env : Env) (e : Engine) (n : Nat) (output0 : Ptr) (m : Mem)
    (h : (!e._execute && e.conv.is_runnable) = false) (i : Nat)
    (hi : i < (int_of_uint32 n).toNat) :
    (e.process_conv_float env n output0 m).2.2 output0 i =
      f32 (f64 (m output0 i *
        gain.Dsp.rec0_float (e.plugin1.fSlow0_float env.pow) e.plugin1.fRec0.2 (i + 1))) := by
  unfold Engine.process_conv_float
  simp only [h, Bool.false_eq_true, if_false]
  exact (gain.Dsp.gain_float_loop_spec _ output0 output0 e.plugin1 m _).2.2.2.2 i hi

end impulseloader

theorem f32_range_zero : f32_range 0 := Or.inl rfl

theorem f64_range_zero : f64_range 0 := Or.inl rfl

/-- A positive value between the least normal `float` and the largest one is in range. -/
theorem f32_range_pos (x : Sample) (h1 : (2 : Sample) ^ (-126 : Int) ≤ x) (h2 : x ≤ FLT_MAX) :
    f32_range x := by
  have hx : 0 ≤ x := le_trans (le_of_lt (zpow_pos (by norm_num) _)) h1
  right
  rw [abs_of_nonneg hx]
  exact ⟨h1, h2⟩

/-- A positive value between the least normal `double` and the largest one is in range. -/
theorem f64_range_pos (x : Sample) (h1 : (2 : Sample) ^ (-1022 : Int) ≤ x) (h2 : x ≤ DBL_MAX) :
    f64_range x := by
  have hx : 0 ≤ x := le_trans (le_of_lt (zpow_pos (by norm_num) _)) h1
  right
  rw [abs_of_nonneg hx]
  exact ⟨h1, h2⟩

namespace wet_dry

/-- The coefficients of the mix at `wetDry = 0`: fully dry. -/
theorem coefficients_dry (d : Dsp) (h : d.dry_wet = 0) :
    d.fSlow0_float = 0 ∧ d.fSlow1_float = 1 := by
  have h0 : d.fSlow0_float = 0 := by
    unfold Dsp.fSlow0_float
    rw [h, mul_zero, f32_zero]
  refine ⟨h0, ?_⟩
  unfold Dsp.fSlow1_float
  rw [h0, sub_zero, f32_one]

/-- The coefficients of the mix at `wetDry = 100`: fully wet. -/
theorem coefficients_wet (d : Dsp) (h : d.dry_wet = 100) :
    d.fSlow0_float = 1 ∧ d.fSlow1_float = 0 := by
  have h0 : d.fSlow0_float = 1 := by
    unfold Dsp.fSlow0_float
    rw [h, f32_literal_hundredth,
      f32_near (5368709 / 2 ^ 29 * 100) (-1) 16777216 (by norm_num) (by norm_num) (by norm_num)
        (by norm_num [abs_lt])]
    norm_num
  refine ⟨h0, ?_⟩
  unfold Dsp.fSlow1_float
  rw [h0, sub_self, f32_zero]

/-- The coefficients of the mix at `wetDry = 50`. -/
theorem coefficients_half (d : Dsp) (h : d.dry_wet = 50) :
    d.fSlow0_float = 1 / 2 ∧ d.fSlow1_float = 1 / 2 := by
  have h0 : d.fSlow0_float = 1 / 2 := by
    unfold Dsp.fSlow0_float
    rw [h, f32_literal_hundredth,
      f32_near (5368709 / 2 ^ 29 * 50) (-2) 16777216 (by norm_num) (by norm_num) (by norm_num)
        (by norm_num [abs_lt])]
    norm_num
  refine ⟨h0, ?_⟩
  unfold Dsp.fSlow1_float
  rw [h0]
  have := f32_fixed 1 (-1) (by norm_num) (by norm_num)
  norm_num at this ⊢
  exact this

/-- The coefficients of the mix at `wetDry = 30`. -/
theorem coefficients_thirty (d : Dsp) (h : d.dry_wet = 30) :
    d.fSlow0_float = 10066329 / 2 ^ 25 ∧ d.fSlow1_float = 2936013 / 2 ^ 22 := by
  have h0 : d.fSlow0_float = 10066329 / 2 ^ 25 := by
    unfold Dsp.fSlow0_float
    rw [h, f32_literal_hundredth,
      f32_near (5368709 / 2 ^ 29 * 30) (-2) 10066329 (by norm_num) (by norm_num) (by norm_num)
        (by norm_num [abs_lt])]
    norm_num
  refine ⟨h0, ?_⟩
  unfold Dsp.fSlow1_float
  rw [h0, f32_tie (1 - 10066329 / 2 ^ 25) (-1) 11744052 (by norm_num) (by norm_num)
    (by norm_num) (by norm_num [abs_of_neg]) (by norm_num)]
  norm_num

end wet_dry

/-! ## C3: the mix stage -/

/-- The coefficient of the gain stage at the parameter 0, as the code computes it. -/
theorem fSlow0_float_zero (d : gain.Dsp) (h : d.gain = 0) :
    d.fSlow0_float env0.pow = 8589935 / 2 ^ 33 := by
  unfold gain.Dsp.fSlow0_float
  rw [h, mul_zero, f64_zero]
  have hp : env0.pow 10 0 = 1 := by simp [env0]
  rw [hp, mul_one, f64_literal_gain]
  have h64 : f64 (9007199254741 / 2 ^ 53) = 9007199254741 / 2 ^ 53 := by
    have := f64_fixed 9007199254741 (-53) (by norm_num) (by norm_num)
    norm_num at this ⊢
    exact this
  rw [h64, f32_gain_coefficient]

/-- The coefficient `8589935 / 2^33` is a `double`. -/
theorem f64_gain_coefficient : f64 (8589935 / 2 ^ 33) = 8589935 / 2 ^ 33 := by
  have := f64_fixed 8589935 (-33) (by norm_num) (by norm_num)
  norm_num at this ⊢
  exact this

/-- The coefficient `8589935 / 2^33` is a `float`. -/
theorem f32_gain_coefficient_fixed : f32 (8589935 / 2 ^ 33) = 8589935 / 2 ^ 33 := by
  have := f32_fixed 8589935 (-33) (by norm_num) (by norm_num)
  norm_num at this ⊢
  exact this

/-- The first smoothed gain after `init`, at the parameter 0. -/
theorem rec0_float_first : gain.Dsp.rec0_float (8589935 / 2 ^ 33) 0 1 = 8589935 / 2 ^ 33 := by
  simp only [gain.Dsp.rec0_float, mul_zero, f64_zero, add_zero]
  exact f64_gain_coefficient

/-- The frame left by the rounded gain stage of the switched-on engine on a block of ones. -/
theorem process_conv_float_engine_on (n : Nat) (hn : 0 < (int_of_uint32 n).toNat) :
    (engine_on.process_conv_float env0 n 0 (Engine.process_copies n 0 0 mem_ones)).2.2 0 0
      = 8589935 / 2 ^ 33 := by
  have hn0 : 0 < n := lt_of_lt_of_le hn (int_of_uint32_toNat_le n)
  rw [process_conv_float_skipped env0 engine_on n 0 _ (by decide) 0 hn,
    process_copies_output n 0 0 mem_ones 0 hn0, fSlow0_float_zero engine_on.plugin1 rfl]
  have h0 : engine_on.plugin1.fRec0.2 = 0 := rfl
  rw [h0, rec0_float_first]
  simp only [mem_ones, one_mul]
  rw [f64_gain_coefficient, f32_gain_coefficient_fixed]

/-- C3, as stated, fails: the mix is computed in `float`, each operation rounded.  With
`wetDry = 30`, the dry frame 1 and the wet frame 0, `wet_dry::Dsp::compute` writes
`2936013 / 2^22` (0.70000005), not `(1 - 0.3) * 1 + 0.3 * 0 = 7/10`; every operand and result
of this computation is in the normal range of `float`. -/
theorem C3_mix_is_rounded :
    wet_dry.Dsp.compute_float { fSampleRate := 48000, dry_wet := 30 } 1 0 1 2 mem_dry_one 2 0
      = 2936013 / 2 ^ 22 ∧
    (1 - (30 : Sample) / 100) * mem_dry_one 0 0 + (30 : Sample) / 100 * mem_dry_one 1 0
      = 7 / 10 ∧
    wet_dry.Dsp.compute_float { fSampleRate := 48000, dry_wet := 30 } 1 0 1 2 mem_dry_one 2 0
      ≠ (1 - (30 : Sample) / 100) * mem_dry_one 0 0 + (30 : Sample) / 100 * mem_dry_one 1 0 ∧
    wet_dry.Dsp.in_range { fSampleRate := 48000, dry_wet := 30 } (mem_dry_one 0 0)
      (mem_dry_one 1 0) := by
  obtain ⟨h0, h1⟩ := wet_dry.coefficients_thirty { fSampleRate := 48000, dry_wet := 30 } rfl
  have hfix : f32 (2936013 / 2 ^ 22) = 2936013 / 2 ^ 22 := by
    have := f32_fixed 2936013 (-22) (by norm_num) (by norm_num)
    norm_num at this ⊢
    exact this
  have hd : mem_dry_one 0 0 = 1 := rfl
  have hw : mem_dry_one 1 0 = 0 := rfl
  have hv : wet_dry.Dsp.compute_float { fSampleRate := 48000, dry_wet := 30 } 1 0 1 2
      mem_dry_one 2 0 = 2936013 / 2 ^ 22 := by
    unfold wet_dry.Dsp.compute_float
    rw [(wet_dry.Dsp.mix_float_loop_spec _ _ _ _ _ _ _).2 0 (by decide), h0, h1, hd, hw,
      mul_one, mul_zero, f32_zero, add_zero, hfix, hfix]
  refine ⟨hv, by rw [hd, hw]; norm_num, by rw [hv, hd, hw]; norm_num, ?_⟩
  unfold wet_dry.Dsp.in_range
  rw [h0, h1, hd, hw, f32_literal_hundredth, mul_one, mul_zero, f32_zero, add_zero, hfix]
  refine ⟨f32_range_pos _ (by norm_num) (by norm_num [FLT_MAX]),
    f32_range_pos _ (by norm_num) (by norm_num [FLT_MAX]),
    f32_range_pos _ (by norm_num) (by norm_num [FLT_MAX]),
    f32_range_pos _ (by norm_num) (by norm_num [FLT_MAX]), f32_range_zero,
    f32_range_pos _ (by norm_num) (by norm_num [FLT_MAX]), f32_range_zero,
    f32_range_pos _ (by norm_num) (by norm_num [FLT_MAX])⟩

/-- C3 (amended): `wet_dry::Dsp::compute` works in `float`.  With `s0 = fl(0.01f * wetDry)` and
`s1 = fl(1 - s0)`, it writes `out[i] = fl(fl(s1 * dry[i]) + fl(s0 * wet[i]))` for every
`i < count`, whatever the aliasing of the three buffers (`fl` rounds to the nearest `float`;
operands and results in the normal range of `float` or zero); at `wetDry = 0` the output frame
is the dry frame and at `wetDry = 100` the wet frame, exactly.  In `Engine::process` (engine
switched on) the dry argument is the stack copy of the unprocessed input and the wet argument
is the block left in `output0` by the gain and kernel stages, so the output frame is
`fl(fl(s1 * input[i]) + fl(s0 * processed[i]))`. -/
theorem C3_mix_rounded (d : wet_dry.Dsp) (count : Int) (dry wet out : Ptr) (m : Mem)
    (env : Env) (e : Engine) (n : Nat) (input0 output0 : Ptr) (w : World) (i : Nat)
    (hc : (i : Int) < count) (hn : 1 ≤ n) (hb : e.bypass ≠ 0)
    (hi : i < (int_of_uint32 n).toNat)
    (_hr : d.in_range (m dry i) (m wet i))
    (_hre : e.plugin2.in_range (w.mem input0 i)
      ((e.process_conv_float env n output0
        (Engine.process_copies n input0 output0 w.mem)).2.2 output0 i)) :
    d.fSlow0_float = f32 (f32 0.01 * d.dry_wet) ∧ d.fSlow1_float = f32 (1 - d.fSlow0_float) ∧
    d.compute_float count dry wet out m out i
      = f32 (f32 (d.fSlow1_float * m dry i) + f32 (d.fSlow0_float * m wet i)) ∧
    (d.dry_wet = 0 → f32 (m dry i) = m dry i →
      d.compute_float count dry wet out m out i = m dry i) ∧
    (d.dry_wet = 100 → f32 (m wet i) = m wet i →
      d.compute_float count dry wet out m out i = m wet i) ∧
    (e.process_float env n input0 output0 w).2.mem
      = e.plugin2.compute_float (int_of_uint32 n) (buf0_ptr input0 output0) output0 output0
          (e.process_conv_float env n output0
            (Engine.process_copies n input0 output0 w.mem)).2.2 ∧
    (e.process_conv_float env n output0 (Engine.process_copies n input0 output0 w.mem)).2.2
        (buf0_ptr input0 output0) i = w.mem input0 i ∧
    (e.process_float env n input0 output0 w).2.mem output0 i
      = f32 (f32 (e.plugin2.fSlow1_float * w.mem input0 i)
          + f32 (e.plugin2.fSlow0_float *
              (e.process_conv_float env n output0
                (Engine.process_copies n input0 output0 w.mem)).2.2 output0 i)) := by
  have hn1 : ¬ n < 1 := by omega
  have hin : i < n := lt_of_lt_of_le hi (int_of_uint32_toNat_le n)
  have hk : i < count.toNat := by omega
  have hmix : d.compute_float count dry wet out m out i
      = f32 (f32 (d.fSlow1_float * m dry i) + f32 (d.fSlow0_float * m wet i)) := by
    unfold wet_dry.Dsp.compute_float
    exact (wet_dry.Dsp.mix_float_loop_spec _ _ _ _ _ _ _).2 i hk
  have hbuf : (e.process_conv_float env n output0
      (Engine.process_copies n input0 output0 w.mem)).2.2 (buf0_ptr input0 output0) i
      = w.mem input0 i := by
    rw [process_conv_float_other env e n output0 _ _ i (Or.inl (buf0_ne_output input0 output0)),
      process_copies_buf0 n input0 output0 w.mem i hin]
  have hproc : (e.process_float env n input0 output0 w).2.mem
      = e.plugin2.compute_float (int_of_uint32 n) (buf0_ptr input0 output0) output0 output0
          (e.process_conv_float env n output0
            (Engine.process_copies n input0 output0 w.mem)).2.2 := by
    unfold Engine.process_float
    simp only [hn1, hb, if_false]
  refine ⟨rfl, rfl, hmix, ?_, ?_, hproc, hbuf, ?_⟩
  · intro h0 hf
    obtain ⟨c0, c1⟩ := wet_dry.coefficients_dry d h0
    rw [hmix, c0, c1, one_mul, zero_mul, f32_zero, add_zero, hf, hf]
  · intro h0 hf
    obtain ⟨c0, c1⟩ := wet_dry.coefficients_wet d h0
    rw [hmix, c0, c1, one_mul, zero_mul, f32_zero, zero_add, hf, hf]
  · rw [hproc]
    unfold wet_dry.Dsp.compute_float
    rw [(wet_dry.Dsp.mix_float_loop_spec _ _ _ _ _ _ _).2 i hi, hbuf]

/-- The operations of the mix are in range for the half-wet mix of two frames equal to 1. -/
theorem in_range_half : wet_dry.Dsp.in_range { fSampleRate := 48000, dry_wet := 50 } 1 1 := by
  obtain ⟨h0, h1⟩ := wet_dry.coefficients_half { fSampleRate := 48000, dry_wet := 50 } rfl
  have hfix : f32 (1 / 2) = 1 / 2 := by
    have := f32_fixed 1 (-1) (by norm_num) (by norm_num)
    norm_num at this ⊢
    exact this
  unfold wet_dry.Dsp.in_range
  rw [h0, h1, f32_literal_hundredth, mul_one, hfix]
  refine ⟨f32_range_pos _ (by norm_num) (by norm_num [FLT_MAX]),
    f32_range_pos _ (by norm_num) (by norm_num [FLT_MAX]),
    f32_range_pos _ (by norm_num) (by norm_num [FLT_MAX]),
    f32_range_pos _ (by norm_num) (by norm_num [FLT_MAX]),
    f32_range_pos _ (by norm_num) (by norm_num [FLT_MAX]),
    f32_range_pos _ (by norm_num) (by norm_num [FLT_MAX]),
    f32_range_pos _ (by norm_num) (by norm_num [FLT_MAX]),
    f32_range_pos _ (by norm_num) (by norm_num [FLT_MAX])⟩

/-- The operations of the mix are in range for the fully wet mix of the switched-on engine on
the frame the gain stage leaves from a block of ones. -/
theorem in_range_engine_on : engine_on.plugin2.in_range 1 (8589935 / 2 ^ 33) := by
  obtain ⟨h0, h1⟩ := wet_dry.coefficients_wet engine_on.plugin2 rfl
  have hd : engine_on.plugin2.dry_wet = 100 := rfl
  unfold wet_dry.Dsp.in_range
  rw [h0, h1, hd, f32_literal_hundredth, sub_self, zero_mul, one_mul, f32_zero, zero_add,
    f32_gain_coefficient_fixed]
  refine ⟨f32_range_pos _ (by norm_num) (by norm_num [FLT_MAX]),
    f32_range_pos _ (by norm_num) (by norm_num [FLT_MAX]), f32_range_zero,
    f32_range_pos _ (by norm_num) (by norm_num [FLT_MAX]),
    f32_range_pos _ (by norm_num) (by norm_num [FLT_MAX]), f32_range_zero,
    f32_range_pos _ (by norm_num) (by norm_num [FLT_MAX]),
    f32_range_pos _ (by norm_num) (by norm_num [FLT_MAX])⟩

/-- C3 (amended) at a concrete input: a half-wet mix stage on three distinct buffers, and the
switched-on engine on a block of two frames. -/
theorem C3_mix_rounded_witness :
    ((0 : Nat) : Int) < 2 ∧ 1 ≤ 2 ∧ engine_on.bypass ≠ 0 ∧ 0 < (int_of_uint32 2).toNat ∧
    wet_dry.Dsp.in_range { fSampleRate := 48000, dry_wet := 50 } (mem_ones 0 0) (mem_ones 1 0) ∧
    engine_on.plugin2.in_range (mem_ones 0 0)
      ((engine_on.process_conv_float env0 2 0 (Engine.process_copies 2 0 0 mem_ones)).2.2 0 0) ∧
    (wet_dry.Dsp.fSlow0_float { fSampleRate := 48000, dry_wet := 50 }
      = f32 (f32 0.01 * (50 : Sample)) ∧
    wet_dry.Dsp.fSlow1_float { fSampleRate := 48000, dry_wet := 50 }
      = f32 (1 - wet_dry.Dsp.fSlow0_float { fSampleRate := 48000, dry_wet := 50 }) ∧
    wet_dry.Dsp.compute_float { fSampleRate := 48000, dry_wet := 50 } 2 0 1 2 mem_ones 2 0
      = f32 (f32 (wet_dry.Dsp.fSlow1_float { fSampleRate := 48000, dry_wet := 50 }
                    * mem_ones 0 0)
          + f32 (wet_dry.Dsp.fSlow0_float { fSampleRate := 48000, dry_wet := 50 }
                    * mem_ones 1 0)) ∧
    ((50 : Sample) = 0 → f32 (mem_ones 0 0) = mem_ones 0 0 →
      wet_dry.Dsp.compute_float { fSampleRate := 48000, dry_wet := 50 } 2 0 1 2 mem_ones 2 0
        = mem_ones 0 0) ∧
    ((50 : Sample) = 100 → f32 (mem_ones 1 0) = mem_ones 1 0 →
      wet_dry.Dsp.compute_float { fSampleRate := 48000, dry_wet := 50 } 2 0 1 2 mem_ones 2 0
        = mem_ones 1 0) ∧
    (engine_on.process_float env0 2 0 0 ⟨mem_ones, 0⟩).2.mem
      = engine_on.plugin2.compute_float (int_of_uint32 2) (buf0_ptr 0 0) 0 0
          (engine_on.process_conv_float env0 2 0 (Engine.process_copies 2 0 0 mem_ones)).2.2 ∧
    (engine_on.process_conv_float env0 2 0 (Engine.process_copies 2 0 0 mem_ones)).2.2
        (buf0_ptr 0 0) 0 = mem_ones 0 0 ∧
    (engine_on.process_float env0 2 0 0 ⟨mem_ones, 0⟩).2.mem 0 0
      = f32 (f32 (engine_on.plugin2.fSlow1_float * mem_ones 0 0)
          + f32 (engine_on.plugin2.fSlow0_float *
              (engine_on.process_conv_float env0 2 0
                (Engine.process_copies 2 0 0 mem_ones)).2.2 0 0))) :=
  ⟨by decide, by decide, by decide, by decide, in_range_half,
   by rw [process_conv_float_engine_on 2 (by decide)]; exact in_range_engine_on,
   C3_mix_rounded { fSampleRate := 48000, dry_wet := 50 } 2 0 1 2 mem_ones env0 engine_on 2 0 0
     ⟨mem_ones, 0⟩ 0 (by decide) (by decide) (by decide) (by decide) in_range_half
     (by rw [process_conv_float_engine_on 2 (by decide)]; exact in_range_engine_on)⟩

/-! ## C4: the fully dry mix -/

/-- C5: for every non-empty block processed while the engine is switched on, the kernel is
applied exactly when no rebuild is in flight (`_execute` false) and the kernel is runnable:
then the convolver and the wet block are those `conv.compute` returns on the output of the
gain stage; in every other case the convolver is untouched and the wet block handed to the mix
stage is the output of the gain stage unchanged. -/
theorem C5_kernel_applied_iff_ready (env : Env) (e : Engine) (n : Nat) (input0 output0 : Ptr)
    (w : World) (hn : 1 ≤ n) (hb : e.bypass ≠ 0) :
    (e._execute = false ∧ e.conv.is_runnable = true →
      (e.process env n input0 output0 w).1.conv
        = (e.conv.compute env (int_of_uint32 n) output0 output0
            (e.plugin1.compute env.pow (int_of_uint32 n) output0 output0
              (Engine.process_copies n input0 output0 w.mem)).2).1 ∧
      (e.process env n input0 output0 w).2.mem
        = e.plugin2.compute (int_of_uint32 n) (buf0_ptr input0 output0) output0 output0
            (e.conv.compute env (int_of_uint32 n) output0 output0
              (e.plugin1.compute env.pow (int_of_uint32 n) output0 output0
                (Engine.process_copies n input0 output0 w.mem)).2).2) ∧
    (¬ (e._execute = false ∧ e.conv.is_runnable = true) →
      (e.process env n input0 output0 w).1.conv = e.conv ∧
      (e.process env n input0 output0 w).2.mem
        = e.plugin2.compute (int_of_uint32 n) (buf0_ptr input0 output0) output0 output0
            (e.plugin1.compute env.pow (int_of_uint32 n) output0 output0
              (Engine.process_copies n input0 output0 w.mem)).2) := by
  have hn1 : ¬ n < 1 := by omega
  refine ⟨?_, ?_⟩
  · rintro ⟨h1, h2⟩
    unfold Engine.process Engine.process_conv
    simp [hn1, hb, h1, h2]
  · intro h
    have hc : (!e._execute && e.conv.is_runnable) = false := by
      cases h1 : e._execute <;> cases h2 : e.conv.is_runnable <;> simp_all
    unfold Engine.process Engine.process_conv
    simp [hn1, hb, hc]

/-- The switched-on engine with a runnable kernel loaded from `a.wav`. -/
theorem C5_kernel_applied_iff_ready_witness :
    1 ≤ 1 ∧ engine_loaded.bypass ≠ 0 ∧
    ((engine_loaded._execute = false ∧ engine_loaded.conv.is_runnable = true →
      (engine_loaded.process env0 1 0 0 ⟨mem_ones, 0⟩).1.conv
        = (engine_loaded.conv.compute env0 (int_of_uint32 1) 0 0
            (engine_loaded.plugin1.compute env0.pow (int_of_uint32 1) 0 0
              (Engine.process_copies 1 0 0 mem_ones)).2).1 ∧
      (engine_loaded.process env0 1 0 0 ⟨mem_ones, 0⟩).2.mem
        = engine_loaded.plugin2.compute (int_of_uint32 1) (buf0_ptr 0 0) 0 0
            (engine_loaded.conv.compute env0 (int_of_uint32 1) 0 0
              (engine_loaded.plugin1.compute env0.pow (int_of_uint32 1) 0 0
                (Engine.process_copies 1 0 0 mem_ones)).2).2) ∧
    (¬ (engine_loaded._execute = false ∧ engine_loaded.conv.is_runnable = true) →
      (engine_loaded.process env0 1 0 0 ⟨mem_ones, 0⟩).1.conv = engine_loaded.conv ∧
      (engine_loaded.process env0 1 0 0 ⟨mem_ones, 0⟩).2.mem
        = engine_loaded.plugin2.compute (int_of_uint32 1) (buf0_ptr 0 0) 0 0
            (engine_loaded.plugin1.compute env0.pow (int_of_uint32 1) 0 0
              (Engine.process_copies 1 0 0 mem_ones)).2)) :=
  ⟨by decide, by decide,
   C5_kernel_applied_iff_ready env0 engine_loaded 1 0 0 ⟨mem_ones, 0⟩ (by decide) (by decide)⟩

/-! ## C9, C10: the worker callback -/

namespace ConvolverSelector

/-- The polling loop ends, and changes nothing but the count of outstanding polls. -/
theorem wait_checkstate_eq (c : ConvolverSelector) :
    c.wait_checkstate = { c with pending := 0 } := by
  generalize hp : c.pending = k
  induction k generalizing c with
  | zero =>
    rw [wait_checkstate]
    simp only [checkstate, hp, if_true]
    cases c
    simp_all
  | succ k ih =>
    rw [wait_checkstate]
    simp only [checkstate, hp, Bool.false_eq_true, if_false]
    rw [ih { c with pending := k } rfl]

end ConvolverSelector

namespace impulseloader

/-- When the kernel cannot be started for a file other than "None", `setIRFile` hands back a
convolver that is not runnable and the sentinel as file name. -/
theorem setIRFile_fail (env : Env) (e : Engine) (co : ConvolverSelector) (file : String)
    (hf : file ≠ "None") (hs : env.startOk file = false) :
    (e.setIRFile env co file).2 = "None" ∧ (e.setIRFile env co file).1.is_runnable = false := by
  unfold Engine.setIRFile
  rw [if_pos hf, ConvolverSelector.wait_checkstate_eq]
  simp [ConvolverSelector.start, ConvolverSelector.configure, hs,
    ConvolverSelector.is_runnable, ConvolverSelector.cleanup,
    ConvolverSelector.set_samplerate, ConvolverSelector.set_buffersize,
    ConvolverSelector.set_not_runnable, ConvolverSelector.stop_process]

end impulseloader

/-- C9: for every value of `_cd` and every outcome of the kernel build (every environment),
`Engine::do_work_mono` returns with `_execute` cleared and `_notify_ui` raised. -/
theorem C9_worker_clears_busy_raises_notify (env : Env) (e : Engine) :
    (e.do_work_mono env)._execute = false ∧ (e.do_work_mono env)._notify_ui = true := by
  unfold Engine.do_work_mono
  exact ⟨rfl, rfl⟩

/-- C10: when a rebuild runs (`_cd = 1`) for a requested file other than "None" and the kernel
cannot be started for that file, `Engine::do_work_mono` returns with `ir_file` reset to the
sentinel "None", a kernel that is not runnable, `_notify_ui` raised and `_execute` cleared; the
call returns an engine state and nothing else, so no error reaches the caller. -/
theorem C10_failed_build_resets_file (env : Env) (e : Engine) (hcd : e._cd = 1)
    (hf : e.ir_file ≠ "None") (hs : env.startOk e.ir_file = false) :
    (e.do_work_mono env).ir_file = "None" ∧
    (e.do_work_mono env).conv.is_runnable = false ∧
    (e.do_work_mono env)._notify_ui = true ∧
    (e.do_work_mono env)._execute = false := by
  have h := setIRFile_fail env e e.conv e.ir_file hf hs
  unfold Engine.do_work_mono
  rw [if_pos hcd]
  exact ⟨h.1, h.2, rfl, rfl⟩

/-- C10 at a concrete input: a rebuild for `missing.wav` in an environment where no kernel can
be started. -/
theorem C10_failed_build_resets_file_witness :
    engine_request_missing._cd = 1 ∧ engine_request_missing.ir_file ≠ "None" ∧
    env_fail.startOk engine_request_missing.ir_file = false ∧
    ((engine_request_missing.do_work_mono env_fail).ir_file = "None" ∧
     (engine_request_missing.do_work_mono env_fail).conv.is_runnable = false ∧
     (engine_request_missing.do_work_mono env_fail)._notify_ui = true ∧
     (engine_request_missing.do_work_mono env_fail)._execute = false) :=
  ⟨rfl, by decide, rfl,
   C10_failed_build_resets_file env_fail engine_request_missing rfl (by decide) rfl⟩

/-! ## C1: requests that accumulate before the dispatch -/

theorem wrap_int32_succ (x : Int) (h0 : 0 ≤ x) (h1 : x + 1 < 2 ^ 31) :
    wrap_int32 (x + 1) = x + 1 := by
  unfold wrap_int32
  omega

namespace Clap

/-- An accepted file name from the IR picker is stored, counted in `_cd` and latched. -/
theorem sendFileName_accepted (s : ImpulseLoader) (name : String) (old : Int)
    (hn : name ≠ "None") (he : ends_with name "wav" = true ∨ ends_with name "WAV" = true) :
    s.sendFileName name true old =
      { s with engine := { s.engine with ir_file := name,
                                         _cd := wrap_int32 (s.engine._cd + 1) },
               workToDo := true } := by
  unfold ImpulseLoader.sendFileName
  have h2 : (ends_with name "wav" || ends_with name "WAV") = true := by
    rcases he with h | h <;> simp [h]
  rw [if_neg hn, if_pos h2]
  rfl

/-- A run of accepted file names: the last one is stored, `_cd` has counted them all. -/
theorem sendFileNames_accepted (names : List String) :
    ∀ (s : ImpulseLoader),
      (∀ name ∈ names, name ≠ "None" ∧
        (ends_with name "wav" = true ∨ ends_with name "WAV" = true)) →
      0 ≤ s.engine._cd → s.engine._cd + names.length < 2 ^ 31 →
      s.sendFileNames names =
        { s with engine := { s.engine with ir_file := names.getLastD s.engine.ir_file,
                                           _cd := s.engine._cd + names.length },
                 workToDo := s.workToDo || !names.isEmpty } := by
  induction names with
  | nil =>
    intro s _ _ _
    cases s
    simp [ImpulseLoader.sendFileNames]
  | cons a l ih =>
    intro s hacc h0 h1
    have ha := hacc a (List.mem_cons_self a l)
    have hl : ∀ name ∈ l, name ≠ "None" ∧
        (ends_with name "wav" = true ∨ ends_with name "WAV" = true) :=
      fun name hm => hacc name (List.mem_cons_of_mem a hm)
    have hlen : ((a :: l).length : Int) = (l.length : Int) + 1 := by simp
    have hw : wrap_int32 (s.engine._cd + 1) = s.engine._cd + 1 :=
      wrap_int32_succ _ h0 (by omega)
    have hstep : s.sendFileNames (a :: l) = (s.sendFileName a true 0).sendFileNames l := rfl
    rw [hstep, sendFileName_accepted s a 0 ha.1 ha.2, hw]
    rw [ih _ hl (by simp only []; omega) (by simp only []; omega)]
    simp only [hlen, List.isEmpty_cons, Bool.not_false, Bool.or_true, Bool.true_or]
    congr 2
    · cases l <;> simp [List.getLastD]
    · omega

end Clap

/-- C1 fails on the code: after two or more accepted file names have been sent before the
dispatch, `checkEngine` dispatches the worker, but `do_work_mono` finds `_cd` at two or more,
skips `setIRFile` and leaves the convolver exactly as it was before the requests, while
`ir_file` names the last request and `_notify_ui` is raised.  (The claim asks for a kernel
rebuilt from the last request.) -/
theorem C1_accumulated_requests_skip_rebuild (env : Env) (s : Clap.ImpulseLoader)
    (names : List String)
    (hacc : ∀ name ∈ names, name ≠ "None" ∧
      (ends_with name "wav" = true ∨ ends_with name "WAV" = true))
    (hlen : 2 ≤ names.length) (hcd0 : 0 ≤ s.engine._cd)
    (hcd1 : s.engine._cd + names.length < 2 ^ 31)
    (hidle : s.engine.xrworker.getProcess = true) :
    ((((s.sendFileNames names).checkEngine env).workerRun env).engine.conv = s.engine.conv) ∧
    (some (((s.sendFileNames names).checkEngine env).workerRun env).engine.ir_file
      = names.getLast?) ∧
    ((s.sendFileNames names).checkEngine env).engine.xrworker.triggers
      = s.engine.xrworker.triggers + 1 ∧
    (((s.sendFileNames names).checkEngine env).workerRun env).engine._notify_ui = true ∧
    (((s.sendFileNames names).checkEngine env).workerRun env).engine._execute = false := by
  have hne : names ≠ [] := by
    intro h
    rw [h] at hlen
    simp at hlen
  have hemp : names.isEmpty = false := by
    cases names with
    | nil => exact absurd rfl hne
    | cons a l => rfl
  have hcd : ¬ (s.engine._cd + (names.length : Int) = 1) := by omega
  rw [Clap.sendFileNames_accepted names s hacc hcd0 hcd1]
  unfold Clap.ImpulseLoader.checkEngine Clap.ImpulseLoader.workerRun Engine.do_work_mono
  simp only [hemp, Bool.not_false, Bool.or_true, if_true, hidle, hcd, if_false]
  have hlast : some (names.getLastD s.engine.ir_file) = names.getLast? := by
    cases names with
    | nil => exact absurd rfl hne
    | cons a l => cases l <;> simp [List.getLastD, List.getLast?]
  refine ⟨?_, ?_, ?_, ?_, ?_⟩
  · trivial
  · exact hlast
  · rfl
  · trivial
  · trivial

/-- C1 at the failing input: the CLAP plugin after construction and `initEngine`, the files
`a.wav` and `b.wav` sent before the next tick.  After the dispatch and the worker run the
convolver is still the empty one (not built from `b.wav`), though `ir_file` is `b.wav`. -/
theorem C1_accumulated_requests_skip_rebuild_witness :
    (∀ name ∈ ["a.wav", "b.wav"], name ≠ "None" ∧
      (ends_with name "wav" = true ∨ ends_with name "WAV" = true)) ∧
    2 ≤ ["a.wav", "b.wav"].length ∧ 0 ≤ clap_inited.engine._cd ∧
    clap_inited.engine._cd + (["a.wav", "b.wav"].length : Int) < 2 ^ 31 ∧
    clap_inited.engine.xrworker.getProcess = true ∧
    ((((clap_inited.sendFileNames ["a.wav", "b.wav"]).checkEngine env0).workerRun env0).engine.conv
        = clap_inited.engine.conv ∧
     some (((clap_inited.sendFileNames ["a.wav", "b.wav"]).checkEngine env0).workerRun
        env0).engine.ir_file = ["a.wav", "b.wav"].getLast? ∧
     ((clap_inited.sendFileNames ["a.wav", "b.wav"]).checkEngine env0).engine.xrworker.triggers
        = clap_inited.engine.xrworker.triggers + 1 ∧
     (((clap_inited.sendFileNames ["a.wav", "b.wav"]).checkEngine env0).workerRun
        env0).engine._notify_ui = true ∧
     (((clap_inited.sendFileNames ["a.wav", "b.wav"]).checkEngine env0).workerRun
        env0).engine._execute = false) :=
  ⟨by decide, by decide, by decide, by decide, rfl,
   C1_accumulated_requests_skip_rebuild env0 clap_inited ["a.wav", "b.wav"] (by decide)
     (by decide) (by decide) (by decide) rfl⟩

/-! ## C6, C7: the control-rate dispatch -/

/-- C6, as stated, fails for the standalone build: during its first three calls `checkEngine`
only counts up `processCounter`.  With a request pending and the worker idle the request stays
latched, `_execute` stays false and the worker is not triggered. -/
theorem C6_standalone_warmup_no_dispatch :
    standalone_pending.workToDo = true ∧
    standalone_pending.engine.xrworker.getProcess = true ∧
    (standalone_pending.checkEngine env0).workToDo = true ∧
    (standalone_pending.checkEngine env0).engine._execute = false ∧
    (standalone_pending.checkEngine env0).engine.xrworker.triggers
      = standalone_pending.engine.xrworker.triggers := by
  refine ⟨rfl, rfl, rfl, rfl, rfl⟩

/-- C6 (amended): `checkEngine`, called with a request pending and the worker idle, clears the
request, sets `_execute`, triggers the worker exactly once and leaves `ir_file` and `normA`
(and every other field) as they are: in the CLAP build at every call, in the standalone build
once `processCounter` has reached 3; before that a standalone call only counts up
`processCounter`. -/
theorem C6_dispatch_when_idle (env : Env) (c : Clap.ImpulseLoader)
    (s t : Standalone.ImpulseLoader)
    (hc1 : c.workToDo = true) (hc2 : c.engine.xrworker.getProcess = true)
    (hs1 : s.workToDo = true) (hs2 : s.engine.xrworker.getProcess = true)
    (hs3 : 3 ≤ s.processCounter) (ht : t.processCounter < 3) :
    (c.checkEngine env =
        { c with workToDo := false,
                 engine := { c.engine with _execute := true,
                                           xrworker := c.engine.xrworker.runProcess } } ∧
      (c.checkEngine env).workToDo = false ∧
      (c.checkEngine env).engine._execute = true ∧
      (c.checkEngine env).engine.xrworker.triggers = c.engine.xrworker.triggers + 1 ∧
      (c.checkEngine env).engine.ir_file = c.engine.ir_file ∧
      (c.checkEngine env).engine.normA = c.engine.normA) ∧
    (s.checkEngine env =
        { s with workToDo := false,
                 engine := { s.engine with _execute := true,
                                           xrworker := s.engine.xrworker.runProcess } } ∧
      (s.checkEngine env).workToDo = false ∧
      (s.checkEngine env).engine._execute = true ∧
      (s.checkEngine env).engine.xrworker.triggers = s.engine.xrworker.triggers + 1 ∧
      (s.checkEngine env).engine.ir_file = s.engine.ir_file ∧
      (s.checkEngine env).engine.normA = s.engine.normA) ∧
    t.checkEngine env = { t with processCounter := t.processCounter + 1 } := by
  have hcE : c.checkEngine env =
      { c with workToDo := false,
               engine := { c.engine with _execute := true,
                                         xrworker := c.engine.xrworker.runProcess } } := by
    unfold Clap.ImpulseLoader.checkEngine
    rw [if_pos hc1, if_pos hc2]
  have hsE : s.checkEngine env =
      { s with workToDo := false,
               engine := { s.engine with _execute := true,
                                         xrworker := s.engine.xrworker.runProcess } } := by
    unfold Standalone.ImpulseLoader.checkEngine
    rw [if_neg (by omega), if_pos hs1, if_pos hs2]
  refine ⟨⟨hcE, by rw [hcE], by rw [hcE], by rw [hcE]; rfl, by rw [hcE], by rw [hcE]⟩,
    ⟨hsE, by rw [hsE], by rw [hsE], by rw [hsE]; rfl, by rw [hsE], by rw [hsE]⟩, ?_⟩
  unfold Standalone.ImpulseLoader.checkEngine
  rw [if_pos ht]

/-- C6 (amended) at concrete states: the CLAP plugin with a request pending, the standalone
program with a request pending after its warm-up, and during it. -/
theorem C6_dispatch_when_idle_witness :
    clap_pending.workToDo = true ∧ clap_pending.engine.xrworker.getProcess = true ∧
    standalone_warm.workToDo = true ∧ standalone_warm.engine.xrworker.getProcess = true ∧
    3 ≤ standalone_warm.processCounter ∧ standalone_pending.processCounter < 3 ∧
    (clap_pending.checkEngine env0).engine.xrworker.triggers
      = clap_pending.engine.xrworker.triggers + 1 ∧
    (standalone_warm.checkEngine env0).engine.xrworker.triggers
      = standalone_warm.engine.xrworker.triggers + 1 ∧
    standalone_pending.checkEngine env0
      = { standalone_pending with processCounter := standalone_pending.processCounter + 1 } :=
  have h := C6_dispatch_when_idle env0 clap_pending standalone_warm standalone_pending
    rfl rfl rfl rfl (by decide) (by decide)
  ⟨rfl, rfl, rfl, rfl, by decide, by decide, h.1.2.2.2.1, h.2.1.2.2.2.1, h.2.2⟩

namespace Standalone

/-- The worker's run touches neither the request nor the counter nor the count of triggers,
and leaves the worker idle. -/
theorem standalone_workerRun_keeps (env : Env) (s : ImpulseLoader) :
    (s.workerRun env).workToDo = s.workToDo ∧
    (s.workerRun env).processCounter = s.processCounter ∧
    (s.workerRun env).engine.xrworker.triggers = s.engine.xrworker.triggers ∧
    (s.workerRun env).engine.xrworker.getProcess = true := by
  unfold ImpulseLoader.workerRun Engine.do_work_mono
  refine ⟨rfl, rfl, ?_, rfl⟩
  split <;> rfl

/-- With a request pending, the worker busy and the warm-up over, `checkEngine` changes
nothing. -/
theorem standalone_checkEngine_busy (env : Env) (s : ImpulseLoader) (h1 : s.workToDo = true)
    (h2 : s.engine.xrworker.getProcess = false) (h3 : 3 ≤ s.processCounter) :
    s.checkEngine env = s := by
  unfold ImpulseLoader.checkEngine
  rw [if_neg (by omega), if_pos h1, if_neg (by rw [h2]; decide)]

/-- With a request pending, the worker idle and the warm-up over, `checkEngine` dispatches. -/
theorem standalone_checkEngine_idle (env : Env) (s : ImpulseLoader) (h1 : s.workToDo = true)
    (h2 : s.engine.xrworker.getProcess = true) (h3 : 3 ≤ s.processCounter) :
    s.checkEngine env =
      { s with workToDo := false,
               engine := { s.engine with _execute := true,
                                         xrworker := s.engine.xrworker.runProcess } } := by
  unfold ImpulseLoader.checkEngine
  rw [if_neg (by omega), if_pos h1, if_pos h2]

/-- While the worker is busy the warm-up is over: one event keeps this. -/
theorem step_busy_warm (env : Env) (s : ImpulseLoader) (e : Event)
    (h : s.engine.xrworker.getProcess = false → 3 ≤ s.processCounter) :
    (s.step env e).engine.xrworker.getProcess = false → 3 ≤ (s.step env e).processCounter := by
  cases e with
  | tick =>
    show (s.checkEngine env).engine.xrworker.getProcess = false
      → 3 ≤ (s.checkEngine env).processCounter
    unfold ImpulseLoader.checkEngine
    by_cases hc : s.processCounter < 3
    · rw [if_pos hc]
      intro hb
      have := h hb
      omega
    · rw [if_neg hc]
      split_ifs
      · intro _
        show 3 ≤ s.processCounter
        omega
      · exact h
      · intro _
        show 3 ≤ s.processCounter
        omega
      · exact h
  | worker =>
    show (if s.engine.xrworker.getProcess then s else s.workerRun env).engine.xrworker.getProcess
        = false
      → 3 ≤ (if s.engine.xrworker.getProcess then s else s.workerRun env).processCounter
    split_ifs with hg
    · exact h
    · intro hb
      rw [(standalone_workerRun_keeps env s).2.2.2] at hb
      exact absurd hb (by decide)
  | other t => exact h

/-- While the worker is busy the warm-up is over: in every state the program reaches. -/
theorem run_busy_warm (env : Env) (es : List Event) :
    ∀ s : ImpulseLoader, (s.engine.xrworker.getProcess = false → 3 ≤ s.processCounter) →
      (s.run env es).engine.xrworker.getProcess = false →
        3 ≤ (s.run env es).processCounter := by
  induction es with
  | nil => exact fun s h => h
  | cons e es ih =>
    intro s h
    exact ih (s.step env e) (step_busy_warm env s e h)

/-- As long as every call finds the worker busy, a latched request stays latched, the warm-up
stays over and the worker is not triggered. -/
theorem standalone_run_ticks_busy (env : Env) (es : List Event) :
    ∀ s : ImpulseLoader, s.workToDo = true → 3 ≤ s.processCounter →
      ImpulseLoader.ticks_busy env s es = true →
      (s.run env es).workToDo = true ∧ 3 ≤ (s.run env es).processCounter ∧
      (s.run env es).engine.xrworker.triggers = s.engine.xrworker.triggers := by
  induction es with
  | nil => exact fun s h1 h3 _ => ⟨h1, h3, rfl⟩
  | cons e es ih =>
    intro s h1 h3 hb
    cases e with
    | tick =>
      simp only [ImpulseLoader.ticks_busy, Bool.and_eq_true, Bool.not_eq_true'] at hb
      have hfix : s.checkEngine env = s := standalone_checkEngine_busy env s h1 hb.1 h3
      have hrun : s.run env (Event.tick :: es) = (s.checkEngine env).run env es := rfl
      rw [hrun, hfix]
      rw [hfix] at hb
      exact ih s h1 h3 hb.2
    | worker =>
      have hb2 : ImpulseLoader.ticks_busy env (s.step env Event.worker) es = true := hb
      have hrun : s.run env (Event.worker :: es) = (s.step env Event.worker).run env es := rfl
      rw [hrun]
      have hstep : (s.step env Event.worker).workToDo = true ∧
          3 ≤ (s.step env Event.worker).processCounter ∧
          (s.step env Event.worker).engine.xrworker.triggers = s.engine.xrworker.triggers := by
        show (if s.engine.xrworker.getProcess then s else s.workerRun env).workToDo = true ∧
          3 ≤ (if s.engine.xrworker.getProcess then s else s.workerRun env).processCounter ∧
          (if s.engine.xrworker.getProcess then s else s.workerRun env).engine.xrworker.triggers
            = s.engine.xrworker.triggers
        obtain ⟨k1, k2, k3, _⟩ := standalone_workerRun_keeps env s
        split_ifs
        · exact ⟨h1, h3, rfl⟩
        · exact ⟨by rw [k1]; exact h1, by rw [k2]; exact h3, k3⟩
      obtain ⟨i1, i2, i3⟩ := ih _ hstep.1 hstep.2.1 hb2
      exact ⟨i1, i2, i3.trans hstep.2.2⟩
    | other t =>
      have hb2 : ImpulseLoader.ticks_busy env (s.step env (Event.other t)) es = true := hb
      have hrun : s.run env (Event.other t :: es)
          = (s.step env (Event.other t)).run env es := rfl
      rw [hrun]
      have hw : (s.step env (Event.other t)).workToDo = true := by
        show (s.workToDo || t.workToDo) = true
        rw [h1]
        rfl
      obtain ⟨i1, i2, i3⟩ := ih _ hw h3 hb2
      exact ⟨i1, i2, i3⟩

end Standalone

namespace Clap

/-- The worker's run touches neither the request nor the count of triggers, and leaves the
worker idle. -/
theorem clap_workerRun_keeps (env : Env) (s : ImpulseLoader) :
    (s.workerRun env).workToDo = s.workToDo ∧
    (s.workerRun env).engine.xrworker.triggers = s.engine.xrworker.triggers ∧
    (s.workerRun env).engine.xrworker.getProcess = true := by
  unfold ImpulseLoader.workerRun Engine.do_work_mono
  refine ⟨rfl, ?_, rfl⟩
  split <;> rfl

/-- With a request pending and the worker busy, `checkEngine` changes nothing. -/
theorem clap_checkEngine_busy (env : Env) (s : ImpulseLoader) (h1 : s.workToDo = true)
    (h2 : s.engine.xrworker.getProcess = false) : s.checkEngine env = s := by
  unfold ImpulseLoader.checkEngine
  rw [if_pos h1, if_neg (by rw [h2]; decide)]

/-- With a request pending and the worker idle, `checkEngine` dispatches. -/
theorem clap_checkEngine_idle (env : Env) (s : ImpulseLoader) (h1 : s.workToDo = true)
    (h2 : s.engine.xrworker.getProcess = true) :
    s.checkEngine env =
      { s with workToDo := false,
               engine := { s.engine with _execute := true,
                                         xrworker := s.engine.xrworker.runProcess } } := by
  unfold ImpulseLoader.checkEngine
  rw [if_pos h1, if_pos h2]

/-- Without a pending request, or with the worker busy, `checkEngine` touches neither the
request nor the worker. -/
theorem checkEngine_no_dispatch (env : Env) (s : ImpulseLoader)
    (h : s.workToDo = false ∨ s.engine.xrworker.getProcess = false) :
    (s.checkEngine env).workToDo = s.workToDo ∧
    (s.checkEngine env).engine.xrworker = s.engine.xrworker := by
  unfold ImpulseLoader.checkEngine
  split_ifs with h1 h2 h3
  · rcases h with h | h
    · rw [h1] at h
      exact absurd h (by decide)
    · rw [h2] at h
      exact absurd h (by decide)
  · exact ⟨rfl, rfl⟩
  · exact ⟨rfl, rfl⟩
  · exact ⟨rfl, rfl⟩

/-- One event that is not a call of `checkEngine` on an idle worker never lowers the count of
triggers, and leaves a request latched as long as the worker is not triggered. -/
theorem step_keeps_request (env : Env) (k : Nat) (s : ImpulseLoader) (e : Event)
    (ht : e = Event.tick → s.engine.xrworker.getProcess = false)
    (h1 : k ≤ s.engine.xrworker.triggers)
    (h2 : s.engine.xrworker.triggers = k → s.workToDo = true) :
    k ≤ (s.step env e).engine.xrworker.triggers ∧
    ((s.step env e).engine.xrworker.triggers = k → (s.step env e).workToDo = true) := by
  cases e with
  | tick =>
    obtain ⟨c1, c2⟩ := checkEngine_no_dispatch env s (Or.inr (ht rfl))
    show k ≤ (s.checkEngine env).engine.xrworker.triggers ∧
      ((s.checkEngine env).engine.xrworker.triggers = k → (s.checkEngine env).workToDo = true)
    rw [c1, c2]
    exact ⟨h1, h2⟩
  | worker =>
    obtain ⟨k1, k2, _⟩ := clap_workerRun_keeps env s
    show k ≤ (if s.engine.xrworker.getProcess then s
        else s.workerRun env).engine.xrworker.triggers ∧
      ((if s.engine.xrworker.getProcess then s
        else s.workerRun env).engine.xrworker.triggers = k →
       (if s.engine.xrworker.getProcess then s else s.workerRun env).workToDo = true)
    split_ifs
    · exact ⟨h1, h2⟩
    · rw [k1, k2]
      exact ⟨h1, h2⟩
  | other t =>
    refine ⟨h1, fun h => ?_⟩
    show (s.workToDo || t.workToDo) = true
    rw [h2 h]
    rfl
  | load t =>
    show k ≤ (ImpulseLoader.readState_dispatch
        { t with workToDo := s.workToDo || t.workToDo,
                 engine := { t.engine with
                               xrworker := s.engine.xrworker } }).engine.xrworker.triggers ∧
      ((ImpulseLoader.readState_dispatch
        { t with workToDo := s.workToDo || t.workToDo,
                 engine := { t.engine with
                               xrworker := s.engine.xrworker } }).engine.xrworker.triggers
          = k →
       (ImpulseLoader.readState_dispatch
        { t with workToDo := s.workToDo || t.workToDo,
                 engine := { t.engine with xrworker := s.engine.xrworker } }).workToDo = true)
    unfold ImpulseLoader.readState_dispatch
    dsimp only
    split_ifs
    · refine ⟨?_, fun h => ?_⟩
      · show k ≤ s.engine.xrworker.triggers + 1
        omega
      · have : s.engine.xrworker.triggers + 1 = k := h
        omega
    · exact ⟨h1, fun _ => rfl⟩

/-- As long as every call finds the worker busy, the count of triggers never falls and a
latched request stays latched until the worker is triggered. -/
theorem clap_run_ticks_busy (env : Env) (k : Nat) (es : List Event) :
    ∀ s : ImpulseLoader, k ≤ s.engine.xrworker.triggers →
      (s.engine.xrworker.triggers = k → s.workToDo = true) →
      ImpulseLoader.ticks_busy env s es = true →
      k ≤ (s.run env es).engine.xrworker.triggers ∧
      ((s.run env es).engine.xrworker.triggers = k → (s.run env es).workToDo = true) := by
  induction es with
  | nil => exact fun s h1 h2 _ => ⟨h1, h2⟩
  | cons e es ih =>
    intro s h1 h2 hb
    have hrun : s.run env (e :: es) = (s.step env e).run env es := rfl
    rw [hrun]
    cases e with
    | tick =>
      simp only [ImpulseLoader.ticks_busy, Bool.and_eq_true, Bool.not_eq_true'] at hb
      obtain ⟨j1, j2⟩ := step_keeps_request env k s Event.tick (fun _ => hb.1) h1 h2
      exact ih _ j1 j2 hb.2
    | worker =>
      obtain ⟨j1, j2⟩ := step_keeps_request env k s Event.worker (fun h => nomatch h) h1 h2
      exact ih _ j1 j2 hb
    | other t =>
      obtain ⟨j1, j2⟩ := step_keeps_request env k s (Event.other t) (fun h => nomatch h) h1 h2
      exact ih _ j1 j2 hb
    | load t =>
      obtain ⟨j1, j2⟩ := step_keeps_request env k s (Event.load t) (fun h => nomatch h) h1 h2
      exact ih _ j1 j2 hb

end Clap

/-- The events `standalone_latched_events` lead to `standalone_latched`. -/
theorem standalone_latched_reached :
    standalone_latched = Standalone.ImpulseLoader.new.run env0 standalone_latched_events := by
  rfl

/-- C7: `checkEngine`, called with a request pending (`workToDo`) and the worker busy, changes
nothing: the state after the call is the state before, so the request stays latched, the
worker is not triggered and `_execute`, `_notify_ui`, `_cd` and `ir_file` are unchanged.  This
holds for every state of the CLAP plugin and for every state the standalone program reaches
from its construction (there the worker is busy only after the warm-up of `checkEngine`).
The request is dispatched by the first later call that finds the worker idle: after any run of
events in which every call of `checkEngine` found the worker busy, the request is still
latched, and the call that finds the worker idle clears it, sets `_execute` and triggers the
worker, once since the busy call.  In the CLAP build `readState` dispatches on its own when it
finds the worker idle; then the worker has been triggered by the time of that call. -/
theorem C7_latched_while_busy (env : Env) (c : Clap.ImpulseLoader) (cs : List Clap.Event)
    (s : Standalone.ImpulseLoader) (es ss : List Standalone.Event)
    (hc1 : c.workToDo = true) (hc2 : c.engine.xrworker.getProcess = false)
    (hcb : Clap.ImpulseLoader.ticks_busy env c cs = true)
    (hci : (c.run env cs).engine.xrworker.getProcess = true)
    (hr : s = Standalone.ImpulseLoader.new.run env es)
    (hs1 : s.workToDo = true) (hs2 : s.engine.xrworker.getProcess = false)
    (hsb : Standalone.ImpulseLoader.ticks_busy env s ss = true)
    (hsi : (s.run env ss).engine.xrworker.getProcess = true) :
    (c.checkEngine env = c ∧
      c.engine.xrworker.triggers + 1
        ≤ ((c.run env cs).checkEngine env).engine.xrworker.triggers ∧
      ((c.run env cs).engine.xrworker.triggers = c.engine.xrworker.triggers →
        (c.run env cs).workToDo = true ∧
        ((c.run env cs).checkEngine env).workToDo = false ∧
        ((c.run env cs).checkEngine env).engine._execute = true ∧
        ((c.run env cs).checkEngine env).engine.xrworker.getProcess = false ∧
        ((c.run env cs).checkEngine env).engine.xrworker.triggers
          = c.engine.xrworker.triggers + 1)) ∧
    (s.checkEngine env = s ∧
      (s.run env ss).workToDo = true ∧
      ((s.run env ss).checkEngine env).workToDo = false ∧
      ((s.run env ss).checkEngine env).engine._execute = true ∧
      ((s.run env ss).checkEngine env).engine.xrworker.getProcess = false ∧
      ((s.run env ss).checkEngine env).engine.xrworker.triggers
        = s.engine.xrworker.triggers + 1) := by
  have hwarm : 3 ≤ s.processCounter := by
    rw [hr] at hs2 ⊢
    exact Standalone.run_busy_warm env es Standalone.ImpulseLoader.new
      (fun h => absurd h (by decide)) hs2
  obtain ⟨u1, u2, u3⟩ := Standalone.standalone_run_ticks_busy env ss s hs1 hwarm hsb
  have hsd := Standalone.standalone_checkEngine_idle env (s.run env ss) u1 hsi u2
  obtain ⟨v1, v2⟩ := Clap.clap_run_ticks_busy env c.engine.xrworker.triggers cs c le_rfl
    (fun _ => hc1) hcb
  refine ⟨⟨Clap.clap_checkEngine_busy env c hc1 hc2, ?_, ?_⟩,
    ⟨Standalone.standalone_checkEngine_busy env s hs1 hs2 hwarm, u1, by rw [hsd], by rw [hsd],
      by rw [hsd]; rfl,
      by rw [hsd, ← u3]; rfl⟩⟩
  · by_cases hw : (c.run env cs).workToDo = true
    · rw [Clap.clap_checkEngine_idle env _ hw hci]
      show c.engine.xrworker.triggers + 1 ≤ (c.run env cs).engine.xrworker.triggers + 1
      omega
    · have hne : (c.run env cs).engine.xrworker.triggers ≠ c.engine.xrworker.triggers :=
        fun h => hw (v2 h)
      rw [(Clap.checkEngine_no_dispatch env _ (Or.inl (by simpa using hw))).2]
      omega
  · intro h
    have hw := v2 h
    have hd := Clap.clap_checkEngine_idle env _ hw hci
    exact ⟨hw, by rw [hd], by rw [hd], by rw [hd]; rfl, by rw [hd, ← h]; rfl⟩

/-- C7 at concrete states: in both builds a request for `b.wav` latched behind the running
rebuild for `a.wav`; then a busy call of `checkEngine` and the worker finishing. -/
theorem C7_latched_while_busy_witness :
    clap_latched.workToDo = true ∧ clap_latched.engine.xrworker.getProcess = false ∧
    Clap.ImpulseLoader.ticks_busy env0 clap_latched [Clap.Event.tick, Clap.Event.worker]
      = true ∧
    (clap_latched.run env0 [Clap.Event.tick, Clap.Event.worker]).engine.xrworker.getProcess
      = true ∧
    standalone_latched = Standalone.ImpulseLoader.new.run env0 standalone_latched_events ∧
    standalone_latched.workToDo = true ∧
    standalone_latched.engine.xrworker.getProcess = false ∧
    Standalone.ImpulseLoader.ticks_busy env0 standalone_latched
      [Standalone.Event.tick, Standalone.Event.worker] = true ∧
    (standalone_latched.run env0
      [Standalone.Event.tick, Standalone.Event.worker]).engine.xrworker.getProcess = true ∧
    clap_latched.checkEngine env0 = clap_latched ∧
    ((clap_latched.run env0 [Clap.Event.tick, Clap.Event.worker]).checkEngine
      env0).engine.xrworker.triggers = clap_latched.engine.xrworker.triggers + 1 ∧
    standalone_latched.checkEngine env0 = standalone_latched ∧
    ((standalone_latched.run env0 [Standalone.Event.tick, Standalone.Event.worker]).checkEngine
      env0).workToDo = false ∧
    ((standalone_latched.run env0 [Standalone.Event.tick, Standalone.Event.worker]).checkEngine
      env0).engine.xrworker.triggers = standalone_latched.engine.xrworker.triggers + 1 :=
  have h := C7_latched_while_busy env0 clap_latched [Clap.Event.tick, Clap.Event.worker]
    standalone_latched standalone_latched_events
    [Standalone.Event.tick, Standalone.Event.worker] rfl rfl rfl rfl
    standalone_latched_reached rfl rfl rfl rfl
  ⟨rfl, rfl, rfl, rfl, standalone_latched_reached, rfl, rfl, rfl, rfl, h.1.1,
   (h.1.2.2 rfl).2.2.2.2, h.2.1, h.2.2.2.1, h.2.2.2.2.2.2⟩

/-! ## C8: the dispatch of the LV2 plugin -/

namespace Lv2

/-- Handling a control event leaves a pending request pending and does not touch the busy
flag or the worker. -/
theorem on_event_keeps (s : Ximpulseloader) (ev : ControlEvent) :
    (s.doit = true → (s.on_event ev).doit = true) ∧
    (s.on_event ev).engine._execute = s.engine._execute ∧
    (s.on_event ev).engine.xrworker = s.engine.xrworker := by
  unfold Ximpulseloader.on_event
  cases ev with
  | nonObject => exact ⟨fun h => h, rfl, rfl⟩
  | object otype property value =>
    simp only []
    unfold Ximpulseloader.read_set_file
    split_ifs <;> (try exact ⟨fun h => h, rfl, rfl⟩)
    all_goals (repeat' split)
    all_goals (first | exact ⟨fun h => h, rfl, rfl⟩ | simp_all)

/-- The whole event loop leaves a pending request pending and does not touch the busy flag or
the worker. -/
theorem foldl_on_event_keeps (control : List ControlEvent) :
    ∀ s : Ximpulseloader,
      (s.doit = true → (control.foldl Ximpulseloader.on_event s).doit = true) ∧
      (control.foldl Ximpulseloader.on_event s).engine._execute = s.engine._execute ∧
      (control.foldl Ximpulseloader.on_event s).engine.xrworker = s.engine.xrworker := by
  induction control with
  | nil => exact fun s => ⟨fun h => h, rfl, rfl⟩
  | cons ev l ih =>
    intro s
    obtain ⟨h1, h2, h3⟩ := on_event_keeps s ev
    obtain ⟨i1, i2, i3⟩ := ih (s.on_event ev)
    exact ⟨fun h => i1 (h1 h), i2.trans h2, i3.trans h3⟩

/-- Storing the port values leaves a pending request pending and does not touch the busy flag
or the worker. -/
theorem fetch_ports_keeps (s : Ximpulseloader) (ports : Ports) :
    (s.doit = true → (s.fetch_ports ports).doit = true) ∧
    (s.fetch_ports ports).engine._execute = s.engine._execute ∧
    (s.fetch_ports ports).engine.xrworker = s.engine.xrworker := by
  unfold Ximpulseloader.fetch_ports
  dsimp only
  split_ifs <;> simp_all

/-- The notification of the UI does not touch the request, the busy flag or the worker. -/
theorem notify_ui_keeps (s : Ximpulseloader) :
    s.notify_ui.doit = s.doit ∧
    s.notify_ui.engine._execute = s.engine._execute ∧
    s.notify_ui.engine.xrworker = s.engine.xrworker := by
  unfold Ximpulseloader.notify_ui
  split_ifs <;> exact ⟨rfl, rfl, rfl⟩

/-- What a call of `check_messages` on at least one frame does with a request that is pending
when the call starts. -/
theorem check_messages_cases (s : Ximpulseloader) (n : Nat) (control : List ControlEvent)
    (ports : Ports) (hn : 1 ≤ n) (hd : s.doit = true) :
    (s.engine._execute = false →
      (s.check_messages n control ports).doit = false ∧
      (s.check_messages n control ports).engine._execute = true ∧
      (s.check_messages n control ports).engine.xrworker = s.engine.xrworker.runProcess) ∧
    (s.engine._execute = true →
      (s.check_messages n control ports).doit = true ∧
      (s.check_messages n control ports).engine._execute = true ∧
      (s.check_messages n control ports).engine.xrworker = s.engine.xrworker) := by
  have hn1 : ¬ n < 1 := by omega
  obtain ⟨f1, f2, f3⟩ := foldl_on_event_keeps control
    { s with notify := [], engine := { s.engine with bufsize := n } }
  have f1 := f1 hd
  unfold Ximpulseloader.check_messages
  rw [if_neg hn1]
  dsimp only
  generalize List.foldl Ximpulseloader.on_event _ control = s1 at f1 f2 f3 ⊢
  obtain ⟨g1, g2, g3⟩ := fetch_ports_keeps s1 ports
  have g1 := g1 f1
  generalize s1.fetch_ports ports = s4 at g1 g2 g3 ⊢
  obtain ⟨n1, n2, n3⟩ := notify_ui_keeps s4.run_worker
  rw [n1, n2, n3]
  have e4 : s4.engine._execute = s.engine._execute := g2.trans f2
  have w4 : s4.engine.xrworker = s.engine.xrworker := g3.trans f3
  unfold Ximpulseloader.run_worker
  refine ⟨?_, ?_⟩
  · intro he
    rw [he] at e4
    rw [if_pos (by rw [g1, e4]; rfl)]
    exact ⟨rfl, rfl, by rw [← w4]⟩
  · intro he
    rw [he] at e4
    rw [if_neg (by rw [g1, e4]; decide)]
    exact ⟨g1, e4, w4⟩

end Lv2

namespace impulseloader

/-- The rounded engine touches neither the busy flag nor the worker. -/
theorem process_float_keeps (env : Env) (e : Engine) (n : Nat) (input0 output0 : Ptr)
    (w : World) :
    (e.process_float env n input0 output0 w).1._execute = e._execute ∧
    (e.process_float env n input0 output0 w).1.xrworker = e.xrworker := by
  unfold Engine.process_float
  split_ifs <;> exact ⟨rfl, rfl⟩

end impulseloader

namespace Lv2

/-- What a call of `check_messages` on at least one frame does with the request it finds at
its test of `doit`: it dispatches when the worker is free, and keeps the request otherwise. -/
theorem check_messages_dispatch (s : Ximpulseloader) (n : Nat) (control : List ControlEvent)
    (ports : Ports) (hn : 1 ≤ n) :
    (s.requested n control ports = true ∧ s.engine._execute = false →
      (s.check_messages n control ports).doit = false ∧
      (s.check_messages n control ports).engine._execute = true ∧
      (s.check_messages n control ports).engine.xrworker = s.engine.xrworker.runProcess) ∧
    (¬ (s.requested n control ports = true ∧ s.engine._execute = false) →
      (s.check_messages n control ports).doit = s.requested n control ports ∧
      (s.check_messages n control ports).engine._execute = s.engine._execute ∧
      (s.check_messages n control ports).engine.xrworker = s.engine.xrworker) := by
  have hn1 : ¬ n < 1 := by omega
  obtain ⟨_, f2, f3⟩ := foldl_on_event_keeps control
    { s with notify := [], engine := { s.engine with bufsize := n } }
  unfold Ximpulseloader.check_messages Ximpulseloader.requested
  rw [if_neg hn1]
  dsimp only
  generalize List.foldl Ximpulseloader.on_event _ control = s1 at f2 f3 ⊢
  obtain ⟨_, g2, g3⟩ := fetch_ports_keeps s1 ports
  generalize s1.fetch_ports ports = s4 at g2 g3 ⊢
  obtain ⟨n1, n2, n3⟩ := notify_ui_keeps s4.run_worker
  rw [n1, n2, n3]
  have e4 : s4.engine._execute = s.engine._execute := g2.trans f2
  have w4 : s4.engine.xrworker = s.engine.xrworker := g3.trans f3
  unfold Ximpulseloader.run_worker
  refine ⟨?_, ?_⟩
  · rintro ⟨hr, he⟩
    rw [he] at e4
    rw [if_pos (by rw [hr, e4]; rfl)]
    exact ⟨rfl, rfl, by rw [← w4]⟩
  · intro hne
    have hc : ¬ ((s4.doit && !s4.engine._execute) = true) := by
      intro h
      simp only [Bool.and_eq_true, Bool.not_eq_true'] at h
      exact hne ⟨h.1, by rw [← e4]; exact h.2⟩
    rw [if_neg hc]
    exact ⟨rfl, e4, w4⟩

/-- A request pending at the start of `check_messages` is still there at the test of
`doit`. -/
theorem requested_of_doit (s : Ximpulseloader) (n : Nat) (control : List ControlEvent)
    (ports : Ports) (hd : s.doit = true) : s.requested n control ports = true := by
  unfold Ximpulseloader.requested
  exact (fetch_ports_keeps _ ports).1
    ((foldl_on_event_keeps control
      { s with notify := [], engine := { s.engine with bufsize := n } }).1 hd)

/-- The effect of `runBufferedDsp` on the request, the busy flag and the worker: that of
`check_messages` when the block is not empty and the warm-up is over, none otherwise. -/
theorem runBufferedDsp_flags (env : Env) (s : Ximpulseloader) (n : Nat)
    (control : List ControlEvent) (ports : Ports) (input0 output0 : Ptr) (w : World) :
    (1 ≤ n ∧ 5 ≤ s.processCounter →
      (s.runBufferedDsp env n control ports input0 output0 w).1.doit
        = (s.check_messages n control ports).doit ∧
      (s.runBufferedDsp env n control ports input0 output0 w).1.engine._execute
        = (s.check_messages n control ports).engine._execute ∧
      (s.runBufferedDsp env n control ports input0 output0 w).1.engine.xrworker
        = (s.check_messages n control ports).engine.xrworker) ∧
    (¬ (1 ≤ n ∧ 5 ≤ s.processCounter) →
      (s.runBufferedDsp env n control ports input0 output0 w).1.doit = s.doit ∧
      (s.runBufferedDsp env n control ports input0 output0 w).1.engine._execute
        = s.engine._execute ∧
      (s.runBufferedDsp env n control ports input0 output0 w).1.engine.xrworker
        = s.engine.xrworker) := by
  unfold Ximpulseloader.runBufferedDsp
  refine ⟨?_, ?_⟩
  · rintro ⟨h1, h5⟩
    rw [if_neg (by omega)]
    dsimp only
    rw [if_neg (by omega)]
    obtain ⟨p1, p2⟩ := process_float_keeps env (s.check_messages n control ports).engine n
      output0 output0
      { w with mem := if output0 ≠ input0 then memcpy w.mem output0 input0 n else w.mem }
    exact ⟨rfl, p1, p2⟩
  · intro h
    by_cases h1 : n < 1
    · rw [if_pos h1]
      exact ⟨rfl, rfl, rfl⟩
    · rw [if_neg h1]
      dsimp only
      rw [if_pos (by omega)]
      exact ⟨rfl, rfl, rfl⟩

/-- The callback `do_work_mono` does not touch the worker. -/
theorem do_work_mono_worker (env : Env) (e : impulseloader.Engine) :
    (e.do_work_mono env).xrworker = e.xrworker := by
  unfold Engine.do_work_mono
  split <;> rfl

/-- The worker's run touches neither the request nor the count of triggers. -/
theorem lv2_workerRun_keeps (env : Env) (s : Ximpulseloader) :
    (s.workerRun env).doit = s.doit ∧
    (s.workerRun env).engine.xrworker.triggers = s.engine.xrworker.triggers := by
  unfold Ximpulseloader.workerRun Engine.do_work_mono
  refine ⟨rfl, ?_⟩
  split <;> rfl

/-- One event changes the request and the count of triggers in one of two ways: the count is
kept and a pending request stays pending, or the worker is triggered once and the request is
cleared. -/
theorem step_request (env : Env) (s : Ximpulseloader) (e : Event) :
    ((s.step env e).engine.xrworker.triggers = s.engine.xrworker.triggers ∧
      (s.doit = true → (s.step env e).doit = true)) ∨
    ((s.step env e).engine.xrworker.triggers = s.engine.xrworker.triggers + 1 ∧
      (s.step env e).doit = false ∧ (s.step env e).engine._execute = true) := by
  cases e with
  | cycle n control ports input0 output0 w =>
    show ((s.runBufferedDsp env n control ports input0 output0 w).1.engine.xrworker.triggers
        = s.engine.xrworker.triggers ∧
      (s.doit = true → (s.runBufferedDsp env n control ports input0 output0 w).1.doit = true)) ∨
      ((s.runBufferedDsp env n control ports input0 output0 w).1.engine.xrworker.triggers
        = s.engine.xrworker.triggers + 1 ∧
      (s.runBufferedDsp env n control ports input0 output0 w).1.doit = false ∧
      (s.runBufferedDsp env n control ports input0 output0 w).1.engine._execute = true)
    obtain ⟨r1, r2⟩ := runBufferedDsp_flags env s n control ports input0 output0 w
    by_cases hc : 1 ≤ n ∧ 5 ≤ s.processCounter
    · obtain ⟨a1, a2, a3⟩ := r1 hc
      rw [a1, a2, a3]
      obtain ⟨c1, c2⟩ := check_messages_dispatch s n control ports hc.1
      by_cases hd : s.requested n control ports = true ∧ s.engine._execute = false
      · obtain ⟨b1, b2, b3⟩ := c1 hd
        exact Or.inr ⟨by rw [b3]; rfl, b1, b2⟩
      · obtain ⟨b1, _, b3⟩ := c2 hd
        exact Or.inl ⟨by rw [b3],
          fun h => by rw [b1]; exact requested_of_doit s n control ports h⟩
    · obtain ⟨a1, _, a3⟩ := r2 hc
      rw [a1, a3]
      exact Or.inl ⟨rfl, fun h => h⟩
  | worker =>
    obtain ⟨k1, k2⟩ := lv2_workerRun_keeps env s
    show ((if s.engine.xrworker.getProcess then s
        else s.workerRun env).engine.xrworker.triggers = s.engine.xrworker.triggers ∧
      (s.doit = true → (if s.engine.xrworker.getProcess then s
        else s.workerRun env).doit = true)) ∨ _
    left
    split_ifs
    · exact ⟨rfl, fun h => h⟩
    · exact ⟨k2, fun h => by rw [k1]; exact h⟩
  | work => exact Or.inl ⟨(do_work_mono_worker env s.engine).symm ▸ rfl, fun h => h⟩
  | other t => exact Or.inl ⟨rfl, fun h => h⟩

/-- Over any run the count of triggers never falls, and a pending request stays pending until
the worker is triggered. -/
theorem run_keeps_request (env : Env) (k : Nat) (es : List Event) :
    ∀ s : Ximpulseloader, k ≤ s.engine.xrworker.triggers →
      (s.engine.xrworker.triggers = k → s.doit = true) →
      k ≤ (s.run env es).engine.xrworker.triggers ∧
      ((s.run env es).engine.xrworker.triggers = k → (s.run env es).doit = true) := by
  induction es with
  | nil => exact fun s h1 h2 => ⟨h1, h2⟩
  | cons e es ih =>
    intro s h1 h2
    have hrun : s.run env (e :: es) = (s.step env e).run env es := rfl
    rw [hrun]
    rcases step_request env s e with ⟨t1, t2⟩ | ⟨t1, _, _⟩
    · exact ih _ (by omega) (fun h => t2 (h2 (by omega)))
    · exact ih _ (by omega) (fun h => by omega)

/-- One event of a run in which no new request arrives: with the request cleared, the worker
is not triggered and the request stays cleared. -/
theorem step_no_new_request (env : Env) (s : Ximpulseloader) (e : Event) (es : List Event)
    (hq : Ximpulseloader.no_new_request env s (e :: es) = true) (hd : s.doit = false) :
    (s.step env e).engine.xrworker.triggers = s.engine.xrworker.triggers ∧
    (s.step env e).doit = false := by
  cases e with
  | cycle n control ports input0 output0 w =>
    simp only [Ximpulseloader.no_new_request, Bool.and_eq_true, Bool.or_eq_true,
      decide_eq_true_eq, Bool.not_eq_true'] at hq
    show (s.runBufferedDsp env n control ports input0 output0 w).1.engine.xrworker.triggers
        = s.engine.xrworker.triggers ∧
      (s.runBufferedDsp env n control ports input0 output0 w).1.doit = false
    obtain ⟨r1, r2⟩ := runBufferedDsp_flags env s n control ports input0 output0 w
    by_cases hc : 1 ≤ n ∧ 5 ≤ s.processCounter
    · obtain ⟨a1, _, a3⟩ := r1 hc
      rw [a1, a3]
      have hreq : s.requested n control ports = false := by
        rcases hq.1 with ((h | h) | h) | h
        · omega
        · omega
        · rw [hd] at h
          exact absurd h (by decide)
        · exact h
      obtain ⟨b1, _, b3⟩ := (check_messages_dispatch s n control ports hc.1).2
        (by rw [hreq]; rintro ⟨h, _⟩; exact absurd h (by decide))
      exact ⟨by rw [b3], by rw [b1, hreq]⟩
    · obtain ⟨a1, _, a3⟩ := r2 hc
      rw [a1, a3]
      exact ⟨rfl, hd⟩
  | worker =>
    obtain ⟨k1, k2⟩ := lv2_workerRun_keeps env s
    show (if s.engine.xrworker.getProcess then s
        else s.workerRun env).engine.xrworker.triggers = s.engine.xrworker.triggers ∧
      (if s.engine.xrworker.getProcess then s else s.workerRun env).doit = false
    split_ifs
    · exact ⟨rfl, hd⟩
    · exact ⟨k2, by rw [k1]; exact hd⟩
  | work => exact ⟨(do_work_mono_worker env s.engine).symm ▸ rfl, hd⟩
  | other t => exact ⟨rfl, hd⟩

/-- The rest of a run in which no new request arrives is such a run. -/
theorem no_new_request_tail (env : Env) (s : Ximpulseloader) (e : Event) (es : List Event)
    (hq : Ximpulseloader.no_new_request env s (e :: es) = true) :
    Ximpulseloader.no_new_request env (s.step env e) es = true := by
  cases e with
  | cycle n control ports input0 output0 w =>
    simp only [Ximpulseloader.no_new_request, Bool.and_eq_true] at hq
    exact hq.2
  | worker => exact hq
  | work => exact hq
  | other t => exact hq

/-- Over a run in which no new request arrives, the request pending at its start is either
still pending with the worker not triggered, or cleared with the worker triggered once. -/
theorem run_no_new_request (env : Env) (k : Nat) (es : List Event) :
    ∀ s : Ximpulseloader, Ximpulseloader.no_new_request env s es = true →
      ((s.doit = true ∧ s.engine.xrworker.triggers = k) ∨
        (s.doit = false ∧ s.engine.xrworker.triggers = k + 1)) →
      ((s.run env es).doit = true ∧ (s.run env es).engine.xrworker.triggers = k) ∨
      ((s.run env es).doit = false ∧ (s.run env es).engine.xrworker.triggers = k + 1) := by
  induction es with
  | nil => exact fun s _ h => h
  | cons e es ih =>
    intro s hq h
    have hrun : s.run env (e :: es) = (s.step env e).run env es := rfl
    rw [hrun]
    apply ih _ (no_new_request_tail env s e es hq)
    rcases h with ⟨h1, h2⟩ | ⟨h1, h2⟩
    · rcases step_request env s e with ⟨t1, t2⟩ | ⟨t1, t2, _⟩
      · exact Or.inl ⟨t2 h1, by omega⟩
      · exact Or.inr ⟨t2, by omega⟩
    · obtain ⟨t1, t2⟩ := step_no_new_request env s e es hq h1
      exact Or.inr ⟨t2, by omega⟩

end Lv2

/-- C8: in the LV2 `check_messages`, called by `runBufferedDsp` on at least one frame, a call
with `doit` set and `_execute` false sets `_execute`, triggers the worker once and clears
`doit`; a call with `doit` set and `_execute` true leaves `doit` set and triggers nothing.
Through `runBufferedDsp` the same holds once its warm-up is over, and an empty block or a
cycle of the warm-up keeps the request.  A pending request is never dropped: over any run of
cycles, worker runs, calls of `work` and other methods, `doit` stays set until the worker is
triggered.  It is never dispatched twice: over a run in which no new request arrives once it
is dispatched, the worker is triggered at most once, and `doit` is clear exactly when it has
been. -/
theorem C8_request_dispatched_once (env : Env) (s t : Lv2.Ximpulseloader) (n m : Nat)
    (control : List Lv2.ControlEvent) (ports : Lv2.Ports) (input0 output0 : Ptr) (w : World)
    (es qs : List Lv2.Event)
    (hn : 1 ≤ n) (hs1 : s.doit = true) (hs2 : s.engine._execute = false)
    (ht1 : t.doit = true) (ht2 : t.engine._execute = true)
    (hq : Lv2.Ximpulseloader.no_new_request env s qs = true) :
    ((s.check_messages n control ports).engine._execute = true ∧
      (s.check_messages n control ports).engine.xrworker.triggers
        = s.engine.xrworker.triggers + 1 ∧
      (s.check_messages n control ports).doit = false) ∧
    ((t.check_messages m control ports).doit = true ∧
      (t.check_messages m control ports).engine.xrworker.triggers
        = t.engine.xrworker.triggers ∧
      (t.check_messages m control ports).engine._execute = true) ∧
    (5 ≤ s.processCounter →
      (s.runBufferedDsp env n control ports input0 output0 w).1.engine._execute = true ∧
      (s.runBufferedDsp env n control ports input0 output0 w).1.engine.xrworker.triggers
        = s.engine.xrworker.triggers + 1 ∧
      (s.runBufferedDsp env n control ports input0 output0 w).1.doit = false) ∧
    (m < 1 ∨ s.processCounter < 5 →
      (s.runBufferedDsp env m control ports input0 output0 w).1.doit = true ∧
      (s.runBufferedDsp env m control ports input0 output0 w).1.engine.xrworker.triggers
        = s.engine.xrworker.triggers) ∧
    ((s.run env es).doit = true
      ∨ s.engine.xrworker.triggers < (s.run env es).engine.xrworker.triggers) ∧
    ((t.run env es).doit = true
      ∨ t.engine.xrworker.triggers < (t.run env es).engine.xrworker.triggers) ∧
    (((s.run env qs).doit = true
        ∧ (s.run env qs).engine.xrworker.triggers = s.engine.xrworker.triggers) ∨
      ((s.run env qs).doit = false
        ∧ (s.run env qs).engine.xrworker.triggers = s.engine.xrworker.triggers + 1)) := by
  have hcs := (Lv2.check_messages_dispatch s n control ports hn).1
    ⟨Lv2.requested_of_doit s n control ports hs1, hs2⟩
  have hzero : ∀ k, k < 1 → t.check_messages k control ports = t := by
    intro k hk
    unfold Lv2.Ximpulseloader.check_messages
    rw [if_pos hk]
  refine ⟨⟨hcs.2.1, by rw [hcs.2.2]; rfl, hcs.1⟩, ?_, ?_, ?_, ?_, ?_, ?_⟩
  · by_cases hm : m < 1
    · rw [hzero m hm]
      exact ⟨ht1, rfl, ht2⟩
    · obtain ⟨b1, b2, b3⟩ := (Lv2.check_messages_dispatch t m control ports (by omega)).2
        (by rw [ht2]; rintro ⟨_, h⟩; exact absurd h (by decide))
      exact ⟨by rw [b1]; exact Lv2.requested_of_doit t m control ports ht1, by rw [b3],
        by rw [b2]; exact ht2⟩
  · intro h5
    obtain ⟨a1, a2, a3⟩ :=
      (Lv2.runBufferedDsp_flags env s n control ports input0 output0 w).1 ⟨hn, h5⟩
    rw [a1, a2, a3]
    exact ⟨hcs.2.1, by rw [hcs.2.2]; rfl, hcs.1⟩
  · intro h
    obtain ⟨a1, _, a3⟩ :=
      (Lv2.runBufferedDsp_flags env s m control ports input0 output0 w).2 (by omega)
    rw [a1, a3]
    exact ⟨hs1, rfl⟩
  · obtain ⟨i1, i2⟩ := Lv2.run_keeps_request env s.engine.xrworker.triggers es s le_rfl
      (fun _ => hs1)
    by_cases h : (s.run env es).engine.xrworker.triggers = s.engine.xrworker.triggers
    · exact Or.inl (i2 h)
    · exact Or.inr (by omega)
  · obtain ⟨i1, i2⟩ := Lv2.run_keeps_request env t.engine.xrworker.triggers es t le_rfl
      (fun _ => ht1)
    by_cases h : (t.run env es).engine.xrworker.triggers = t.engine.xrworker.triggers
    · exact Or.inl (i2 h)
    · exact Or.inr (by omega)
  · exact Lv2.run_no_new_request env s.engine.xrworker.triggers qs s hq (Or.inl ⟨hs1, rfl⟩)

set_option maxRecDepth 100000 in
/-- The example states of the LV2 plugin: the request latched behind the running rebuild, the
same request when the worker has finished, and a run of two cycles around a worker run in
which no new request arrives. -/
theorem lv2_example_facts :
    lv2_ready.doit = true ∧ lv2_ready.engine._execute = false ∧
    lv2_latched.doit = true ∧ lv2_latched.engine._execute = true ∧
    Lv2.Ximpulseloader.no_new_request env0 lv2_ready
      [lv2_cycle [], Lv2.Event.worker, lv2_cycle []] = true :=
  ⟨rfl, rfl, rfl, rfl, rfl⟩

/-- C8 at concrete states: the request for `b.wav` latched behind the running rebuild for
`a.wav` and the same request when the worker has finished; cycles of 64 frames. -/
theorem C8_request_dispatched_once_witness :
    1 ≤ 64 ∧ lv2_ready.doit = true ∧ lv2_ready.engine._execute = false ∧
    lv2_latched.doit = true ∧ lv2_latched.engine._execute = true ∧
    Lv2.Ximpulseloader.no_new_request env0 lv2_ready
      [lv2_cycle [], Lv2.Event.worker, lv2_cycle []] = true ∧
    ((lv2_ready.check_messages 64 [] ports_default).engine._execute = true ∧
      (lv2_ready.check_messages 64 [] ports_default).engine.xrworker.triggers
        = lv2_ready.engine.xrworker.triggers + 1 ∧
      (lv2_ready.check_messages 64 [] ports_default).doit = false) ∧
    ((lv2_latched.check_messages 64 [] ports_default).doit = true ∧
      (lv2_latched.check_messages 64 [] ports_default).engine.xrworker.triggers
        = lv2_latched.engine.xrworker.triggers ∧
      (lv2_latched.check_messages 64 [] ports_default).engine._execute = true) ∧
    ((lv2_latched.run env0 [lv2_cycle [], Lv2.Event.worker, lv2_cycle []]).doit = true
      ∨ lv2_latched.engine.xrworker.triggers
          < (lv2_latched.run env0
              [lv2_cycle [], Lv2.Event.worker, lv2_cycle []]).engine.xrworker.triggers) ∧
    (((lv2_ready.run env0 [lv2_cycle [], Lv2.Event.worker, lv2_cycle []]).doit = true
        ∧ (lv2_ready.run env0
            [lv2_cycle [], Lv2.Event.worker, lv2_cycle []]).engine.xrworker.triggers
          = lv2_ready.engine.xrworker.triggers) ∨
      ((lv2_ready.run env0 [lv2_cycle [], Lv2.Event.worker, lv2_cycle []]).doit = false
        ∧ (lv2_ready.run env0
            [lv2_cycle [], Lv2.Event.worker, lv2_cycle []]).engine.xrworker.triggers
          = lv2_ready.engine.xrworker.triggers + 1)) :=
  have h := C8_request_dispatched_once env0 lv2_ready lv2_latched 64 64 [] ports_default 0 0
    ⟨mem_ones, 0⟩ [lv2_cycle [], Lv2.Event.worker, lv2_cycle []]
    [lv2_cycle [], Lv2.Event.worker, lv2_cycle []] (by decide) lv2_example_facts.1
    lv2_example_facts.2.1 lv2_example_facts.2.2.1 lv2_example_facts.2.2.2.1
    lv2_example_facts.2.2.2.2
  ⟨by decide, lv2_example_facts.1, lv2_example_facts.2.1, lv2_example_facts.2.2.1,
   lv2_example_facts.2.2.2.1, lv2_example_facts.2.2.2.2, h.1, h.2.1, h.2.2.2.2.2.1,
   h.2.2.2.2.2.2⟩

/-! ## C11, C12: which file names `sendFileName` accepts -/

/-- What `ends_with` tests on the characters of the name. -/
theorem ends_with_iff (name ext : String) :
    ends_with name ext = true ↔ ('.' :: ext.data) <:+ name.data := by
  unfold ends_with
  exact List.isSuffixOf_iff_suffix

namespace Clap

/-- A name that is neither "None" nor ends in `.wav` or `.WAV` is ignored. -/
theorem sendFileName_rejected (s : ImpulseLoader) (filename : String) (m_is_ir : Bool)
    (old : Int) (hn : filename ≠ "None") (h1 : ends_with filename "wav" = false)
    (h2 : ends_with filename "WAV" = false) :
    s.sendFileName filename m_is_ir old = s := by
  unfold ImpulseLoader.sendFileName
  rw [if_neg hn, h1, h2]
  rfl

end Clap

namespace Standalone

/-- A name that is neither "None" nor ends in `.wav` or `.WAV` is ignored. -/
theorem sendFileName_rejected_standalone (s : ImpulseLoader) (filename : String)
    (m_is_ir : Bool) (old : Int) (hn : filename ≠ "None")
    (h1 : ends_with filename "wav" = false) (h2 : ends_with filename "WAV" = false) :
    s.sendFileName filename m_is_ir old = s := by
  unfold ImpulseLoader.sendFileName
  rw [if_neg hn, h1, h2]
  rfl

end Standalone

/-- C11: `sendFileName` (CLAP and standalone) changes the state, that is stores the path in
`engine.ir_file` or raises the swap request, only if the path is the sentinel "None" or ends in
`.wav` or `.WAV`; the GUI callback `file_load_response` hands every chosen name to it and then
only resets the name shown by the picker.  In particular the mixed-case `ir.Wav` and the
dotless `irwav` are not accepted. -/
theorem C11_accepted_only_with_extension (c : Clap.ImpulseLoader) (s : Standalone.ImpulseLoader)
    (filename : String) (m_is_ir : Bool) (old : Int) :
    (c.sendFileName filename m_is_ir old ≠ c →
      filename = "None" ∨ ".wav".data <:+ filename.data ∨ ".WAV".data <:+ filename.data) ∧
    (s.sendFileName filename m_is_ir old ≠ s →
      filename = "None" ∨ ".wav".data <:+ filename.data ∨ ".WAV".data <:+ filename.data) ∧
    ((Clap.file_load_response c (some filename)).engine ≠ c.engine ∨
      (Clap.file_load_response c (some filename)).workToDo ≠ c.workToDo →
      filename = "None" ∨ ".wav".data <:+ filename.data ∨ ".WAV".data <:+ filename.data) ∧
    (c.sendFileName "ir.Wav" m_is_ir old = c ∧ c.sendFileName "irwav" m_is_ir old = c ∧
      s.sendFileName "ir.Wav" m_is_ir old = s ∧ s.sendFileName "irwav" m_is_ir old = s) := by
  have key : ¬ (filename = "None" ∨ ".wav".data <:+ filename.data ∨
      ".WAV".data <:+ filename.data) →
      filename ≠ "None" ∧ ends_with filename "wav" = false ∧
        ends_with filename "WAV" = false := by
    intro h
    refine ⟨fun e => h (Or.inl e), ?_, ?_⟩
    · cases hw : ends_with filename "wav" with
      | false => rfl
      | true => exact absurd (Or.inr (Or.inl ((ends_with_iff _ _).1 hw))) h
    · cases hw : ends_with filename "WAV" with
      | false => rfl
      | true => exact absurd (Or.inr (Or.inr ((ends_with_iff _ _).1 hw))) h
  refine ⟨?_, ?_, ?_, ?_⟩
  · intro hne
    by_contra h
    obtain ⟨a, b, d⟩ := key h
    exact hne (Clap.sendFileName_rejected c filename m_is_ir old a b d)
  · intro hne
    by_contra h
    obtain ⟨a, b, d⟩ := key h
    exact hne (Standalone.sendFileName_rejected_standalone s filename m_is_ir old a b d)
  · intro hne
    by_contra h
    obtain ⟨a, b, d⟩ := key h
    have e : Clap.file_load_response c (some filename) =
        { c with ir := { c.ir with filename := "None" } } := by
      unfold Clap.file_load_response
      simp only []
      rw [Clap.sendFileName_rejected _ filename true _ a b d]
    rw [e] at hne
    rcases hne with h1 | h1 <;> exact h1 rfl
  · exact ⟨Clap.sendFileName_rejected c _ m_is_ir old (by decide) (by decide) (by decide),
      Clap.sendFileName_rejected c _ m_is_ir old (by decide) (by decide) (by decide),
      Standalone.sendFileName_rejected_standalone s _ m_is_ir old (by decide) (by decide)
        (by decide),
      Standalone.sendFileName_rejected_standalone s _ m_is_ir old (by decide) (by decide)
        (by decide)⟩

/-- C11 at concrete requests: `a.wav` sent from the IR picker changes the state of both
programs, and it has the extension. -/
theorem C11_accepted_only_with_extension_witness :
    clap_inited.sendFileName "a.wav" true 0 ≠ clap_inited ∧
    standalone_pending.sendFileName "a.wav" true 0 ≠ standalone_pending ∧
    ("a.wav" = "None" ∨ ".wav".data <:+ "a.wav".data ∨ ".WAV".data <:+ "a.wav".data) :=
  have hc : clap_inited.sendFileName "a.wav" true 0 ≠ clap_inited := fun h =>
    absurd (congrArg (fun t => t.workToDo) h) (by decide)
  have hs : standalone_pending.sendFileName "a.wav" true 0 ≠ standalone_pending := fun h =>
    absurd (congrArg (fun t => t.engine.ir_file) h) (by decide)
  ⟨hc, hs, (C11_accepted_only_with_extension clap_inited standalone_pending "a.wav" true 0).1 hc⟩

/-- C12: for every file name that is not "None" and does not end in `wav` or `WAV` (as
`ends_with` tests it), `sendFileName` changes no state, in the CLAP and in the standalone
build: `engine.ir_file`, `_cd` and `workToDo` keep their values and the worker is not
triggered; on a fresh plugin `ir_file` stays the sentinel "None". -/
theorem C12_unsupported_name_ignored (c : Clap.ImpulseLoader) (s : Standalone.ImpulseLoader)
    (filename : String) (m_is_ir : Bool) (old : Int) (hn : filename ≠ "None")
    (h1 : ends_with filename "wav" = false) (h2 : ends_with filename "WAV" = false) :
    c.sendFileName filename m_is_ir old = c ∧
    s.sendFileName filename m_is_ir old = s ∧
    (c.sendFileName filename m_is_ir old).engine.ir_file = c.engine.ir_file ∧
    (c.sendFileName filename m_is_ir old).engine._cd = c.engine._cd ∧
    (c.sendFileName filename m_is_ir old).workToDo = c.workToDo ∧
    (c.sendFileName filename m_is_ir old).engine.xrworker = c.engine.xrworker ∧
    (Clap.ImpulseLoader.new.sendFileName filename m_is_ir old).engine.ir_file = "None" ∧
    (Standalone.ImpulseLoader.new.sendFileName filename m_is_ir old).engine.ir_file = "None" := by
  have hc := Clap.sendFileName_rejected c filename m_is_ir old hn h1 h2
  have hs := Standalone.sendFileName_rejected_standalone s filename m_is_ir old hn h1 h2
  refine ⟨hc, hs, by rw [hc], by rw [hc], by rw [hc], by rw [hc], ?_, ?_⟩
  · rw [Clap.sendFileName_rejected _ filename m_is_ir old hn h1 h2]
    rfl
  · rw [Standalone.sendFileName_rejected_standalone _ filename m_is_ir old hn h1 h2]
    rfl

/-- C12 at the request `preset.txt`. -/
theorem C12_unsupported_name_ignored_witness :
    "preset.txt" ≠ "None" ∧ ends_with "preset.txt" "wav" = false ∧
    ends_with "preset.txt" "WAV" = false ∧
    clap_inited.sendFileName "preset.txt" true 0 = clap_inited ∧
    (Clap.ImpulseLoader.new.sendFileName "preset.txt" true 0).engine.ir_file = "None" :=
  have h := C12_unsupported_name_ignored clap_inited standalone_pending "preset.txt" true 0
    (by decide) (by decide) (by decide)
  ⟨by decide, by decide, by decide, h.1, h.2.2.2.2.2.2.1⟩

/-! ## C15: the text `saveState` writes -/

/-- C15: for every engine state `saveState` produces exactly the text `[CONTROLS] `, the gain,
the wet/dry value, the bypass and the normalise value, each followed by one space, then
`|[IrFile] `, the path and a closing `|`, and nothing else (the numbers as the stream output
of the library prints them). -/
theorem C15_saveState_text (lib : Stdlib) (s : Clap.ImpulseLoader) :
    s.saveState lib =
      "[CONTROLS] " ++ (lib.show_float s.engine.plugin1.gain ++ (" " ++
        (lib.show_float s.engine.plugin2.dry_wet ++ (" " ++
          (lib.show_uint s.engine.bypass ++ (" " ++
            (lib.show_uint s.engine.normA ++ (" " ++
              ("|[IrFile] " ++ (s.engine.ir_file ++ "|")))))))))) ∧
    (s.saveState lib).data =
      "[CONTROLS] ".data ++ (lib.show_float s.engine.plugin1.gain).data ++ [' ']
        ++ (lib.show_float s.engine.plugin2.dry_wet).data ++ [' ']
        ++ (lib.show_uint s.engine.bypass).data ++ [' ']
        ++ (lib.show_uint s.engine.normA).data ++ [' ']
        ++ "|[IrFile] ".data ++ s.engine.ir_file.data ++ ['|'] := by
  have h : ("|" : String) ++ "[IrFile] " = "|[IrFile] " := by decide
  refine ⟨?_, ?_⟩
  · unfold Clap.ImpulseLoader.saveState
    simp only [String.append_assoc]
    rw [← String.append_assoc "|" "[IrFile] ", h]
  · unfold Clap.ImpulseLoader.saveState
    simp only [String.data_append, List.append_assoc]
    rfl

/-! ## C17: the decimal point handed to `std::stod` -/

/-- C17 fails on the code: under a locale whose decimal point is "," the token `3.14` is
handed to `std::stod` as `3,4`, not as `3,14`: `replace(point_it, point_it + 1, point)`
replaces `point_it + 1` characters, so the dot and the digit after it are replaced.  The
stand-in parser reads the result as 3.4 where the C locale reads 3.14, and `check_stod`
returns the `float` nearest to 3.4 (7130317/2^21) where the C locale gives the one nearest to
3.14 (13170115/2^22). -/
theorem C17_replace_eats_digits :
    check_stod_arg "," "3.14" = "3,4" ∧
    check_stod_arg "," "3.14" ≠ "3,14" ∧
    check_stod lib_comma "3.14" = some (f32 (17 / 5)) ∧
    check_stod lib_c "3.14" = some (f32 (157 / 50)) ∧
    f32 (17 / 5) = 7130317 / 2097152 ∧
    f32 (157 / 50) = 13170115 / 4194304 ∧
    check_stod_arg "," "12.345" = "12,5" := by
  refine ⟨by decide, by decide, ?_, ?_, ?_, ?_, by decide⟩
  · have h : check_stod_arg lib_comma.decimal_point "3.14" = "3,4" := by decide
    have hs : lib_comma.stod "3,4" = some (17 / 5) := by
      simp [lib_comma, stod_simple, digits_value, is_space]
      norm_num
    unfold check_stod
    rw [h, hs]
    rfl
  · have h : check_stod_arg lib_c.decimal_point "3.14" = "3.14" := by decide
    have hs : lib_c.stod "3.14" = some (157 / 50) := by
      simp [lib_c, stod_simple, digits_value, is_space]
      norm_num
    unfold check_stod
    rw [h, hs]
    rfl
  · rw [f32_near (17 / 5) 1 14260634 (by norm_num) (by norm_num) (by norm_num)
      (by norm_num [abs_lt])]
    norm_num
  · rw [f32_near (157 / 50) 1 13170115 (by norm_num) (by norm_num) (by norm_num)
      (by norm_num [abs_lt])]
    norm_num

/-! ## C19: the dirty bit `sendValueChanged` raises -/

/-- C19 fails on the code: the parameters are registered as Enable 0, Gain 1, Wet/Dry 2,
Normalise 3, but on a plugin with all bits clean port 2 writes `bypass` (Enable) and marks
index 2, port 3 writes the gain and marks index 0, port 4 writes wet/dry and marks index 1;
only port 7 marks the parameter it wrote.  `initEngine` writes `bypass` and marks index 1.
After a gain change the next sync to the host therefore reports Enable (id 0) with its
unchanged value and nothing for Gain. -/
theorem C19_dirty_index_mismatch (value : Sample) :
    Clap.ImpulseLoader.new.param.dirty = [false, false, false, false] ∧
    ((Clap.ImpulseLoader.new.sendValueChanged 2 value).engine.bypass
        = Lv2.uint32_of_float value ∧
      (Clap.ImpulseLoader.new.sendValueChanged 2 value).param.dirty
        = [false, false, true, false]) ∧
    ((Clap.ImpulseLoader.new.sendValueChanged 3 value).engine.plugin1.gain = value ∧
      (Clap.ImpulseLoader.new.sendValueChanged 3 value).param.dirty
        = [true, false, false, false]) ∧
    ((Clap.ImpulseLoader.new.sendValueChanged 4 value).engine.plugin2.dry_wet = value ∧
      (Clap.ImpulseLoader.new.sendValueChanged 4 value).param.dirty
        = [false, true, false, false]) ∧
    ((Clap.ImpulseLoader.new.sendValueChanged 7 value).engine.normA
        = Lv2.uint32_of_float value ∧
      (Clap.ImpulseLoader.new.sendValueChanged 7 value).param.dirty
        = [false, false, false, true]) ∧
    ((Clap.ImpulseLoader.new.initEngine 48000 25 1).engine.bypass = 1 ∧
      (Clap.ImpulseLoader.new.initEngine 48000 25 1).param.dirty
        = [false, true, false, false]) ∧
    (Clap.process_sync (Clap.ImpulseLoader.new.sendValueChanged 3 value) []).2
      = [{ param_id := 0, value := 0 }] := by
  refine ⟨rfl, ⟨rfl, rfl⟩, ⟨rfl, rfl⟩, ⟨rfl, rfl⟩, ⟨rfl, rfl⟩, ⟨rfl, rfl⟩, ?_⟩
  simp [Clap.process_sync, Clap.sync_params_to_host, Clap.ImpulseLoader.sendValueChanged,
    Clap.ImpulseLoader.new, Clap.registerParameters, Params.registerParam, Params.new,
    Params.setParamDirty, Params.getParamCount, forLoop, Clap.sync_step, Params.isParamDirty,
    Clap.ImpulseLoader.getParam, impulseloader.Engine.new]

/-! ## C20: the sync of dirty parameters to the host -/

theorem set_replicate_append (k : Nat) (x : Bool) (rest : List Bool) :
    (List.replicate k false ++ x :: rest).set k false = List.replicate (k + 1) false ++ rest := by
  induction k with
  | zero => rfl
  | succ k ih =>
    rw [List.replicate_succ, List.cons_append, List.set_cons_succ, ih]
    rfl

theorem getD_replicate_append (k : Nat) (x : Bool) (rest : List Bool) :
    (List.replicate k false ++ x :: rest).getD k false = x := by
  induction k with
  | zero => rfl
  | succ k ih =>
    rw [List.replicate_succ, List.cons_append, List.getD_cons_succ, ih]

theorem getD_replicate_false (n i : Nat) : (List.replicate n false).getD i false = false := by
  induction n generalizing i with
  | zero => rfl
  | succ n ih =>
    cases i with
    | zero => rfl
    | succ i => rw [List.replicate_succ, List.getD_cons_succ, ih]

namespace Clap

/-- The loop of `sync_params_to_host` after `k` rounds: the first `k` dirty bits are cleared,
and the events of the dirty ones among them are queued in index order. -/
theorem sync_loop_spec (s : ImpulseLoader) (out : List ParamEvent) (k : Nat)
    (hk : k ≤ s.param.dirty.length) :
    forLoop k sync_step (s, out) =
      ({ s with param := { s.param with
                             dirty := List.replicate k false ++ s.param.dirty.drop k } },
       out ++ dirty_events s k) := by
  induction k with
  | zero =>
    cases s
    simp [forLoop, dirty_events]
  | succ k ih =>
    have hlt : k < s.param.dirty.length := by omega
    rw [forLoop_succ, ih (by omega)]
    have hdrop : s.param.dirty.drop k = s.param.dirty[k] :: s.param.dirty.drop (k + 1) :=
      List.drop_eq_getElem_cons hlt
    have hget : s.param.dirty.getD k false = s.param.dirty[k] := by
      rw [List.getD_eq_getElem?_getD, List.getElem?_eq_getElem hlt]
      rfl
    have hev : dirty_events s (k + 1) = dirty_events s k ++
        (if s.param.isParamDirty k then [{ param_id := k, value := s.getParam k }] else []) := by
      unfold dirty_events
      rw [List.range_succ, List.filterMap_append]
      by_cases hd : s.param.isParamDirty k = true <;> simp [hd]
    unfold sync_step
    simp only [Params.isParamDirty, Params.setParamDirty]
    rw [hdrop, getD_replicate_append, set_replicate_append, hev]
    simp only [Params.isParamDirty, hget]
    by_cases hd : s.param.dirty[k] = true
    · simp [hd, ImpulseLoader.getParam]
    · have hf : s.param.dirty[k] = false := by simpa using hd
      simp [hf, List.replicate_succ']

end Clap

/-- The identifiers of the expected events are the dirty indices, each once, in index order,
and every event carries the current value of its parameter. -/
theorem dirty_events_ids (s : Clap.ImpulseLoader) (l : List Nat) :
    ((l.filterMap fun i =>
        if s.param.isParamDirty i then
          some ({ param_id := i, value := s.getParam i } : Clap.ParamEvent)
        else none).map (fun e => e.param_id)
      = l.filter (fun i => s.param.isParamDirty i)) ∧
    (∀ e ∈ (l.filterMap fun i =>
        if s.param.isParamDirty i then
          some ({ param_id := i, value := s.getParam i } : Clap.ParamEvent)
        else none), e.value = s.getParam e.param_id) := by
  induction l with
  | nil => exact ⟨rfl, fun e he => by simp at he⟩
  | cons a l ih =>
    obtain ⟨ih1, ih2⟩ := ih
    by_cases hd : s.param.isParamDirty a = true
    · refine ⟨?_, ?_⟩
      · simp only [List.filterMap_cons, hd, if_true, List.map_cons, List.filter_cons, ih1]
      · intro e he
        simp only [List.filterMap_cons, hd, if_true, List.mem_cons] at he
        rcases he with he | he
        · rw [he]
        · exact ih2 e he
    · have hf : s.param.isParamDirty a = false := by simpa using hd
      refine ⟨?_, ?_⟩
      · simp only [List.filterMap_cons, hf, Bool.false_eq_true, if_false, List.filter_cons, ih1]
      · intro e he
        simp only [List.filterMap_cons, hf, Bool.false_eq_true, if_false] at he
        exact ih2 e he

/-- C20: for every state of the parameter table, `sync_params_to_host` pushes exactly the
events of the dirty parameters: their identifiers are the dirty indices, each once and in
index order, every event carries the current value of its parameter, a clean parameter gets
none; afterwards every dirty bit is cleared and the engine is untouched, so a second sync with
no write in between pushes nothing.  In `process` the sync runs when `controllerChanged` is
set, and the flag is cleared. -/
theorem C20_sync_dirty_params (s : Clap.ImpulseLoader) (out out2 : List Clap.ParamEvent) :
    (Clap.sync_params_to_host s out).2 = out ++ Clap.dirty_events s s.param.getParamCount ∧
    (Clap.dirty_events s s.param.getParamCount).map (fun e => e.param_id)
      = (List.range s.param.getParamCount).filter (fun i => s.param.isParamDirty i) ∧
    (∀ e ∈ Clap.dirty_events s s.param.getParamCount, e.value = s.getParam e.param_id) ∧
    (∀ i, (Clap.sync_params_to_host s out).1.param.isParamDirty i = false) ∧
    (Clap.sync_params_to_host s out).1.engine = s.engine ∧
    (Clap.sync_params_to_host (Clap.sync_params_to_host s out).1 out2).2 = out2 ∧
    (s.param.controllerChanged = true →
      (Clap.process_sync s out).2 = out ++ Clap.dirty_events s s.param.getParamCount ∧
      (Clap.process_sync s out).1.param.controllerChanged = false) := by
  have hsync : Clap.sync_params_to_host s out =
      ({ s with param := { s.param with
                             dirty := List.replicate s.param.dirty.length false } },
       out ++ Clap.dirty_events s s.param.getParamCount) := by
    unfold Clap.sync_params_to_host
    rw [Params.getParamCount, Clap.sync_loop_spec s out _ le_rfl, List.drop_length,
      List.append_nil]
  have hclean : ∀ i, (Clap.sync_params_to_host s out).1.param.isParamDirty i = false := by
    intro i
    rw [hsync]
    exact getD_replicate_false _ i
  have hsecond : (Clap.sync_params_to_host (Clap.sync_params_to_host s out).1 out2).2 = out2 := by
    have h2 : ∀ t : Clap.ImpulseLoader, (∀ i, t.param.isParamDirty i = false) →
        ∀ k, Clap.dirty_events t k = [] := by
      intro t ht k
      unfold Clap.dirty_events
      rw [List.filterMap_eq_nil_iff]
      intro i _
      simp [ht i]
    generalize (Clap.sync_params_to_host s out).1 = t at hclean
    have ht : Clap.sync_params_to_host t out2 =
        ({ t with param := { t.param with
                               dirty := List.replicate t.param.dirty.length false } },
         out2 ++ Clap.dirty_events t t.param.getParamCount) := by
      unfold Clap.sync_params_to_host
      rw [Params.getParamCount, Clap.sync_loop_spec t out2 _ le_rfl, List.drop_length,
        List.append_nil]
    rw [ht, h2 t hclean]
    exact List.append_nil out2
  refine ⟨by rw [hsync], (dirty_events_ids s _).1, (dirty_events_ids s _).2, hclean,
    by rw [hsync], hsecond, ?_⟩
  intro hc
  unfold Clap.process_sync
  rw [if_pos hc, hsync]
  exact ⟨rfl, rfl⟩

/-- C20 at a concrete state: after a change of the normalise switch (port 7) the sync pushes
one event, for the parameter 3. -/
theorem C20_sync_dirty_params_witness :
    (Clap.ImpulseLoader.new.sendValueChanged 7 1).param.controllerChanged = true ∧
    (Clap.process_sync (Clap.ImpulseLoader.new.sendValueChanged 7 1) []).2
      = [] ++ Clap.dirty_events (Clap.ImpulseLoader.new.sendValueChanged 7 1)
          (Clap.ImpulseLoader.new.sendValueChanged 7 1).param.getParamCount ∧
    (Clap.dirty_events (Clap.ImpulseLoader.new.sendValueChanged 7 1)
        (Clap.ImpulseLoader.new.sendValueChanged 7 1).param.getParamCount).map
      (fun e => e.param_id) = [3] :=
  have h := C20_sync_dirty_params (Clap.ImpulseLoader.new.sendValueChanged 7 1) [] []
  ⟨rfl, (h.2.2.2.2.2.2 rfl).1, by rw [h.2.1]; decide⟩

/-! ## The state string: finding the segments and reading the tokens -/

theorem str_find_bar_cons (c : Char) (cs : List Char) :
    str_find ['|'] (c :: cs) = if c = '|' then some 0 else (str_find ['|'] cs).map (· + 1) := by
  by_cases h : c = '|'
  · subst h
    simp [str_find, List.isPrefixOf]
  · simp [str_find, List.isPrefixOf, h]
    intro e
    exact absurd e.symm h

/-- The first "|" after a run of characters without "|" is found right behind the run. -/
theorem str_find_bar_append (a r : List Char) (ha : ∀ c ∈ a, c ≠ '|') :
    str_find ['|'] (a ++ '|' :: r) = some a.length := by
  induction a with
  | nil => simp [str_find_bar_cons]
  | cons c cs ih =>
    have hc : c ≠ '|' := ha c (List.mem_cons_self c cs)
    rw [List.cons_append, str_find_bar_cons, if_neg hc,
      ih (fun d hd => ha d (List.mem_cons_of_mem c hd))]
    rfl

theorem dropWhile_spaces (sp u : List Char) (hsp : ∀ c ∈ sp, is_space c = true) :
    (sp ++ u).dropWhile is_space = u.dropWhile is_space := by
  induction sp with
  | nil => rfl
  | cons c cs ih =>
    rw [List.cons_append, List.dropWhile_cons, hsp c (List.mem_cons_self c cs)]
    exact ih (fun d hd => hsp d (List.mem_cons_of_mem c hd))

theorem takeWhile_token (t r : List Char) (ht : ∀ c ∈ t, is_space c = false) :
    (t ++ ' ' :: r).takeWhile (fun c => !is_space c) = t := by
  induction t with
  | nil => simp [List.takeWhile, is_space]
  | cons c cs ih =>
    rw [List.cons_append, List.takeWhile_cons, ht c (List.mem_cons_self c cs)]
    simp only [Bool.not_false, if_true]
    rw [ih (fun d hd => ht d (List.mem_cons_of_mem c hd))]

theorem dropWhile_token (t r : List Char) (ht : ∀ c ∈ t, is_space c = false) :
    (t ++ ' ' :: r).dropWhile (fun c => !is_space c) = ' ' :: r := by
  induction t with
  | nil => simp [List.dropWhile, is_space]
  | cons c cs ih =>
    rw [List.cons_append, List.dropWhile_cons, ht c (List.mem_cons_self c cs)]
    simp only [Bool.not_false, if_true]
    exact ih (fun d hd => ht d (List.mem_cons_of_mem c hd))

/-- The extraction of a token that is followed by a space: the token is read whole, the stream
stays good and stands at the space. -/
theorem extract_token (sp t r : List Char) (v : String)
    (hsp : ∀ c ∈ sp, is_space c = true) (hne : t ≠ [])
    (ht : ∀ c ∈ t, is_space c = false) :
    IStream.extract { rest := sp ++ (t ++ ' ' :: r), good := true } v =
      ({ rest := ' ' :: r, good := true }, String.mk t) := by
  have hd : (sp ++ (t ++ ' ' :: r)).dropWhile is_space = t ++ ' ' :: r := by
    rw [dropWhile_spaces sp _ hsp]
    cases t with
    | nil => exact absurd rfl hne
    | cons c cs =>
      rw [List.cons_append, List.dropWhile_cons, ht c (List.mem_cons_self c cs)]
      rfl
  have hnil : t ++ ' ' :: r ≠ [] := by
    cases t <;> simp
  unfold IStream.extract
  simp only [Bool.not_true, Bool.false_eq_true, if_false, hd, hnil, takeWhile_token t r ht,
    dropWhile_token t r ht, List.isEmpty_cons, Bool.not_false]

theorem remove_sub_head (pre p : List Char) (hne : pre ≠ []) :
    remove_sub (String.mk (pre ++ p)) (String.mk pre) = String.mk p := by
  unfold remove_sub
  have hf : str_find pre (pre ++ p) = some 0 := by
    cases pre with
    | nil => exact absurd rfl hne
    | cons c cs =>
      have hp : (c :: cs).isPrefixOf (c :: cs ++ p) = true := by
        rw [List.isPrefixOf_iff_prefix]
        exact List.prefix_append _ _
      rw [List.cons_append] at hp ⊢
      unfold str_find
      rw [if_pos hp]
  simp only [hf, str_erase, List.take_zero, List.nil_append, Nat.zero_add,
    List.drop_left]

theorem extract_token0 (t r : List Char) (v : String) (hne : t ≠ [])
    (ht : ∀ c ∈ t, is_space c = false) :
    IStream.extract { rest := t ++ ' ' :: r, good := true } v =
      ({ rest := ' ' :: r, good := true }, String.mk t) :=
  extract_token [] t r v (fun _ h => absurd h (List.not_mem_nil _)) hne ht

theorem extract_token1 (t r : List Char) (v : String) (hne : t ≠ [])
    (ht : ∀ c ∈ t, is_space c = false) :
    IStream.extract { rest := ' ' :: (t ++ ' ' :: r), good := true } v =
      ({ rest := ' ' :: r, good := true }, String.mk t) :=
  extract_token [' '] t r v (fun c h => by rw [List.mem_singleton.1 h]; decide) hne ht

theorem is_token_spec (t : String) (h : is_token t = true) :
    t.data ≠ [] ∧ (∀ c ∈ t.data, is_space c = false) ∧ (∀ c ∈ t.data, c ≠ '|') := by
  unfold is_token at h
  simp only [Bool.and_eq_true, Bool.not_eq_true', List.all_eq_true, bne_iff_ne, ne_eq] at h
  refine ⟨?_, fun c hc => (h.2 c hc).1, fun c hc => (h.2 c hc).2⟩
  intro e
  rw [e] at h
  simp at h

namespace Clap

/-- The `[CONTROLS]` segment with four tokens: the four values are converted in turn, and the
first conversion that throws ends the call. -/
theorem readState_line_controls (lib : Stdlib) (s : ImpulseLoader) (g w b n : String)
    (hg : is_token g = true) (hw : is_token w = true) (hb : is_token b = true)
    (hn : is_token n = true) :
    ImpulseLoader.readState_line lib s (controls_text g w b n) =
      (check_stod lib g).bind fun vg =>
      (check_stod lib w).bind fun vw =>
      (check_stod lib b).bind fun vb =>
      (check_stod lib n).bind fun vn =>
      some { s with engine :=
        { s.engine with plugin1 := { s.engine.plugin1 with gain := vg },
                        plugin2 := { s.engine.plugin2 with dry_wet := vw },
                        bypass := Lv2.uint32_of_float vb,
                        normA := Lv2.uint32_of_float vn,
                        _cd := 1,
                        conv := s.engine.conv.set_normalisation (Lv2.uint32_of_float vn) } } := by
  obtain ⟨g1, g2, _⟩ := is_token_spec g hg
  obtain ⟨w1, w2, _⟩ := is_token_spec w hw
  obtain ⟨b1, b2, _⟩ := is_token_spec b hb
  obtain ⟨n1, n2, _⟩ := is_token_spec n hn
  have hK : "[CONTROLS] ".data = "[CONTROLS]".data ++ [' '] := by decide
  have hk1 : "[CONTROLS]".data ≠ [] := by decide
  have hk2 : ∀ c ∈ "[CONTROLS]".data, is_space c = false := by decide
  have hform : controls_text g w b n =
      "[CONTROLS]".data ++ ' ' :: (g.data ++ ' ' :: (w.data ++ ' ' :: (b.data ++ ' ' ::
        (n.data ++ ' ' :: [])))) := by
    unfold controls_text
    rw [hK]
    simp only [List.append_assoc, List.cons_append, List.nil_append, List.singleton_append]
  unfold ImpulseLoader.readState_line
  rw [hform]
  simp only [extract_token0 _ _ _ hk1 hk2, extract_token1 _ _ _ g1 g2,
    extract_token1 _ _ _ w1 w2, extract_token1 _ _ _ b1 b2, extract_token1 _ _ _ n1 n2]
  rfl

end Clap

namespace Clap

/-- The `[IrFile]` segment: the rest of the segment, spaces included, becomes `ir_file`. -/
theorem readState_line_irfile (lib : Stdlib) (s : ImpulseLoader) (p : String) :
    ImpulseLoader.readState_line lib s (irfile_text p) =
      some { s with engine := { s.engine with ir_file := p, _cd := 1 } } := by
  have hK : "[IrFile] ".data = "[IrFile]".data ++ ' ' :: [] := by decide
  have hk1 : "[IrFile]".data ≠ [] := by decide
  have hk2 : ∀ c ∈ "[IrFile]".data, is_space c = false := by decide
  have hrem : remove_sub (String.mk (irfile_text p)) "[IrFile] " = p :=
    remove_sub_head "[IrFile] ".data p.data (by decide)
  have hform : irfile_text p = "[IrFile]".data ++ ' ' :: p.data := by
    unfold irfile_text
    rw [hK, List.append_assoc]
    rfl
  unfold ImpulseLoader.readState_line
  simp only [hrem]
  rw [hform]
  simp only [extract_token0 _ _ _ hk1 hk2]
  rw [if_neg (by decide), if_pos trivial]

theorem controls_text_no_bar (g w b n : String)
    (hg : is_token g = true) (hw : is_token w = true) (hb : is_token b = true)
    (hn : is_token n = true) : ∀ c ∈ controls_text g w b n, c ≠ '|' := by
  obtain ⟨_, _, g3⟩ := is_token_spec g hg
  obtain ⟨_, _, w3⟩ := is_token_spec w hw
  obtain ⟨_, _, b3⟩ := is_token_spec b hb
  obtain ⟨_, _, n3⟩ := is_token_spec n hn
  have hK : ∀ c ∈ "[CONTROLS] ".data, c ≠ '|' := by decide
  intro c hc
  unfold controls_text at hc
  simp only [List.mem_append, List.mem_singleton] at hc
  rcases hc with ((((((((h | h) | h) | h) | h) | h) | h) | h) | h)
  · exact hK c h
  · exact g3 c h
  · rw [h]; decide
  · exact w3 c h
  · rw [h]; decide
  · exact b3 c h
  · rw [h]; decide
  · exact n3 c h
  · rw [h]; decide

/-- The loop of `readState` on a state string of the form `[CONTROLS] g w b n |[IrFile] p|`:
the two segments are read in turn. -/
theorem readState_state_text (lib : Stdlib) (s : ImpulseLoader) (g w b n p : String)
    (hg : is_token g = true) (hw : is_token w = true) (hb : is_token b = true)
    (hn : is_token n = true) (hp : ∀ c ∈ p.data, c ≠ '|') :
    s.readState lib (state_text g w b n p) =
      (check_stod lib g).bind fun vg =>
      (check_stod lib w).bind fun vw =>
      (check_stod lib b).bind fun vb =>
      (check_stod lib n).bind fun vn =>
      some (ImpulseLoader.readState_dispatch { s with engine :=
        { s.engine with plugin1 := { s.engine.plugin1 with gain := vg },
                        plugin2 := { s.engine.plugin2 with dry_wet := vw },
                        bypass := Lv2.uint32_of_float vb,
                        normA := Lv2.uint32_of_float vn,
                        ir_file := p,
                        _cd := 1,
                        conv := s.engine.conv.set_normalisation (Lv2.uint32_of_float vn) } }) := by
  have hc := controls_text_no_bar g w b n hg hw hb hn
  have hi : ∀ c ∈ irfile_text p, c ≠ '|' := by
    have hK : ∀ c ∈ "[IrFile] ".data, c ≠ '|' := by decide
    intro c h
    unfold irfile_text at h
    rcases List.mem_append.1 h with h | h
    · exact hK c h
    · exact hp c h
  have hfuel : ∃ f, (state_text g w b n p).data.length + 1 = f + 2 := by
    refine ⟨(controls_text g w b n).length + (irfile_text p).length + 1, ?_⟩
    simp only [state_text, List.length_append, List.length_cons, List.length_nil]
    omega
  obtain ⟨f, hf⟩ := hfuel
  have hdata : (state_text g w b n p).data =
      controls_text g w b n ++ '|' :: (irfile_text p ++ ['|']) := rfl
  unfold ImpulseLoader.readState
  rw [hf, hdata, str_find_bar_append _ _ hc]
  have hround1 : ∀ t : ImpulseLoader,
      ImpulseLoader.readState_loop lib (f + 1) t (irfile_text p ++ ['|'])
        (str_find ['|'] (irfile_text p ++ ['|']))
      = some { t with engine := { t.engine with ir_file := p, _cd := 1 } } := by
    intro t
    rw [str_find_bar_append _ _ hi]
    unfold ImpulseLoader.readState_loop
    rw [List.take_left, readState_line_irfile]
    simp only [Option.some_bind]
    have hd : (irfile_text p ++ ['|']).drop ((irfile_text p).length + 1) = [] := by
      rw [List.drop_eq_nil_iff]
      simp
    rw [hd]
    cases f <;> rfl
  unfold ImpulseLoader.readState_loop
  rw [List.take_left, readState_line_controls lib s g w b n hg hw hb hn]
  have hd : (controls_text g w b n ++ '|' :: (irfile_text p ++ ['|'])).drop
      ((controls_text g w b n).length + 1) = irfile_text p ++ ['|'] := by
    rw [← List.drop_drop, List.drop_left]
    rfl
  simp only [hd]
  cases check_stod lib g with
  | none => rfl
  | some vg =>
    cases check_stod lib w with
    | none => rfl
    | some vw =>
      cases check_stod lib b with
      | none => rfl
      | some vb =>
        cases check_stod lib n with
        | none => rfl
        | some vn =>
          simp only [Option.some_bind, hround1, Option.map_some']

/-- The rounds of `fuel` are never used up: any two supplies above the length of the stream
give the same result. -/
theorem readState_loop_fuel (lib : Stdlib) (fuel1 : Nat) :
    ∀ (fuel2 : Nat) (s : ImpulseLoader) (stream : List Char) (pos : Option Nat),
      stream.length < fuel1 → stream.length < fuel2 → (pos = none ∨ stream ≠ []) →
      ImpulseLoader.readState_loop lib fuel1 s stream pos
        = ImpulseLoader.readState_loop lib fuel2 s stream pos := by
  induction fuel1 with
  | zero => intro _ _ _ _ h; exact absurd h (Nat.not_lt_zero _)
  | succ f1 ih =>
    intro fuel2 s stream pos h1 h2 hpos
    cases fuel2 with
    | zero => exact absurd h2 (Nat.not_lt_zero _)
    | succ f2 =>
      cases pos with
      | none => rfl
      | some k =>
        have hne : stream ≠ [] := by
          rcases hpos with h | h
          · exact absurd h (by simp)
          · exact h
        have hlen : 0 < stream.length := List.length_pos.2 hne
        have hd : (stream.drop (k + 1)).length < stream.length := by
          rw [List.length_drop]
          omega
        unfold ImpulseLoader.readState_loop
        cases ImpulseLoader.readState_line lib s (stream.take k) with
        | none => rfl
        | some s1 =>
          simp only [Option.some_bind]
          apply ih
          · omega
          · omega
          · by_cases he : stream.drop (k + 1) = []
            · left
              rw [he]
              rfl
            · exact Or.inr he

/-- The lines of `readState` leave the worker alone. -/
theorem readState_line_xrworker (lib : Stdlib) (s t : ImpulseLoader) (line : List Char)
    (h : ImpulseLoader.readState_line lib s line = some t) :
    t.engine.xrworker = s.engine.xrworker ∧ t.workToDo = s.workToDo := by
  unfold ImpulseLoader.readState_line at h
  simp only [] at h
  split_ifs at h
  · simp only [Option.bind_eq_some] at h
    obtain ⟨_, _, _, _, _, _, _, _, h⟩ := h
    cases h
    exact ⟨rfl, rfl⟩
  · cases h
    exact ⟨rfl, rfl⟩
  · cases h
    exact ⟨rfl, rfl⟩

theorem readState_loop_xrworker (lib : Stdlib) (fuel : Nat) :
    ∀ (s t : ImpulseLoader) (stream : List Char) (pos : Option Nat),
      ImpulseLoader.readState_loop lib fuel s stream pos = some t →
      t.engine.xrworker = s.engine.xrworker ∧ t.workToDo = s.workToDo := by
  induction fuel with
  | zero =>
    intro s t stream pos h
    unfold ImpulseLoader.readState_loop at h
    cases h
    exact ⟨rfl, rfl⟩
  | succ f ih =>
    intro s t stream pos h
    cases pos with
    | none =>
      unfold ImpulseLoader.readState_loop at h
      cases h
      exact ⟨rfl, rfl⟩
    | some k =>
      unfold ImpulseLoader.readState_loop at h
      simp only [Option.bind_eq_some] at h
      obtain ⟨s1, h1, h2⟩ := h
      obtain ⟨a1, a2⟩ := readState_line_xrworker lib s s1 _ h1
      obtain ⟨b1, b2⟩ := ih s1 t _ _ h2
      exact ⟨b1.trans a1, b2.trans a2⟩

/-- Every call of `readState` that returns has raised one swap request: with an idle worker it
is dispatched at once (one trigger, `_execute` set, `workToDo` clear), with a busy worker it is
left latched in `workToDo`. -/
theorem readState_one_request (lib : Stdlib) (s t : ImpulseLoader) (str : String)
    (h : s.readState lib str = some t) :
    (s.engine.xrworker.getProcess = true →
      t.engine.xrworker.triggers = s.engine.xrworker.triggers + 1 ∧
      t.workToDo = false ∧ t.engine._execute = true) ∧
    (s.engine.xrworker.getProcess = false →
      t.engine.xrworker.triggers = s.engine.xrworker.triggers ∧ t.workToDo = true) := by
  unfold ImpulseLoader.readState at h
  simp only [Option.map_eq_some'] at h
  obtain ⟨u, hu, ht⟩ := h
  obtain ⟨hx, _⟩ := readState_loop_xrworker lib _ s u _ _ hu
  subst ht
  unfold ImpulseLoader.readState_dispatch
  simp only [hx]
  refine ⟨?_, ?_⟩
  · intro hi
    rw [if_pos hi]
    exact ⟨rfl, rfl, rfl⟩
  · intro hi
    rw [if_neg (by rw [hi]; decide)]
    exact ⟨congrArg ParallelThread.triggers hx, rfl⟩

end Clap

/-! ## C13, C14, C16: saving and reading the state string -/

theorem check_stod_c_locale (lib : Stdlib) (h : lib.decimal_point = ".") (str : String) :
    check_stod lib str = (lib.stod str).map f32 := by
  unfold check_stod check_stod_arg
  rw [h, if_neg (by simp)]

theorem uint32_of_float_nat (k : Nat) (h : k < 2 ^ 32) : Lv2.uint32_of_float (k : Sample) = k := by
  have h0 : (0 : Sample) ≤ (k : Sample) := Nat.cast_nonneg k
  have ht : Lv2.trunc (k : Sample) = k := by
    unfold Lv2.trunc
    rw [if_pos h0, Int.floor_natCast]
  unfold Lv2.uint32_of_float
  rw [ht, if_pos (by omega)]
  omega

/-- The conversion of a `float` to `uint32_t` drops the fraction. -/
theorem uint32_of_float_half : Lv2.uint32_of_float (1 / 2) = 0 := by
  have ht : Lv2.trunc (1 / 2) = 0 := by
    unfold Lv2.trunc
    rw [if_pos (by norm_num), Int.floor_eq_iff]
    constructor <;> norm_num
  unfold Lv2.uint32_of_float
  rw [ht]
  decide

/-- The conversion of the `float` -1 to `uint32_t`, as x86-64 code gives it. -/
theorem uint32_of_float_minus_one : Lv2.uint32_of_float (-1) = 4294967295 := by
  have ht : Lv2.trunc (-1) = -1 := by
    unfold Lv2.trunc
    rw [if_neg (by norm_num), Int.ceil_eq_iff]
    constructor <;> norm_num
  unfold Lv2.uint32_of_float
  rw [ht]
  decide

/-- A natural number up to `2^24` read by `check_stod` and converted to `uint32_t` is itself. -/
theorem uint32_of_float_f32_nat (k : Nat) (h : k ≤ 2 ^ 24) :
    Lv2.uint32_of_float (f32 (k : Sample)) = k := by
  rw [f32_nat k h]
  exact uint32_of_float_nat k (by omega)

/-- Two values outside the claim's examples, as the code stores them: the token `-1` gives the
switch value 4294967295, and the token `16777217`, which is no `float`, gives 16777216. -/
theorem uint32_of_float_examples :
    f32 (-1) = -1 ∧ Lv2.uint32_of_float (f32 (-1)) = 4294967295 ∧
    f32 16777217 = 16777216 ∧ Lv2.uint32_of_float (f32 16777217) = 16777216 := by
  have h1 : f32 (-1) = -1 := by
    have := f32_fixed (-1) 0 (by norm_num) (by norm_num)
    norm_num at this ⊢
    exact this
  have h2 : f32 16777217 = 16777216 := by
    rw [f32_tie 16777217 24 8388608 (by norm_num) (by norm_num) (by norm_num)
      (by norm_num [abs_of_neg]) (by norm_num)]
    norm_num
  refine ⟨h1, ?_, h2, ?_⟩
  · rw [h1]
    exact uint32_of_float_minus_one
  · rw [h2]
    have := uint32_of_float_nat 16777216 (by norm_num)
    simpa using this

theorem saveState_eq_state_text (lib : Stdlib) (s : Clap.ImpulseLoader) :
    s.saveState lib =
      state_text (lib.show_float s.engine.plugin1.gain) (lib.show_float s.engine.plugin2.dry_wet)
        (lib.show_uint s.engine.bypass) (lib.show_uint s.engine.normA) s.engine.ir_file := by
  have hd : ∀ a b : String, a.data = b.data → a = b := by
    intro a b h
    cases a
    cases b
    cases h
    rfl
  apply hd
  unfold Clap.ImpulseLoader.saveState state_text controls_text irfile_text
  simp only [String.data_append, List.append_assoc]
  rfl

/-- The dispatch at the end of `readState` keeps the values that were read. -/
theorem readState_dispatch_keeps (s : Clap.ImpulseLoader) :
    s.readState_dispatch.engine.plugin1 = s.engine.plugin1 ∧
    s.readState_dispatch.engine.plugin2 = s.engine.plugin2 ∧
    s.readState_dispatch.engine.bypass = s.engine.bypass ∧
    s.readState_dispatch.engine.normA = s.engine.normA ∧
    s.readState_dispatch.engine.ir_file = s.engine.ir_file := by
  unfold Clap.ImpulseLoader.readState_dispatch
  dsimp only
  split_ifs <;> exact ⟨rfl, rfl, rfl, rfl, rfl⟩

/-- C13, as stated, fails: a path with a "|" in it does not survive.  The state with
`ir_file = "a|b.wav"` is saved as `[CONTROLS] 0 100 1 0 |[IrFile] a|b.wav|`, and reading this
text on a fresh plugin gives `ir_file = "a"`. -/
theorem C13_bar_in_path_is_cut :
    clap_bar_path.engine.ir_file = "a|b.wav" ∧
    clap_bar_path.saveState lib_c = "[CONTROLS] 0 100 1 0 |[IrFile] a|b.wav|" ∧
    (Clap.ImpulseLoader.new.readState lib_c (clap_bar_path.saveState lib_c)).map
      (fun t => t.engine.ir_file) = some "a" := by
  refine ⟨rfl, by decide, ?_⟩
  have h : clap_bar_path.saveState lib_c = "[CONTROLS] 0 100 1 0 |[IrFile] a|b.wav|" := by decide
  rw [h]
  decide

/-- C13 (amended): under a locale whose decimal point is ".", for every engine state whose
path holds no "|" and whose bypass and normalise are at most 2^24, `saveState` followed by
`readState` of the text on any plugin instance returns and reproduces the state: gain and
wet/dry are the `float`s nearest to the numbers `std::stod` reads from the printed text (the
printed precision), bypass and normalise are the saved integers, and `ir_file` is the saved
path exactly.  (The printed numbers are tokens: not empty, without white space or "|";
`std::stod` reads a printed integer as that integer; the numbers read lie within the range of
`float`.) -/
theorem C13_roundtrip_without_bar (lib : Stdlib) (s t : Clap.ImpulseLoader) (vg vw : Sample)
    (hpoint : lib.decimal_point = ".")
    (hg : is_token (lib.show_float s.engine.plugin1.gain) = true)
    (hw : is_token (lib.show_float s.engine.plugin2.dry_wet) = true)
    (hb : is_token (lib.show_uint s.engine.bypass) = true)
    (hn : is_token (lib.show_uint s.engine.normA) = true)
    (hsg : lib.stod (lib.show_float s.engine.plugin1.gain) = some vg)
    (hsw : lib.stod (lib.show_float s.engine.plugin2.dry_wet) = some vw)
    (hsb : lib.stod (lib.show_uint s.engine.bypass) = some (s.engine.bypass : Sample))
    (hsn : lib.stod (lib.show_uint s.engine.normA) = some (s.engine.normA : Sample))
    (hb24 : s.engine.bypass ≤ 2 ^ 24) (hn24 : s.engine.normA ≤ 2 ^ 24)
    (_hrg : |vg| ≤ FLT_MAX) (_hrw : |vw| ≤ FLT_MAX)
    (hp : ∀ c ∈ s.engine.ir_file.data, c ≠ '|') :
    ∃ u, t.readState lib (s.saveState lib) = some u ∧
      u.engine.plugin1.gain = f32 vg ∧ u.engine.plugin2.dry_wet = f32 vw ∧
      u.engine.bypass = s.engine.bypass ∧ u.engine.normA = s.engine.normA ∧
      u.engine.ir_file = s.engine.ir_file := by
  rw [saveState_eq_state_text, Clap.readState_state_text lib t _ _ _ _ _ hg hw hb hn hp]
  simp only [check_stod_c_locale lib hpoint, hsg, hsw, hsb, hsn, Option.map_some',
    Option.some_bind]
  refine ⟨_, rfl, ?_, ?_, ?_, ?_, ?_⟩
  · rw [(readState_dispatch_keeps _).1]
  · rw [(readState_dispatch_keeps _).2.1]
  · rw [(readState_dispatch_keeps _).2.2.1]
    exact uint32_of_float_f32_nat _ hb24
  · rw [(readState_dispatch_keeps _).2.2.2.1]
    exact uint32_of_float_f32_nat _ hn24
  · rw [(readState_dispatch_keeps _).2.2.2.2]

theorem stod_simple_nat_examples :
    stod_simple '.' "0" = some 0 ∧ stod_simple '.' "1" = some 1 ∧
    stod_simple '.' "3" = some 3 ∧ stod_simple '.' "50" = some 50 ∧
    stod_simple '.' "100" = some 100 ∧ stod_simple '.' "3.0" = some 3 ∧
    stod_simple '.' "0.5" = some (1 / 2) ∧ stod_simple '.' "3.25" = some (13 / 4) ∧
    stod_simple ',' "3,5" = some (7 / 2) ∧ stod_simple '.' "x" = none := by
  refine ⟨?_, ?_, ?_, ?_, ?_, ?_, ?_, ?_, ?_, by decide⟩ <;>
    (simp [stod_simple, digits_value, is_space]; try norm_num)

/-- C13 (amended) at a concrete state: the plugin after `initEngine` with `/tmp/x.wav` loaded,
read back on a fresh instance. -/
theorem C13_roundtrip_without_bar_witness :
    lib_c.decimal_point = "." ∧
    (∀ c ∈ clap_x_wav.engine.ir_file.data, c ≠ '|') ∧
    clap_x_wav.engine.bypass ≤ 2 ^ 24 ∧ clap_x_wav.engine.normA ≤ 2 ^ 24 ∧
    (∃ u, Clap.ImpulseLoader.new.readState lib_c (clap_x_wav.saveState lib_c) = some u ∧
      u.engine.plugin1.gain = f32 0 ∧ u.engine.plugin2.dry_wet = f32 100 ∧
      u.engine.bypass = clap_x_wav.engine.bypass ∧ u.engine.normA = clap_x_wav.engine.normA ∧
      u.engine.ir_file = clap_x_wav.engine.ir_file) ∧
    f32 0 = 0 ∧ f32 100 = 100 :=
  ⟨rfl, by decide, by decide, by decide,
   C13_roundtrip_without_bar lib_c clap_x_wav Clap.ImpulseLoader.new 0 100 rfl
     (by decide) (by decide) (by decide) (by decide)
     stod_simple_nat_examples.1 stod_simple_nat_examples.2.2.2.2.1
     stod_simple_nat_examples.2.1 stod_simple_nat_examples.1
     (by decide) (by decide) (by norm_num [FLT_MAX]) (by norm_num [FLT_MAX]) (by decide),
   by simpa using f32_nat 0 (by norm_num), by simpa using f32_nat 100 (by norm_num)⟩

/-- The `float`s the tokens of the examples are read as. -/
theorem check_stod_examples :
    check_stod lib_c "3.0" = some 3 ∧ check_stod lib_c "50" = some 50 ∧
    check_stod lib_c "0.5" = some (1 / 2) ∧ check_stod lib_c "0" = some 0 ∧
    check_stod lib_c "1" = some 1 := by
  have e3 : f32 3 = 3 := by simpa using f32_nat 3 (by norm_num)
  have e50 : f32 50 = 50 := by simpa using f32_nat 50 (by norm_num)
  have e0 : f32 0 = 0 := by simpa using f32_nat 0 (by norm_num)
  have e1 : f32 1 = 1 := by simpa using f32_nat 1 (by norm_num)
  have eh : f32 (1 / 2) = 1 / 2 := by
    have h := round_binary_fixed 24 (-126) 1 (-1) (by norm_num) (by norm_num)
    simp only [f32]
    norm_num at h ⊢
    exact h
  refine ⟨?_, ?_, ?_, ?_, ?_⟩
  · rw [check_stod_c_locale lib_c rfl, show lib_c.stod "3.0" = some 3 from
      stod_simple_nat_examples.2.2.2.2.2.1, Option.map_some', e3]
  · rw [check_stod_c_locale lib_c rfl, show lib_c.stod "50" = some 50 from
      stod_simple_nat_examples.2.2.2.1, Option.map_some', e50]
  · rw [check_stod_c_locale lib_c rfl, show lib_c.stod "0.5" = some (1 / 2) from
      stod_simple_nat_examples.2.2.2.2.2.2.1, Option.map_some', eh]
  · rw [check_stod_c_locale lib_c rfl, show lib_c.stod "0" = some 0 from
      stod_simple_nat_examples.1, Option.map_some', e0]
  · rw [check_stod_c_locale lib_c rfl, show lib_c.stod "1" = some 1 from
      stod_simple_nat_examples.2.1, Option.map_some', e1]

/-- C14, as stated, fails for a fractional switch value: `bypass` is a `uint32_t`, so the
numeric token `0.5` in the third place sets `bypass` to 0, not to 0.5. -/
theorem C14_fractional_bypass_truncated :
    lib_c.stod "0.5" = some (1 / 2) ∧
    state_text "3.0" "50" "0.5" "0" "/tmp/x.wav"
      = "[CONTROLS] 3.0 50 0.5 0 |[IrFile] /tmp/x.wav|" ∧
    (clap_inited.readState lib_c "[CONTROLS] 3.0 50 0.5 0 |[IrFile] /tmp/x.wav|").map
      (fun t => t.engine.bypass) = some 0 := by
  refine ⟨stod_simple_nat_examples.2.2.2.2.2.2.1, by decide, ?_⟩
  have hs : "[CONTROLS] 3.0 50 0.5 0 |[IrFile] /tmp/x.wav|"
      = state_text "3.0" "50" "0.5" "0" "/tmp/x.wav" := by decide
  rw [hs, Clap.readState_state_text lib_c clap_inited _ _ _ _ _ (by decide) (by decide)
    (by decide) (by decide) (by decide), check_stod_examples.1, check_stod_examples.2.1,
    check_stod_examples.2.2.1, check_stod_examples.2.2.2.1]
  simp only [Option.some_bind, Option.map_some', (readState_dispatch_keeps _).2.2.1,
    uint32_of_float_half]

/-- C14 (amended): under a locale whose decimal point is ".", for every state string
`[CONTROLS] g w b n |[IrFile] p|` whose four tokens `std::stod` converts (to `vg`, `vw`, `vb`,
`vn`, within the range of `float`) and whose path `p` holds no "|", `readState` returns with
gain and wet/dry the `float`s nearest to `vg` and `vw`, bypass and normalise the conversions
to `uint32_t` of the `float`s nearest to `vb` and `vn` (the values themselves when they are
integers from 0 to 2^24), and `ir_file = p`, the path taken whole, spaces included; with an
idle worker it triggers the worker exactly once and leaves no request latched. -/
theorem C14_wellformed_state_is_read (lib : Stdlib) (s : Clap.ImpulseLoader)
    (g w b n p : String) (vg vw vb vn : Sample)
    (hpoint : lib.decimal_point = ".")
    (hg : is_token g = true) (hw : is_token w = true) (hb : is_token b = true)
    (hn : is_token n = true) (hp : ∀ c ∈ p.data, c ≠ '|')
    (hsg : lib.stod g = some vg) (hsw : lib.stod w = some vw)
    (hsb : lib.stod b = some vb) (hsn : lib.stod n = some vn)
    (_hrg : |vg| ≤ FLT_MAX) (_hrw : |vw| ≤ FLT_MAX)
    (_hrb : |vb| ≤ FLT_MAX) (_hrn : |vn| ≤ FLT_MAX)
    (hidle : s.engine.xrworker.getProcess = true) :
    ∃ u, s.readState lib (state_text g w b n p) = some u ∧
      u.engine.plugin1.gain = f32 vg ∧ u.engine.plugin2.dry_wet = f32 vw ∧
      u.engine.bypass = Lv2.uint32_of_float (f32 vb) ∧
      u.engine.normA = Lv2.uint32_of_float (f32 vn) ∧
      (∀ k : Nat, k ≤ 2 ^ 24 → vg = k → u.engine.plugin1.gain = k) ∧
      (∀ k : Nat, k ≤ 2 ^ 24 → vw = k → u.engine.plugin2.dry_wet = k) ∧
      (∀ k : Nat, k ≤ 2 ^ 24 → vb = k → u.engine.bypass = k) ∧
      (∀ k : Nat, k ≤ 2 ^ 24 → vn = k → u.engine.normA = k) ∧
      u.engine.ir_file = p ∧
      u.engine.xrworker.triggers = s.engine.xrworker.triggers + 1 ∧
      u.workToDo = false ∧ u.engine._execute = true := by
  have hr := Clap.readState_state_text lib s g w b n p hg hw hb hn hp
  simp only [check_stod_c_locale lib hpoint, hsg, hsw, hsb, hsn, Option.map_some',
    Option.some_bind] at hr
  obtain ⟨h1, _⟩ := Clap.readState_one_request lib s _ _ hr
  obtain ⟨t1, t2, t3⟩ := h1 hidle
  refine ⟨_, hr, ?_, ?_, ?_, ?_, ?_, ?_, ?_, ?_, ?_, t1, t2, t3⟩
  · rw [(readState_dispatch_keeps _).1]
  · rw [(readState_dispatch_keeps _).2.1]
  · rw [(readState_dispatch_keeps _).2.2.1]
  · rw [(readState_dispatch_keeps _).2.2.2.1]
  · intro k hk hv
    rw [(readState_dispatch_keeps _).1]
    show f32 vg = k
    rw [hv]
    exact f32_nat k hk
  · intro k hk hv
    rw [(readState_dispatch_keeps _).2.1]
    show f32 vw = k
    rw [hv]
    exact f32_nat k hk
  · intro k hk hv
    rw [(readState_dispatch_keeps _).2.2.1]
    show Lv2.uint32_of_float (f32 vb) = k
    rw [hv]
    exact uint32_of_float_f32_nat k hk
  · intro k hk hv
    rw [(readState_dispatch_keeps _).2.2.2.1]
    show Lv2.uint32_of_float (f32 vn) = k
    rw [hv]
    exact uint32_of_float_f32_nat k hk
  · rw [(readState_dispatch_keeps _).2.2.2.2]

/-- C14 (amended) at the state string of the claim, `[CONTROLS] 3.0 50 1 0 |[IrFile]
/tmp/x.wav|`, read by the plugin after `initEngine` with an idle worker: gain 3, wet/dry 50,
bypass 1, normalise 0, `ir_file` `/tmp/x.wav`, one trigger. -/
theorem C14_wellformed_state_is_read_witness :
    lib_c.decimal_point = "." ∧
    state_text "3.0" "50" "1" "0" "/tmp/x.wav" = "[CONTROLS] 3.0 50 1 0 |[IrFile] /tmp/x.wav|" ∧
    clap_inited.engine.xrworker.getProcess = true ∧
    (∃ u, clap_inited.readState lib_c (state_text "3.0" "50" "1" "0" "/tmp/x.wav") = some u ∧
      u.engine.plugin1.gain = 3 ∧ u.engine.plugin2.dry_wet = 50 ∧
      u.engine.bypass = 1 ∧ u.engine.normA = 0 ∧ u.engine.ir_file = "/tmp/x.wav" ∧
      u.engine.xrworker.triggers = clap_inited.engine.xrworker.triggers + 1) :=
  have h := C14_wellformed_state_is_read lib_c clap_inited "3.0" "50" "1" "0" "/tmp/x.wav"
    3 50 1 0 rfl (by decide) (by decide) (by decide) (by decide) (by decide)
    stod_simple_nat_examples.2.2.2.2.2.1 stod_simple_nat_examples.2.2.2.1
    stod_simple_nat_examples.2.1 stod_simple_nat_examples.1
    (by norm_num [FLT_MAX]) (by norm_num [FLT_MAX]) (by norm_num [FLT_MAX])
    (by norm_num [FLT_MAX]) rfl
  ⟨rfl, by decide, rfl,
   h.elim fun u hu =>
     ⟨u, hu.1,
      by simpa using hu.2.2.2.2.2.1 3 (by norm_num) (by norm_num),
      by simpa using hu.2.2.2.2.2.2.1 50 (by norm_num) (by norm_num),
      hu.2.2.2.2.2.2.2.1 1 (by norm_num) (by norm_num),
      hu.2.2.2.2.2.2.2.2.1 0 (by norm_num) (by norm_num),
      hu.2.2.2.2.2.2.2.2.2.1, hu.2.2.2.2.2.2.2.2.2.2.1⟩⟩

/-- C16, as stated, fails: a malformed numeric token makes `std::stod` throw, and nothing in
`check_stod` or `readState` catches the exception.  With `x` in the place of the gain the call
does not return normally. -/
theorem C16_malformed_token_throws :
    lib_c.stod "x" = none ∧
    state_text "x" "50" "1" "0" "/tmp/x.wav" = "[CONTROLS] x 50 1 0 |[IrFile] /tmp/x.wav|" ∧
    clap_inited.readState lib_c "[CONTROLS] x 50 1 0 |[IrFile] /tmp/x.wav|" = none ∧
    clap_inited.readState lib_c "[CONTROLS] 3.0 50 x 0 |[IrFile] /tmp/x.wav|" = none ∧
    clap_inited.readState lib_c "[CONTROLS] |[IrFile] /tmp/x.wav|" = none := by
  refine ⟨by decide, by decide, by decide, by decide, by decide⟩

/-- C16 (amended): `readState` returns normally on a state string `[CONTROLS] g w b n
|[IrFile] p|` exactly when `std::stod`, called through `check_stod`, converts each of the four
tokens; when one of them is malformed the exception of `std::stod` leaves `readState` (the
later fields and the `[IrFile]` segment are not reached).  A segment whose key is not
`[CONTROLS]` never raises. -/
theorem C16_returns_iff_tokens_convert (lib : Stdlib) (s : Clap.ImpulseLoader)
    (g w b n p : String)
    (hg : is_token g = true) (hw : is_token w = true) (hb : is_token b = true)
    (hn : is_token n = true) (hp : ∀ c ∈ p.data, c ≠ '|') :
    ((s.readState lib (state_text g w b n p)).isSome = true ↔
      ((check_stod lib g).isSome = true ∧ (check_stod lib w).isSome = true ∧
        (check_stod lib b).isSome = true ∧ (check_stod lib n).isSome = true)) ∧
    ((check_stod lib g = none ∨ check_stod lib w = none ∨ check_stod lib b = none ∨
        check_stod lib n = none) → s.readState lib (state_text g w b n p) = none) ∧
    (∀ line : List Char,
      (IStream.extract { rest := line, good := true } "").2 ≠ "[CONTROLS]" →
      (Clap.ImpulseLoader.readState_line lib s line).isSome = true) := by
  have hr := Clap.readState_state_text lib s g w b n p hg hw hb hn hp
  refine ⟨?_, ?_, ?_⟩
  · rw [hr]
    cases check_stod lib g <;> cases check_stod lib w <;> cases check_stod lib b <;>
      cases check_stod lib n <;> simp
  · intro h
    rw [hr]
    cases hcg : check_stod lib g <;> cases hcw : check_stod lib w <;>
      cases hcb : check_stod lib b <;> cases hcn : check_stod lib n <;>
      simp_all
  · intro line hk
    unfold Clap.ImpulseLoader.readState_line
    simp only []
    rw [if_neg hk]
    split <;> rfl

/-- C16 (amended) at the tokens `x 50 1 0` under the C locale: the first token is not
converted, and the call does not return. -/
theorem C16_returns_iff_tokens_convert_witness :
    (check_stod lib_c "x" = none ∨ check_stod lib_c "50" = none ∨ check_stod lib_c "1" = none ∨
        check_stod lib_c "0" = none) ∧
    clap_inited.readState lib_c (state_text "x" "50" "1" "0" "/tmp/x.wav") = none :=
  ⟨Or.inl (by decide),
   (C16_returns_iff_tokens_convert lib_c clap_inited "x" "50" "1" "0" "/tmp/x.wav"
      (by decide) (by decide) (by decide) (by decide) (by decide)).2.1 (Or.inl (by decide))⟩

/-! ## C22: what `Engine::process` writes -/

namespace impulseloader

/-- The fields `Engine::process` never assigns. -/
theorem process_keeps (env : Env) (e : Engine) (n : Nat) (input0 output0 : Ptr) (w : World) :
    (e.process env n input0 output0 w).1.bypass = e.bypass ∧
    (e.process env n input0 output0 w).1.plugin2 = e.plugin2 ∧
    (e.process env n input0 output0 w).1.normA = e.normA ∧
    (e.process env n input0 output0 w).1.ir_file = e.ir_file ∧
    (e.process env n input0 output0 w).1._execute = e._execute ∧
    (e.process env n input0 output0 w).1._notify_ui = e._notify_ui ∧
    (e.process env n input0 output0 w).1._cd = e._cd ∧
    (e.process env n input0 output0 w).1.xrworker = e.xrworker := by
  unfold Engine.process
  split_ifs <;> exact ⟨rfl, rfl, rfl, rfl, rfl, rfl, rfl, rfl⟩

/-- The gain parameter is not written by the gain and kernel stages. -/
theorem process_conv_gain (env : Env) (e : Engine) (n : Nat) (output0 : Ptr) (m : Mem) :
    (e.process_conv env n output0 m).1.gain = e.plugin1.gain := by
  unfold Engine.process_conv
  split
  · exact (gain.Dsp.gain_loop_spec _ output0 output0 e.plugin1 m _).2.1
  · exact (gain.Dsp.gain_loop_spec _ output0 output0 e.plugin1 m _).2.1

/-- The gain parameter is not written by `Engine::process`. -/
theorem process_gain (env : Env) (e : Engine) (n : Nat) (input0 output0 : Ptr) (w : World) :
    (e.process env n input0 output0 w).1.plugin1.gain = e.plugin1.gain := by
  unfold Engine.process
  split_ifs
  · rfl
  · rfl
  · exact process_conv_gain env e n output0 _

/-- The buffer-size field after `Engine::process`. -/
theorem process_bufsize (env : Env) (e : Engine) (n : Nat) (input0 output0 : Ptr) (w : World) :
    (e.process env n input0 output0 w).1.bufsize = if n < 1 ∨ e.bypass = 0 then e.bufsize else n := by
  unfold Engine.process
  split_ifs <;> first | rfl | simp_all

/-- Audio memory outside the output block and the stack buffer is not written. -/
theorem process_mem_other (env : Env) (e : Engine) (n : Nat) (input0 output0 : Ptr) (w : World)
    (q : Ptr) (j : Nat) (hq : q ≠ buf0_ptr input0 output0) (h : q ≠ output0 ∨ n ≤ j) :
    (e.process env n input0 output0 w).2.mem q j = w.mem q j := by
  have hle := int_of_uint32_toNat_le n
  have h2 : q ≠ output0 ∨ (int_of_uint32 n).toNat ≤ j := by
    rcases h with h | h
    · exact Or.inl h
    · exact Or.inr (by omega)
  unfold Engine.process
  split_ifs
  · rfl
  · rfl
  · dsimp only
    unfold wet_dry.Dsp.compute
    rw [(wet_dry.Dsp.mix_loop_spec _ _ _ _ _ _ _).1 q j h2,
      process_conv_other env e n output0 _ q j h2]
    unfold Engine.process_copies memcpy
    have h3 : ¬ (q = output0 ∧ j < n) := by
      rintro ⟨h4, h5⟩
      rcases h with h | h
      · exact h h4
      · omega
    simp only [hq, false_and, if_false]
    split_ifs
    · exact if_neg h3
    · rfl

end impulseloader

/-- C22 (counterexample): one frame through the switched-on engine: the buffer-size field is 0
before the call and 1 after it. -/
theorem C22_bufsize_is_written :
    engine_on.bufsize = 0 ∧
    (engine_on.process env0 1 0 0 { mem := mem_ones, csr := 0 }).1.bufsize = 1 := by
  constructor
  · rfl
  · rw [process_bufsize]
    decide

/-- C22 (amended): `Engine::process` leaves bypass, gain, wetDry, normalise, ir_file and the
flags `_execute`, `_notify_ui`, `_cd` as they were; the buffer-size field is set to the frame
count when the stages run (at least one frame, engine switched on) and is kept on the two early
exits; audio memory outside the output block and the stack buffer is not written. -/
theorem C22_process_frame (env : Env) (e : Engine) (n : Nat) (input0 output0 : Ptr) (w : World) :
    (e.process env n input0 output0 w).1.bypass = e.bypass ∧
    (e.process env n input0 output0 w).1.plugin1.gain = e.plugin1.gain ∧
    (e.process env n input0 output0 w).1.plugin2.dry_wet = e.plugin2.dry_wet ∧
    (e.process env n input0 output0 w).1.normA = e.normA ∧
    (e.process env n input0 output0 w).1.ir_file = e.ir_file ∧
    (e.process env n input0 output0 w).1._execute = e._execute ∧
    (e.process env n input0 output0 w).1._notify_ui = e._notify_ui ∧
    (e.process env n input0 output0 w).1._cd = e._cd ∧
    (e.process env n input0 output0 w).1.bufsize
      = (if n < 1 ∨ e.bypass = 0 then e.bufsize else n) ∧
    (∀ q j, q ≠ buf0_ptr input0 output0 → (q ≠ output0 ∨ n ≤ j) →
      (e.process env n input0 output0 w).2.mem q j = w.mem q j) := by
  obtain ⟨h1, h2, h3, h4, h5, h6, h7, _⟩ := process_keeps env e n input0 output0 w
  refine ⟨h1, process_gain env e n input0 output0 w, ?_, h3, h4, h5, h6, h7,
    process_bufsize env e n input0 output0 w, ?_⟩
  · rw [h2]
  · intro q j hq h
    exact process_mem_other env e n input0 output0 w q j hq h

/-! ## C21, C28: the input events of the CLAP audio callback -/

/-- A loop of `k + 1` rounds is its first round followed by the `k` later rounds. -/
theorem forLoop_shift {σ : Type} (k : Nat) (body : Nat → σ → σ) (s : σ) :
    forLoop (k + 1) body s = forLoop k (fun j => body (j + 1)) (body 0 s) := by
  induction k with
  | zero => rfl
  | succ k ih => rw [forLoop_succ, ih, forLoop_succ]

namespace Clap

/-- The `while` loop does nothing when its condition fails at entry. -/
theorem event_while_idle {σ : Type} (sync : σ → InEvent → σ) (evs : List InEvent)
    (nframes i : Nat) (st : EventLoop σ)
    (h : ¬ (st.ev_index < evs.length ∧ st.next_ev_frame = i)) :
    event_while sync evs nframes i st = st := by
  rw [event_while, dif_neg h]

/-- The frames from `i` on do nothing when the condition of the `while` loop fails at each. -/
theorem event_frames_idle {σ : Type} (sync : σ → InEvent → σ) (evs : List InEvent)
    (nframes i : Nat) (st : EventLoop σ) (d : Nat)
    (h : ∀ j, j < d → ¬ (st.ev_index < evs.length ∧ st.next_ev_frame = i + j)) :
    forLoop d (fun j => event_while sync evs nframes (i + j)) st = st := by
  induction d with
  | zero => rfl
  | succ d ih =>
    rw [forLoop_succ, ih (fun j hj => h j (by omega))]
    exact event_while_idle sync evs nframes (i + d) st (h d (by omega))

/-- No event is in the run when the time before is at or after the frame count. -/
theorem ordered_run_late (nframes last : Nat) (h : nframes ≤ last) (evs : List InEvent) :
    ordered_run nframes last evs = [] := by
  cases evs with
  | nil => rfl
  | cons e es =>
    have hn : ¬ (last ≤ e.time ∧ e.time < nframes) := by omega
    simp only [ordered_run, hn, if_false]

/-- The run depends on the time before only through the test of the first event. -/
theorem ordered_run_last (nframes last last2 : Nat) (e : InEvent) (es : List InEvent)
    (h : last ≤ e.time ↔ last2 ≤ e.time) :
    ordered_run nframes last (e :: es) = ordered_run nframes last2 (e :: es) := by
  simp only [ordered_run, h]

end Clap

namespace Clap

/-- One round of the `while` loop at the frame `i`, entered with `next_ev_frame = i` and an
event left: the event is peeked; with another time the loop breaks, with the time `i` it is
applied and the loop breaks at the end of the list or goes on. -/
theorem event_while_peek {σ : Type} (sync : σ → InEvent → σ) (evs : List InEvent)
    (nframes i k : Nat) (r : σ) (hk : k < evs.length) :
    event_while sync evs nframes i { r := r, ev_index := k, next_ev_frame := i }
      = if (evs.get ⟨k, hk⟩).time ≠ i then
          { r := r, ev_index := k, next_ev_frame := (evs.get ⟨k, hk⟩).time }
        else if k + 1 = evs.length then
          { r := sync r (evs.get ⟨k, hk⟩), ev_index := k + 1, next_ev_frame := nframes }
        else
          event_while sync evs nframes i
            { r := sync r (evs.get ⟨k, hk⟩), ev_index := k + 1, next_ev_frame := i } := by
  rw [event_while, dif_pos ⟨hk, rfl⟩]

/-- The events from `k` on start with the event at `k`. -/
theorem drop_eq_get_cons (evs : List InEvent) (k : Nat) (hk : k < evs.length) :
    evs.drop k = evs.get ⟨k, hk⟩ :: evs.drop (k + 1) := by
  rw [List.get_eq_getElem]
  exact List.drop_eq_getElem_cons hk

/-- The frames from `i` on, entered with an event left at `k` that is either to be peeked at
`i` or known to lie after `i`: the events applied are the run of the events from `k` on whose
times do not decrease from `i` and stay below the frame count. -/
theorem event_frames_spec {σ : Type} (sync : σ → InEvent → σ) (evs : List InEvent)
    (nframes : Nat) (d : Nat) :
    ∀ (i k : Nat) (r : σ) (nxt : Nat) (hk : k < evs.length), i + d = nframes →
      (nxt = i ∨ (nxt = (evs.get ⟨k, hk⟩).time ∧ i < nxt)) →
      (forLoop d (fun j => event_while sync evs nframes (i + j))
          { r := r, ev_index := k, next_ev_frame := nxt }).r
        = (ordered_run nframes i (evs.drop k)).foldl sync r ∧
      (forLoop d (fun j => event_while sync evs nframes (i + j))
          { r := r, ev_index := k, next_ev_frame := nxt }).ev_index
        = k + (ordered_run nframes i (evs.drop k)).length := by
  induction d with
  | zero =>
    intro i k r nxt hk hid _
    rw [ordered_run_late nframes i (by omega)]
    exact ⟨rfl, rfl⟩
  | succ d ih =>
    intro i k r nxt hk hid hnxt
    have hshift : ∀ st : EventLoop σ,
        forLoop (d + 1) (fun j => event_while sync evs nframes (i + j)) st
          = forLoop d (fun j => event_while sync evs nframes (i + 1 + j))
              (event_while sync evs nframes i st) := by
      intro st
      rw [forLoop_shift]
      have e1 : (fun j => event_while sync evs nframes (i + (j + 1)))
          = (fun j => event_while sync evs nframes (i + 1 + j)) := by
        funext j
        have e2 : i + (j + 1) = i + 1 + j := by omega
        rw [e2]
      rw [e1]
      rfl
    -- an event known to lie after `i` waits for a later frame
    have hpend : ∀ (k : Nat) (r : σ) (hk : k < evs.length), i < (evs.get ⟨k, hk⟩).time →
        (forLoop d (fun j => event_while sync evs nframes (i + 1 + j))
            { r := r, ev_index := k, next_ev_frame := (evs.get ⟨k, hk⟩).time }).r
          = (ordered_run nframes i (evs.drop k)).foldl sync r ∧
        (forLoop d (fun j => event_while sync evs nframes (i + 1 + j))
            { r := r, ev_index := k, next_ev_frame := (evs.get ⟨k, hk⟩).time }).ev_index
          = k + (ordered_run nframes i (evs.drop k)).length := by
      intro k r hk hlt
      have h1 := ih (i + 1) k r (evs.get ⟨k, hk⟩).time hk (by omega)
        (by
          rcases Nat.lt_or_ge (i + 1) (evs.get ⟨k, hk⟩).time with h | h
          · exact Or.inr ⟨rfl, h⟩
          · exact Or.inl (by omega))
      have h2 : ordered_run nframes i (evs.drop k) = ordered_run nframes (i + 1) (evs.drop k) := by
        rw [drop_eq_get_cons evs k hk]
        exact ordered_run_last nframes i (i + 1) _ _ (by omega)
      rw [h2]
      exact h1
    -- a state that no later frame touches
    have hidle : ∀ st : EventLoop σ, (evs.length ≤ st.ev_index ∨ st.next_ev_frame ≤ i) →
        forLoop d (fun j => event_while sync evs nframes (i + 1 + j)) st = st := by
      intro st hst
      apply event_frames_idle
      intro j _
      omega
    -- an event peeked at `i`
    have hpeek : ∀ (m k : Nat) (r : σ) (hk : k < evs.length), evs.length - k = m →
        (forLoop d (fun j => event_while sync evs nframes (i + 1 + j))
            (event_while sync evs nframes i { r := r, ev_index := k, next_ev_frame := i })).r
          = (ordered_run nframes i (evs.drop k)).foldl sync r ∧
        (forLoop d (fun j => event_while sync evs nframes (i + 1 + j))
            (event_while sync evs nframes i
              { r := r, ev_index := k, next_ev_frame := i })).ev_index
          = k + (ordered_run nframes i (evs.drop k)).length := by
      intro m
      induction m with
      | zero =>
        intro k r hk hm
        omega
      | succ m ihm =>
        intro k r hk hm
        rw [event_while_peek sync evs nframes i k r hk]
        by_cases ht : (evs.get ⟨k, hk⟩).time ≠ i
        · rw [if_pos ht]
          rcases Nat.lt_or_ge i (evs.get ⟨k, hk⟩).time with hlt | hge
          · exact hpend k r hk hlt
          · rw [hidle _ (Or.inr hge), drop_eq_get_cons evs k hk]
            have hn : ¬ (i ≤ (evs.get ⟨k, hk⟩).time ∧ (evs.get ⟨k, hk⟩).time < nframes) := by
              omega
            simp only [ordered_run, hn, if_false]
            exact ⟨rfl, rfl⟩
        · rw [if_neg ht]
          have hti : (evs.get ⟨k, hk⟩).time = i := not_not.mp ht
          have hy : i ≤ (evs.get ⟨k, hk⟩).time ∧ (evs.get ⟨k, hk⟩).time < nframes := by
            omega
          by_cases hend : k + 1 = evs.length
          · rw [if_pos hend, hidle _ (Or.inl (by simp [hend])), drop_eq_get_cons evs k hk,
              List.drop_of_length_le (by omega)]
            simp only [ordered_run, hy, and_self, if_true]
            exact ⟨rfl, rfl⟩
          · rw [if_neg hend, drop_eq_get_cons evs k hk]
            have h3 := ihm (k + 1) (sync r (evs.get ⟨k, hk⟩)) (by omega) (by omega)
            simp only [ordered_run, hy, and_self, if_true, List.foldl_cons, List.length_cons]
            rw [hti]
            refine ⟨h3.1, ?_⟩
            rw [h3.2]
            omega
    rw [hshift]
    rcases hnxt with h | ⟨h, hlt⟩
    · subst h
      exact hpeek (evs.length - k) k r hk rfl
    · rw [event_while_idle sync evs nframes i _ (by
        simp only [not_and]
        intro _
        omega)]
      subst h
      exact hpend k r hk hlt

end Clap

namespace Clap

/-- The run is an initial part of the event list. -/
theorem ordered_run_initial (nframes : Nat) (evs : List InEvent) :
    ∀ last, ∃ t, ordered_run nframes last evs ++ t = evs := by
  induction evs with
  | nil => exact fun _ => ⟨[], rfl⟩
  | cons e es ih =>
    intro last
    by_cases h : last ≤ e.time ∧ e.time < nframes
    · obtain ⟨t, ht⟩ := ih e.time
      refine ⟨t, ?_⟩
      simp only [ordered_run, h, and_self, if_true, List.cons_append, ht]
    · exact ⟨e :: es, by simp only [ordered_run, h, if_false, List.nil_append]⟩

/-- The times of the run do not decrease, starting from the time before. -/
theorem ordered_run_chain (nframes : Nat) (evs : List InEvent) :
    ∀ last, List.Chain (· ≤ ·) last ((ordered_run nframes last evs).map InEvent.time) := by
  induction evs with
  | nil => exact fun _ => List.Chain.nil
  | cons e es ih =>
    intro last
    by_cases h : last ≤ e.time ∧ e.time < nframes
    · simp only [ordered_run, h, and_self, if_true, List.map_cons]
      exact List.Chain.cons h.1 (ih e.time)
    · simp only [ordered_run, h, if_false, List.map_nil]
      exact List.Chain.nil

/-- The times of the run are below the frame count. -/
theorem ordered_run_below (nframes : Nat) (evs : List InEvent) :
    ∀ last, ∀ e ∈ ordered_run nframes last evs, e.time < nframes := by
  induction evs with
  | nil =>
    intro last e he
    simp [ordered_run] at he
  | cons e es ih =>
    intro last x hx
    by_cases h : last ≤ e.time ∧ e.time < nframes
    · simp only [ordered_run, h, and_self, if_true, List.mem_cons] at hx
      rcases hx with hx | hx
      · rw [hx]
        exact h.2
      · exact ih e.time x hx
    · simp [ordered_run, h] at hx

/-- No initial part of the list with non-decreasing times below the frame count is longer
than the run. -/
theorem ordered_run_longest (nframes : Nat) (q : List InEvent) :
    ∀ (last : Nat) (t : List InEvent), List.Chain (· ≤ ·) last (q.map InEvent.time) →
      (∀ e ∈ q, e.time < nframes) → q.length ≤ (ordered_run nframes last (q ++ t)).length := by
  induction q with
  | nil => exact fun _ _ _ _ => Nat.zero_le _
  | cons e q ih =>
    intro last t hc hb
    rw [List.map_cons, List.chain_cons] at hc
    have h : last ≤ e.time ∧ e.time < nframes := ⟨hc.1, hb e (List.mem_cons_self e q)⟩
    rw [List.cons_append]
    simp only [ordered_run, h, and_self, if_true, List.length_cons]
    have := ih e.time t hc.2 (fun x hx => hb x (List.mem_cons_of_mem e hx))
    omega

/-- A list whose times do not decrease and stay below the frame count is its own run. -/
theorem ordered_run_all (nframes : Nat) (evs : List InEvent) :
    ∀ last, List.Chain (· ≤ ·) last (evs.map InEvent.time) →
      (∀ e ∈ evs, e.time < nframes) → ordered_run nframes last evs = evs := by
  induction evs with
  | nil => exact fun _ _ _ => rfl
  | cons e es ih =>
    intro last hc hb
    rw [List.map_cons, List.chain_cons] at hc
    have h : last ≤ e.time ∧ e.time < nframes := ⟨hc.1, hb e (List.mem_cons_self e es)⟩
    simp only [ordered_run, h, and_self, if_true]
    rw [ih e.time hc.2 (fun x hx => hb x (List.mem_cons_of_mem e hx))]

/-- Non-decreasing times are non-decreasing from 0. -/
theorem chain_from_zero (l : List Nat) (h : l.Pairwise (· ≤ ·)) : List.Chain (· ≤ ·) 0 l := by
  rw [List.chain_iff_pairwise, List.pairwise_cons]
  exact ⟨fun a _ => Nat.zero_le a, h⟩

/-- The event loop of `process` applies the run of the event list, and `ev_index` ends at
its length. -/
theorem event_loop_spec {σ : Type} (sync : σ → InEvent → σ) (evs : List InEvent)
    (nframes : Nat) (r : σ) :
    (event_loop sync evs nframes r).r = (ordered_run nframes 0 evs).foldl sync r ∧
    (event_loop sync evs nframes r).ev_index = (ordered_run nframes 0 evs).length := by
  have e1 : event_while sync evs nframes = fun j => event_while sync evs nframes (0 + j) := by
    funext j
    rw [Nat.zero_add]
  unfold event_loop
  rw [e1]
  by_cases h : evs.length > 0
  · rw [if_pos h]
    have h2 := event_frames_spec sync evs nframes nframes 0 0 r 0 h (Nat.zero_add _) (Or.inl rfl)
    rw [List.drop_zero, Nat.zero_add] at h2
    exact h2
  · rw [if_neg h]
    have hnil : evs = [] := List.length_eq_zero.mp (by omega)
    subst hnil
    rw [event_frames_idle sync [] nframes 0 _ nframes (fun j _ hc => by simp at hc)]
    exact ⟨rfl, rfl⟩

end Clap

/-- C28: for every event list and frame count, and whatever the call `sync` applied to an
event does, the event loop of `process` applies the events of an initial part of the list,
each once and in list order (the result is the fold of `sync` over that part, `ev_index` its
length): the part is the longest one whose times do not decrease and are all below the frame
count, so the first event out of order or at or after the frame count and every later event
are not applied. -/
theorem C28_event_loop_applies_ordered_run {σ : Type} (sync : σ → Clap.InEvent → σ)
    (evs : List Clap.InEvent) (nframes : Nat) (r : σ) :
    (Clap.event_loop sync evs nframes r).r
      = (Clap.ordered_run nframes 0 evs).foldl sync r ∧
    (Clap.event_loop sync evs nframes r).ev_index = (Clap.ordered_run nframes 0 evs).length ∧
    (∃ t, Clap.ordered_run nframes 0 evs ++ t = evs) ∧
    ((Clap.ordered_run nframes 0 evs).map Clap.InEvent.time).Pairwise (· ≤ ·) ∧
    (∀ e ∈ Clap.ordered_run nframes 0 evs, e.time < nframes) ∧
    (∀ q t, q ++ t = evs → (q.map Clap.InEvent.time).Pairwise (· ≤ ·) →
      (∀ e ∈ q, e.time < nframes) → q.length ≤ (Clap.ordered_run nframes 0 evs).length) := by
  have h := Clap.event_loop_spec sync evs nframes r
  refine ⟨h.1, h.2, Clap.ordered_run_initial nframes evs 0, ?_,
    Clap.ordered_run_below nframes evs 0, ?_⟩
  · have hc := Clap.ordered_run_chain nframes evs 0
    rw [List.chain_iff_pairwise, List.pairwise_cons] at hc
    exact hc.2
  · intro q t hqt hc hb
    rw [← hqt]
    exact Clap.ordered_run_longest nframes q 0 t (Clap.chain_from_zero _ hc) hb

/-- C21 (counterexample): a block whose input port has no channel, with two parameter events
in time order below the frame count: the callback returns `CLAP_PROCESS_ERROR` with the plugin
as it was (gain 0, wet/dry 100), although the events carry gain 5 and wet/dry 50. -/
theorem C21_invalid_format_applies_nothing :
    (clap_block_no_input.in_events.map Clap.InEvent.time).Pairwise (· ≤ ·) ∧
    (∀ e ∈ clap_block_no_input.in_events, e.time < clap_block_no_input.frames_count) ∧
    (Clap.process env0 clap_plug_active clap_block_no_input [] world_ones).1
      = Clap.CLAP_PROCESS_ERROR ∧
    (Clap.process env0 clap_plug_active clap_block_no_input [] world_ones).2.1
      = clap_plug_active ∧
    clap_plug_active.r.engine.plugin1.gain = 0 ∧
    clap_plug_active.r.engine.plugin2.dry_wet = 100 ∧
    (clap_block_no_input.in_events.foldl Clap.sync_params_to_plug
      clap_plug_active.r).engine.plugin1.gain = 5 ∧
    (clap_block_no_input.in_events.foldl Clap.sync_params_to_plug
      clap_plug_active.r).engine.plugin2.dry_wet = 50 := by
  refine ⟨by decide, by decide, rfl, rfl, rfl, rfl, rfl, rfl⟩

/-- C21 (amended): when the call has at least one channel on its first input and output port,
for every event list whose times do not decrease and are all below the frame count, the
callback `process` hands every event to `sync_params_to_plug` exactly once, in list order, and
only then lets the engine produce the block: the status is `CLAP_PROCESS_CONTINUE`, and the
plugin and the audio memory are those of the engine's `process` run on the state with all the
events applied. -/
theorem C21_events_applied_before_output (env : Env) (plug : Clap.plugin_t)
    (p : Clap.clap_process_t) (out : List Clap.ParamEvent) (w : impulseloader.World)
    (hin : 1 ≤ p.in_channel_count) (hout : 1 ≤ p.out_channel_count)
    (hord : (p.in_events.map Clap.InEvent.time).Pairwise (· ≤ ·))
    (hlt : ∀ e ∈ p.in_events, e.time < p.frames_count) :
    (Clap.process env plug p out w).1 = Clap.CLAP_PROCESS_CONTINUE ∧
    (Clap.event_loop Clap.sync_params_to_plug p.in_events p.frames_count
        (Clap.process_sync plug.r out).1).r
      = p.in_events.foldl Clap.sync_params_to_plug (Clap.process_sync plug.r out).1 ∧
    (Clap.process env plug p out w).2.1.r
      = ((p.in_events.foldl Clap.sync_params_to_plug (Clap.process_sync plug.r out).1).process
          env p.frames_count p.left_output p.left_output
          { w with mem := if p.left_output ≠ p.input
                            then memcpy w.mem p.left_output p.input p.frames_count
                            else w.mem }).1 ∧
    (Clap.process env plug p out w).2.2.2.mem
      = ((p.in_events.foldl Clap.sync_params_to_plug (Clap.process_sync plug.r out).1).process
          env p.frames_count p.left_output p.left_output
          { w with mem := if p.left_output ≠ p.input
                            then memcpy w.mem p.left_output p.input p.frames_count
                            else w.mem }).2.mem := by
  have hfmt : ¬ (p.in_channel_count < 1 ∨ p.out_channel_count < 1) := by omega
  have hall : Clap.ordered_run p.frames_count 0 p.in_events = p.in_events :=
    Clap.ordered_run_all p.frames_count p.in_events 0 (Clap.chain_from_zero _ hord) hlt
  have hloop := (Clap.event_loop_spec Clap.sync_params_to_plug p.in_events p.frames_count
    (Clap.process_sync plug.r out).1).1
  rw [hall] at hloop
  unfold Clap.process
  rw [if_neg hfmt]
  dsimp only
  rw [hloop]
  exact ⟨rfl, rfl, rfl, rfl⟩

/-- C21 at a concrete input: the block of four frames with the two events. -/
theorem C21_events_applied_before_output_witness :
    1 ≤ clap_block.in_channel_count ∧ 1 ≤ clap_block.out_channel_count ∧
    (clap_block.in_events.map Clap.InEvent.time).Pairwise (· ≤ ·) ∧
    (∀ e ∈ clap_block.in_events, e.time < clap_block.frames_count) ∧
    (Clap.process env0 clap_plug_active clap_block [] world_ones).1
      = Clap.CLAP_PROCESS_CONTINUE ∧
    (Clap.process env0 clap_plug_active clap_block [] world_ones).2.1.r.engine.plugin1.gain = 5 ∧
    (Clap.process env0 clap_plug_active clap_block [] world_ones).2.1.r.engine.plugin2.dry_wet
      = 50 := by
  have h := C21_events_applied_before_output env0 clap_plug_active clap_block [] world_ones
    (by decide) (by decide) (by decide) (by decide)
  refine ⟨by decide, by decide, by decide, by decide, h.1, ?_, ?_⟩
  · rw [h.2.2.1]
    unfold Clap.ImpulseLoader.process
    rw [impulseloader.process_gain]
    rfl
  · rw [h.2.2.1]
    unfold Clap.ImpulseLoader.process
    rw [(impulseloader.process_keeps _ _ _ _ _ _).2.1]
    rfl

/-! ## C23, C26, C27: the rebuild in the worker and the denormal guard -/

namespace impulseloader

/-- When the kernel can be started for a file other than "None", `setIRFile` hands back a
runnable convolver configured from that file and leaves the file name as it was. -/
theorem setIRFile_ok (env : Env) (e : Engine) (co : ConvolverSelector) (file : String)
    (hf : file ≠ "None") (hs : env.startOk file = true) :
    (e.setIRFile env co file).2 = file ∧ (e.setIRFile env co file).1.is_runnable = true ∧
    (e.setIRFile env co file).1.irfile = some file := by
  unfold Engine.setIRFile
  rw [if_pos hf, ConvolverSelector.wait_checkstate_eq]
  simp [ConvolverSelector.start, ConvolverSelector.configure, hs,
    ConvolverSelector.is_runnable, ConvolverSelector.cleanup,
    ConvolverSelector.set_samplerate, ConvolverSelector.set_buffersize,
    ConvolverSelector.set_not_runnable, ConvolverSelector.stop_process]

/-- For the sentinel "None" `setIRFile` configures nothing and keeps the file name. -/
theorem setIRFile_none (env : Env) (e : Engine) (co : ConvolverSelector) :
    (e.setIRFile env co "None").2 = "None" := by
  unfold Engine.setIRFile
  simp

/-- The fields `Engine::do_work_mono` never assigns. -/
theorem do_work_mono_keeps (env : Env) (e : Engine) :
    (e.do_work_mono env).plugin1 = e.plugin1 ∧ (e.do_work_mono env).plugin2 = e.plugin2 ∧
    (e.do_work_mono env).bypass = e.bypass ∧ (e.do_work_mono env).normA = e.normA ∧
    (e.do_work_mono env)._cd = e._cd ∧ (e.do_work_mono env).bufsize = e.bufsize := by
  unfold Engine.do_work_mono
  split_ifs <;> exact ⟨rfl, rfl, rfl, rfl, rfl, rfl⟩

end impulseloader

/-- C23: when `Engine::do_work_mono` rebuilds the kernel (`_cd = 1`) and the kernel starts
for the requested file (or the request is the sentinel "None", for which nothing is started),
gain, wetDry, bypass, normalise and ir_file are the same after the call as before it; for a
file other than "None" the kernel is then runnable and built from that file. -/
theorem C23_rebuild_keeps_engine_state (env : Env) (e : Engine) (hcd : e._cd = 1)
    (hs : e.ir_file = "None" ∨ env.startOk e.ir_file = true) :
    (e.do_work_mono env).plugin1.gain = e.plugin1.gain ∧
    (e.do_work_mono env).plugin2.dry_wet = e.plugin2.dry_wet ∧
    (e.do_work_mono env).bypass = e.bypass ∧
    (e.do_work_mono env).normA = e.normA ∧
    (e.do_work_mono env).ir_file = e.ir_file ∧
    (e.ir_file ≠ "None" →
      (e.do_work_mono env).conv.is_runnable = true ∧
      (e.do_work_mono env).conv.irfile = some e.ir_file) := by
  obtain ⟨h1, h2, h3, h4, _, _⟩ := do_work_mono_keeps env e
  have hfile : (e.do_work_mono env).ir_file = (e.setIRFile env e.conv e.ir_file).2 := by
    unfold Engine.do_work_mono
    rw [if_pos hcd]
  have hconv : (e.do_work_mono env).conv = (e.setIRFile env e.conv e.ir_file).1 := by
    unfold Engine.do_work_mono
    rw [if_pos hcd]
  refine ⟨by rw [h1], by rw [h2], h3, h4, ?_, ?_⟩
  · rw [hfile]
    by_cases hf : e.ir_file = "None"
    · rw [hf]
      exact setIRFile_none env e e.conv
    · rcases hs with hs | hs
      · exact absurd hs hf
      · exact (setIRFile_ok env e e.conv e.ir_file hf hs).1
  · intro hf
    rcases hs with hs | hs
    · exact absurd hs hf
    · rw [hconv]
      exact (setIRFile_ok env e e.conv e.ir_file hf hs).2

/-- C23 at a concrete input: a redundant request for the loaded file `a.wav`. -/
theorem C23_rebuild_keeps_engine_state_witness :
    engine_redundant._cd = 1 ∧ env0.startOk engine_redundant.ir_file = true ∧
    ((engine_redundant.do_work_mono env0).plugin1.gain = engine_redundant.plugin1.gain ∧
     (engine_redundant.do_work_mono env0).plugin2.dry_wet = engine_redundant.plugin2.dry_wet ∧
     (engine_redundant.do_work_mono env0).bypass = engine_redundant.bypass ∧
     (engine_redundant.do_work_mono env0).normA = engine_redundant.normA ∧
     (engine_redundant.do_work_mono env0).ir_file = engine_redundant.ir_file ∧
     (engine_redundant.ir_file ≠ "None" →
       (engine_redundant.do_work_mono env0).conv.is_runnable = true ∧
       (engine_redundant.do_work_mono env0).conv.irfile = some engine_redundant.ir_file)) :=
  ⟨rfl, rfl, C23_rebuild_keeps_engine_state env0 engine_redundant rfl (Or.inr rfl)⟩

/-- C26: for every prior value `m` of the control register, `set_` sets the register to
`(m | _MM_DENORMALS_ZERO_MASK | _MM_FLUSH_ZERO_MASK) & mxcsr_mask` (the masks are 0x0040 and
0x8000) and the following `reset_` restores `m`; `Engine::process` returns on every path, for
every frame count and engine state, with the register equal to its value at entry. -/
theorem C26_denormal_guard_restores (d : DenormalProtection) (m : Nat) (env : Env) (e : Engine)
    (n : Nat) (input0 output0 : Ptr) (w : World) :
    (d.set_ m).2 = (m ||| 0x0040 ||| 0x8000) &&& d.mxcsr_mask ∧
    (d.set_ m).1.reset_ (d.set_ m).2 = m ∧
    (e.process env n input0 output0 w).2.csr = w.csr := by
  refine ⟨rfl, rfl, ?_⟩
  unfold Engine.process
  split_ifs <;> rfl

/-- C27: `Engine::do_work_mono` hands the convolver and `ir_file` to `setIRFile` exactly when
`_cd` is 1; for every other value both are left as they were; in either case `_execute` is
cleared and `_notify_ui` raised. -/
theorem C27_rebuild_iff_cd_is_one (env : Env) (e : Engine) :
    ((e.do_work_mono env).conv, (e.do_work_mono env).ir_file)
      = (if e._cd = 1 then e.setIRFile env e.conv e.ir_file else (e.conv, e.ir_file)) ∧
    (e.do_work_mono env)._execute = false ∧
    (e.do_work_mono env)._notify_ui = true := by
  unfold Engine.do_work_mono
  split_ifs <;> exact ⟨rfl, rfl, rfl⟩

/-! ## C25, C29: the one-pole smoothing of the gain stage -/

namespace gain

/-- The steady state of the recurrence: `c / (1 - 0.999)` is its fixed point. -/
theorem rec0_fixed (c : Sample) : c + 0.999 * (c / (1 - 0.999)) = c / (1 - 0.999) := by
  norm_num
  ring

/-- The distance of the smoothed gain to the steady state shrinks by 0.999 per sample. -/
theorem rec0_closed (c r : Sample) (n : Nat) :
    Dsp.rec0 c r n - c / (1 - 0.999) = 0.999 ^ n * (r - c / (1 - 0.999)) := by
  induction n with
  | zero => simp [Dsp.rec0]
  | succ n ih =>
    have h : Dsp.rec0 c r (n + 1) - c / (1 - 0.999)
        = 0.999 * (Dsp.rec0 c r n - c / (1 - 0.999)) := by
      have hf := rec0_fixed c
      simp only [Dsp.rec0]
      linear_combination hf
    rw [h, ih, pow_succ]
    ring

/-- Running the recurrence `a` steps and then `b` steps is running it `a + b` steps. -/
theorem rec0_add (c r : Sample) (a b : Nat) :
    Dsp.rec0 c (Dsp.rec0 c r a) b = Dsp.rec0 c r (a + b) := by
  induction b with
  | zero => rfl
  | succ b ih =>
    rw [← Nat.add_assoc]
    simp only [Dsp.rec0, ih]

/-- The two components of `fRec0` after the loop: equal to the last smoothed gain once an
iteration ran, untouched otherwise. -/
theorem gain_loop_fRec0 (f : Sample) (inp out : Ptr) (d : Dsp) (m : Mem) (k : Nat) :
    (forLoop k (Dsp.step f inp out) (d, m)).1.fRec0
      = if k = 0 then d.fRec0 else (Dsp.rec0 f d.fRec0.2 k, Dsp.rec0 f d.fRec0.2 k) := by
  cases k with
  | zero => rfl
  | succ k =>
    rw [forLoop_succ, Dsp.step_fst, (Dsp.gain_loop_spec f inp out d m k).1]
    rfl

end gain

namespace gain

/-- One step of the recurrence, seen from the steady state. -/
theorem rec0_step (c r : Sample) (n : Nat) :
    Dsp.rec0 c r (n + 1) - c / (1 - 0.999) = 0.999 * (Dsp.rec0 c r n - c / (1 - 0.999)) := by
  have hf := rec0_fixed c
  simp only [Dsp.rec0]
  linear_combination hf

/-- Started at or below the steady state, the smoothed gain rises and stays at or below it. -/
theorem rec0_below (c r : Sample) (h : r ≤ c / (1 - 0.999)) (n : Nat) :
    Dsp.rec0 c r n ≤ Dsp.rec0 c r (n + 1) ∧ Dsp.rec0 c r (n + 1) ≤ c / (1 - 0.999) := by
  have hc := rec0_closed c r n
  have hs := rec0_step c r n
  have hp : (0 : Sample) ≤ 0.999 ^ n := by positivity
  have hle : Dsp.rec0 c r n - c / (1 - 0.999) ≤ 0 := by
    rw [hc]
    exact mul_nonpos_of_nonneg_of_nonpos hp (by linarith)
  constructor <;> linarith

/-- Started at or above the steady state, the smoothed gain falls and stays at or above it. -/
theorem rec0_above (c r : Sample) (h : c / (1 - 0.999) ≤ r) (n : Nat) :
    c / (1 - 0.999) ≤ Dsp.rec0 c r (n + 1) ∧ Dsp.rec0 c r (n + 1) ≤ Dsp.rec0 c r n := by
  have hc := rec0_closed c r n
  have hs := rec0_step c r n
  have hp : (0 : Sample) ≤ 0.999 ^ n := by positivity
  have hle : 0 ≤ Dsp.rec0 c r n - c / (1 - 0.999) := by
    rw [hc]
    exact mul_nonneg hp (by linarith)
  constructor <;> linarith

end gain

namespace gain

/-- The rounded step of the recurrence is monotone in the state. -/
theorem rec0_float_step_mono (c x y : Sample) (h : x ≤ y) :
    f64 (c + f64 (f64 0.999 * x)) ≤ f64 (c + f64 (f64 0.999 * y)) := by
  have hp : (0 : Sample) ≤ f64 0.999 := by
    rw [f64_literal_pole]
    norm_num
  exact f64_mono _ _ (add_le_add_left (f64_mono _ _ (mul_le_mul_of_nonneg_left h hp)) c)

/-- Once the first step does not fall, no step falls. -/
theorem rec0_float_rising (c r : Sample) (h : r ≤ Dsp.rec0_float c r 1) (n : Nat) :
    Dsp.rec0_float c r n ≤ Dsp.rec0_float c r (n + 1) := by
  induction n with
  | zero => exact h
  | succ n ih => exact rec0_float_step_mono c _ _ ih

/-- Once the first step does not rise, no step rises. -/
theorem rec0_float_falling (c r : Sample) (h : Dsp.rec0_float c r 1 ≤ r) (n : Nat) :
    Dsp.rec0_float c r (n + 1) ≤ Dsp.rec0_float c r n := by
  induction n with
  | zero => exact h
  | succ n ih => exact rec0_float_step_mono c _ _ ih

/-- Started at or below a value the step maps to itself, the smoothed gain stays at or below
it. -/
theorem rec0_float_below (c r s : Sample) (hs : f64 (c + f64 (f64 0.999 * s)) = s) (h : r ≤ s)
    (n : Nat) : Dsp.rec0_float c r n ≤ s := by
  induction n with
  | zero => exact h
  | succ n ih =>
    have := rec0_float_step_mono c _ _ ih
    rw [hs] at this
    exact this

/-- Started at or above a value the step maps to itself, the smoothed gain stays at or above
it. -/
theorem rec0_float_above (c r s : Sample) (hs : f64 (c + f64 (f64 0.999 * s)) = s) (h : s ≤ r)
    (n : Nat) : s ≤ Dsp.rec0_float c r n := by
  induction n with
  | zero => exact h
  | succ n ih =>
    have := rec0_float_step_mono c _ _ ih
    rw [hs] at this
    exact this

/-- Once a step leaves the smoothed gain as it was, every later step does. -/
theorem rec0_float_stays (c r : Sample) (n : Nat)
    (h : Dsp.rec0_float c r (n + 1) = Dsp.rec0_float c r n) (j : Nat) :
    Dsp.rec0_float c r (n + j) = Dsp.rec0_float c r n := by
  induction j with
  | zero => rfl
  | succ j ih =>
    rw [← Nat.add_assoc]
    show f64 (c + f64 (f64 0.999 * Dsp.rec0_float c r (n + j))) = _
    rw [ih]
    exact h

end gain

/-- The product `0.999 * (1 + 2^(-50))` in `double`. -/
theorem f64_pole_settled :
    f64 (8998192055486251 / 2 ^ 53 * (1 + 1 / 2 ^ 50)) = 8998192055486259 / 2 ^ 53 := by
  rw [f64_near (8998192055486251 / 2 ^ 53 * (1 + 1 / 2 ^ 50)) (-1) 8998192055486259
    (by norm_num) (by norm_num) (by norm_num) (by norm_num [abs_lt])]
  norm_num

/-- The sum of the coefficient and that product in `double`: a tie, rounded to even. -/
theorem f64_sum_settled :
    f64 (8589935 / 2 ^ 33 + 8998192055486259 / 2 ^ 53) = 2251799813792205 / 2 ^ 51 := by
  rw [f64_tie (8589935 / 2 ^ 33 + 8998192055486259 / 2 ^ 53) 0 4503599627584410
    (by norm_num) (by norm_num) (by norm_num) (by norm_num [abs_of_neg]) (by norm_num)]
  norm_num

/-- The smoothed gain one frame after the state `1 + 2^(-50)`, at the parameter 0. -/
theorem rec0_float_settled :
    gain.Dsp.rec0_float (8589935 / 2 ^ 33) (1 + 1 / 2 ^ 50) 1 = 2251799813792205 / 2 ^ 51 := by
  simp only [gain.Dsp.rec0_float]
  rw [f64_literal_pole, f64_pole_settled, f64_sum_settled]

/-- The claimed steady state at the parameter 0 lies between the `double` `1 + 2^(-50)` and
the next one. -/
theorem f64_claimed_steady : f64 (0.0010000000000000009 / (1 - 0.999)) = 1 + 1 / 2 ^ 50 := by
  rw [f64_near (0.0010000000000000009 / (1 - 0.999)) 0 4503599627370500
    (by norm_num) (by norm_num) (by norm_num) (by norm_num [abs_lt])]
  norm_num

/-- The operations that compute `fSlow0` at the parameter 0 are in range. -/
theorem fSlow0_in_range_zero (d : gain.Dsp) (h : d.gain = 0) :
    d.fSlow0_in_range env0.pow := by
  have hp : env0.pow 10 0 = 1 := by simp [env0]
  have h64 : f64 (9007199254741 / 2 ^ 53) = 9007199254741 / 2 ^ 53 := by
    have := f64_fixed 9007199254741 (-53) (by norm_num) (by norm_num)
    norm_num at this ⊢
    exact this
  unfold gain.Dsp.fSlow0_in_range
  rw [h, mul_zero, f64_zero, hp, mul_one, f64_literal_gain, h64]
  exact ⟨f32_range_zero, f64_range_zero, f64_one,
    f64_range_pos _ (by norm_num) (by norm_num [DBL_MAX]),
    f64_range_pos _ (by norm_num) (by norm_num [DBL_MAX]),
    f32_range_pos _ (by norm_num) (by norm_num [FLT_MAX])⟩

/-- The operations of the first iteration after `init` on an input frame 1 are in range. -/
theorem step_in_range_first : gain.Dsp.step_in_range (8589935 / 2 ^ 33) 0 1 := by
  unfold gain.Dsp.step_in_range
  rw [mul_zero, f64_zero, add_zero, f64_gain_coefficient, one_mul, f64_gain_coefficient]
  exact ⟨f64_range_zero, f32_range_pos _ (by norm_num) (by norm_num [FLT_MAX]), f64_range_zero,
    f64_range_pos _ (by norm_num) (by norm_num [DBL_MAX]),
    f64_range_pos _ (by norm_num) (by norm_num [DBL_MAX]),
    f32_range_pos _ (by norm_num) (by norm_num [FLT_MAX])⟩

/-- The operations of one iteration from the state `1 + 2^(-50)` on an input frame 1 are in
range. -/
theorem step_in_range_settled :
    gain.Dsp.step_in_range (8589935 / 2 ^ 33) (1 + 1 / 2 ^ 50) 1 := by
  have h64 : f64 (2251799813792205 / 2 ^ 51) = 2251799813792205 / 2 ^ 51 := by
    have := f64_fixed 2251799813792205 (-51) (by norm_num) (by norm_num)
    norm_num at this ⊢
    exact this
  unfold gain.Dsp.step_in_range
  rw [f64_literal_pole, f64_pole_settled, f64_sum_settled, one_mul, h64]
  exact ⟨f64_range_pos _ (by norm_num) (by norm_num [DBL_MAX]),
    f32_range_pos _ (by norm_num) (by norm_num [FLT_MAX]),
    f64_range_pos _ (by norm_num) (by norm_num [DBL_MAX]),
    f64_range_pos _ (by norm_num) (by norm_num [DBL_MAX]),
    f64_range_pos _ (by norm_num) (by norm_num [DBL_MAX]),
    f32_range_pos _ (by norm_num) (by norm_num [FLT_MAX])⟩

/-- C25, as stated, fails: `fSlow0` is a `float` and the recurrence runs in `double`.  At the
parameter `G = 0` the coefficient of the code is `8589935 / 2^33` (0.00100000005), not
`c = 0.0010000000000000009`; and from the state `1 + 2^(-50)`, the `double` next below the
claimed steady state `r* = c / (1 - 0.999)`, one frame takes the smoothed gain to
`2251799813792205 / 2^51` (1.0000000000475), above `r*`: the gain passes the claimed steady
state and does not stay there.  Every operand and result of this computation is in the normal
range of its type. -/
theorem C25_coefficient_is_float :
    gain_settled.fSlow0_float env0.pow = 8589935 / 2 ^ 33 ∧
    gain_settled.fSlow0 env0.pow = 0.0010000000000000009 ∧
    gain_settled.fSlow0_float env0.pow ≠ gain_settled.fSlow0 env0.pow ∧
    f64 (gain_settled.fSlow0 env0.pow / (1 - 0.999)) = gain_settled.fRec0.2 ∧
    (gain_settled.compute_float env0.pow 1 0 0 mem_ones).1.fRec0.2
      = 2251799813792205 / 2 ^ 51 ∧
    gain_settled.fRec0.2 < gain_settled.fSlow0 env0.pow / (1 - 0.999) ∧
    gain_settled.fSlow0 env0.pow / (1 - 0.999)
      < (gain_settled.compute_float env0.pow 1 0 0 mem_ones).1.fRec0.2 ∧
    (gain_settled.compute_float env0.pow 1 0 0 mem_ones).1.fRec0.2
        - gain_settled.fSlow0 env0.pow / (1 - 0.999)
      ≠ 0.999 ^ 1 * (gain_settled.fRec0.2 - gain_settled.fSlow0 env0.pow / (1 - 0.999)) ∧
    gain_settled.fSlow0_in_range env0.pow ∧
    gain.Dsp.step_in_range (gain_settled.fSlow0_float env0.pow) gain_settled.fRec0.2
      (mem_ones 0 0) := by
  have hc : gain_settled.fSlow0_float env0.pow = 8589935 / 2 ^ 33 :=
    fSlow0_float_zero gain_settled rfl
  have he : gain_settled.fSlow0 env0.pow = 0.0010000000000000009 := by
    simp [gain.Dsp.fSlow0, gain_settled, env0]
  have hr : gain_settled.fRec0.2 = 1 + 1 / 2 ^ 50 := rfl
  have hv : (gain_settled.compute_float env0.pow 1 0 0 mem_ones).1.fRec0.2
      = 2251799813792205 / 2 ^ 51 := by
    unfold gain.Dsp.compute_float
    rw [(gain.Dsp.gain_float_loop_spec _ 0 0 gain_settled mem_ones _).1, hc, hr]
    exact rec0_float_settled
  refine ⟨hc, he, ?_, ?_, hv, ?_, ?_, ?_, fSlow0_in_range_zero gain_settled rfl, ?_⟩
  · rw [hc, he]
    norm_num
  · rw [he, hr]
    exact f64_claimed_steady
  · rw [he, hr]
    norm_num
  · rw [he, hv]
    norm_num
  · rw [he, hv, hr]
    norm_num
  · rw [hc, hr]
    exact step_in_range_settled

/-- C25 (amended): in `gain::Dsp::compute` with the gain parameter `G = d.gain`, `fSlow0` is the
`float` `c = fl32(fl64(0.0010000000000000009 * pow(10, fl64(0.05 * G))))`; the smoothed gain is
a `double` that follows `r_k = fl64(c + fl64(0.999 * r_(k-1)))` from `r_0 = fRec0[1]`, frame `i`
of the output is `fl32(fl64(input[i] * r_(i+1)))` and the state left after `n` frames is `r_n`
(operands and results in the normal range of their type or zero).  The sequence `r_k` is
monotone: it never falls once its first step does not fall, and never rises once its first step
does not rise; it never passes a value `s` that the step maps to itself; once a step leaves it
unchanged it stays; `init` leaves the state 0.  The closed form
`r_n - r* = 0.999^n * (r_0 - r*)` with `r* = c / (1 - 0.999)` holds for the recurrence
`r_k = c + 0.999 * r_(k-1)` in exact arithmetic. -/
theorem C25_gain_one_pole_rounded (pow : Sample → Sample → Sample) (d : gain.Dsp) (count : Int)
    (input0 output0 : Ptr) (m : Mem) (rate : Nat)
    (_hc : d.fSlow0_in_range pow)
    (_hs : ∀ k, k < count.toNat →
      gain.Dsp.step_in_range (d.fSlow0_float pow)
        (gain.Dsp.rec0_float (d.fSlow0_float pow) d.fRec0.2 k) (m input0 k)) :
    d.fSlow0_float pow
      = f32 (f64 (f64 0.0010000000000000009 * pow 10 (f64 (f64 0.05 * d.gain)))) ∧
    gain.Dsp.rec0_float (d.fSlow0_float pow) d.fRec0.2 0 = d.fRec0.2 ∧
    (∀ k, gain.Dsp.rec0_float (d.fSlow0_float pow) d.fRec0.2 (k + 1)
        = f64 (d.fSlow0_float pow
            + f64 (f64 0.999 * gain.Dsp.rec0_float (d.fSlow0_float pow) d.fRec0.2 k))) ∧
    (∀ i, i < count.toNat →
      (d.compute_float pow count input0 output0 m).2 output0 i
        = f32 (f64 (m input0 i
            * gain.Dsp.rec0_float (d.fSlow0_float pow) d.fRec0.2 (i + 1)))) ∧
    (d.compute_float pow count input0 output0 m).1.fRec0.2
      = gain.Dsp.rec0_float (d.fSlow0_float pow) d.fRec0.2 count.toNat ∧
    (d.fRec0.2 ≤ gain.Dsp.rec0_float (d.fSlow0_float pow) d.fRec0.2 1 → ∀ n,
      gain.Dsp.rec0_float (d.fSlow0_float pow) d.fRec0.2 n
        ≤ gain.Dsp.rec0_float (d.fSlow0_float pow) d.fRec0.2 (n + 1)) ∧
    (gain.Dsp.rec0_float (d.fSlow0_float pow) d.fRec0.2 1 ≤ d.fRec0.2 → ∀ n,
      gain.Dsp.rec0_float (d.fSlow0_float pow) d.fRec0.2 (n + 1)
        ≤ gain.Dsp.rec0_float (d.fSlow0_float pow) d.fRec0.2 n) ∧
    (∀ s, f64 (d.fSlow0_float pow + f64 (f64 0.999 * s)) = s →
      (d.fRec0.2 ≤ s → ∀ n, gain.Dsp.rec0_float (d.fSlow0_float pow) d.fRec0.2 n ≤ s) ∧
      (s ≤ d.fRec0.2 → ∀ n, s ≤ gain.Dsp.rec0_float (d.fSlow0_float pow) d.fRec0.2 n)) ∧
    (∀ n, gain.Dsp.rec0_float (d.fSlow0_float pow) d.fRec0.2 (n + 1)
        = gain.Dsp.rec0_float (d.fSlow0_float pow) d.fRec0.2 n →
      ∀ j, gain.Dsp.rec0_float (d.fSlow0_float pow) d.fRec0.2 (n + j)
        = gain.Dsp.rec0_float (d.fSlow0_float pow) d.fRec0.2 n) ∧
    (d.init rate).fRec0 = (0, 0) ∧
    (∀ c r n, gain.Dsp.rec0 c r (n + 1) = c + 0.999 * gain.Dsp.rec0 c r n ∧
      gain.Dsp.rec0 c r n - c / (1 - 0.999) = 0.999 ^ n * (r - c / (1 - 0.999))) := by
  have hloop := gain.Dsp.gain_float_loop_spec (d.fSlow0_float pow) input0 output0 d m
    count.toNat
  refine ⟨rfl, rfl, fun _ => rfl, ?_, ?_, ?_, ?_, ?_, ?_, rfl, ?_⟩
  · intro i hi
    exact hloop.2.2.2.2 i hi
  · exact hloop.1
  · intro h n
    exact gain.rec0_float_rising _ _ h n
  · intro h n
    exact gain.rec0_float_falling _ _ h n
  · intro s hs
    exact ⟨fun h n => gain.rec0_float_below _ _ s hs h n,
      fun h n => gain.rec0_float_above _ _ s hs h n⟩
  · intro n h j
    exact gain.rec0_float_stays _ _ n h j
  · intro c r n
    exact ⟨rfl, gain.rec0_closed c r n⟩

/-- The range hypothesis of the loop for one frame of the switched-on engine's gain stage. -/
theorem step_in_range_engine_on (k : Nat) (hk : k < (1 : Int).toNat) :
    gain.Dsp.step_in_range (engine_on.plugin1.fSlow0_float env0.pow)
      (gain.Dsp.rec0_float (engine_on.plugin1.fSlow0_float env0.pow)
        engine_on.plugin1.fRec0.2 k) (mem_ones 0 k) := by
  have hk0 : k = 0 := by
    have : (1 : Int).toNat = 1 := rfl
    omega
  subst hk0
  rw [fSlow0_float_zero engine_on.plugin1 rfl]
  exact step_in_range_first

/-- C25 (amended) at a concrete input: the gain stage of the switched-on engine (parameter 0,
state 0 after `init`) on one frame of the block of ones. -/
theorem C25_gain_one_pole_rounded_witness :
    engine_on.plugin1.fSlow0_in_range env0.pow ∧
    (∀ k, k < (1 : Int).toNat →
      gain.Dsp.step_in_range (engine_on.plugin1.fSlow0_float env0.pow)
        (gain.Dsp.rec0_float (engine_on.plugin1.fSlow0_float env0.pow)
          engine_on.plugin1.fRec0.2 k) (mem_ones 0 k)) ∧
    engine_on.plugin1.fSlow0_float env0.pow
      = f32 (f64 (f64 0.0010000000000000009
          * env0.pow 10 (f64 (f64 0.05 * engine_on.plugin1.gain)))) ∧
    (engine_on.plugin1.compute_float env0.pow 1 0 0 mem_ones).2 0 0
      = f32 (f64 (mem_ones 0 0
          * gain.Dsp.rec0_float (engine_on.plugin1.fSlow0_float env0.pow)
              engine_on.plugin1.fRec0.2 (0 + 1))) ∧
    (engine_on.plugin1.compute_float env0.pow 1 0 0 mem_ones).1.fRec0.2
      = gain.Dsp.rec0_float (engine_on.plugin1.fSlow0_float env0.pow)
          engine_on.plugin1.fRec0.2 (1 : Int).toNat ∧
    (engine_on.plugin1.init 48000).fRec0 = (0, 0) :=
  have h := C25_gain_one_pole_rounded env0.pow engine_on.plugin1 1 0 0 mem_ones 48000
    (fSlow0_in_range_zero engine_on.plugin1 rfl) step_in_range_engine_on
  ⟨fSlow0_in_range_zero engine_on.plugin1 rfl, step_in_range_engine_on, h.1,
   h.2.2.2.1 0 (by decide), h.2.2.2.2.1, h.2.2.2.2.2.2.2.2.2.1⟩

namespace gain

/-- The method `compute` as the loop it runs, for a frame count that fits an `int`. -/
theorem compute_eq_loop (pow : Sample → Sample → Sample) (d : Dsp) (k : Nat)
    (input0 output0 : Ptr) (m : Mem) (f : Sample) (hf : d.fSlow0 pow = f) :
    d.compute pow (k : Int) input0 output0 m = forLoop k (Dsp.step f input0 output0) (d, m) := by
  subst hf
  unfold Dsp.compute
  rw [Int.toNat_ofNat]

/-- The first loop of a split block leaves the frames of the second part as they were. -/
theorem compute_shift (pow : Sample → Sample → Sample) (d : Dsp) (a : Nat)
    (input0 output0 : Ptr) (m : Mem) (q : Ptr) (j : Nat) :
    ((d.compute pow (a : Int) input0 output0 m).2.shift a) q j = m q (j + a) := by
  rw [compute_eq_loop pow d a input0 output0 m _ rfl]
  exact (Dsp.gain_loop_spec _ input0 output0 d m a).2.2.2.1 q (j + a) (Or.inr (by omega))

end gain

/-- C29: for every smoothing state `d`, gain parameter and block of `a + b` frames,
`compute` on the whole block gives the same output frames and the same final state as
`compute` on the first `a` frames followed by `compute` on the next `b` frames (the pointers
advanced by `a`). -/
theorem C29_gain_block_split (pow : Sample → Sample → Sample) (d : gain.Dsp) (a b : Nat)
    (input0 output0 : Ptr) (m : Mem) :
    (d.compute pow ((a + b : Nat) : Int) input0 output0 m).1
      = ((d.compute pow (a : Int) input0 output0 m).1.compute pow (b : Int) input0 output0
          ((d.compute pow (a : Int) input0 output0 m).2.shift a)).1 ∧
    (∀ i, i < a →
      (d.compute pow ((a + b : Nat) : Int) input0 output0 m).2 output0 i
        = (d.compute pow (a : Int) input0 output0 m).2 output0 i) ∧
    (∀ i, i < b →
      (d.compute pow ((a + b : Nat) : Int) input0 output0 m).2 output0 (a + i)
        = ((d.compute pow (a : Int) input0 output0 m).1.compute pow (b : Int) input0 output0
            ((d.compute pow (a : Int) input0 output0 m).2.shift a)).2 output0 i) := by
  have hA := gain.Dsp.gain_loop_spec (d.fSlow0 pow) input0 output0 d m a
  have hAB := gain.Dsp.gain_loop_spec (d.fSlow0 pow) input0 output0 d m (a + b)
  have hsh := gain.compute_shift pow d a input0 output0 m
  have hfA := gain.gain_loop_fRec0 (d.fSlow0 pow) input0 output0 d m a
  have hfAB := gain.gain_loop_fRec0 (d.fSlow0 pow) input0 output0 d m (a + b)
  have hcA : d.compute pow (a : Int) input0 output0 m
      = forLoop a (gain.Dsp.step (d.fSlow0 pow) input0 output0) (d, m) :=
    gain.compute_eq_loop pow d a input0 output0 m _ rfl
  have hslow : (d.compute pow (a : Int) input0 output0 m).1.fSlow0 pow = d.fSlow0 pow := by
    unfold gain.Dsp.fSlow0
    rw [hcA, hA.2.1]
  have hB := gain.Dsp.gain_loop_spec (d.fSlow0 pow) input0 output0
    (d.compute pow (a : Int) input0 output0 m).1
    ((d.compute pow (a : Int) input0 output0 m).2.shift a) b
  have hfB := gain.gain_loop_fRec0 (d.fSlow0 pow) input0 output0
    (d.compute pow (a : Int) input0 output0 m).1
    ((d.compute pow (a : Int) input0 output0 m).2.shift a) b
  have hr1 : (d.compute pow (a : Int) input0 output0 m).1.fRec0.2
      = gain.Dsp.rec0 (d.fSlow0 pow) d.fRec0.2 a := by
    rw [hcA]
    exact hA.1
  have hcB : ∀ x, (d.compute pow (a : Int) input0 output0 m).1.compute pow (b : Int)
      input0 output0 x
      = forLoop b (gain.Dsp.step (d.fSlow0 pow) input0 output0)
          ((d.compute pow (a : Int) input0 output0 m).1, x) :=
    fun x => gain.compute_eq_loop pow _ b input0 output0 x _ hslow
  have hcAB : d.compute pow ((a + b : Nat) : Int) input0 output0 m
      = forLoop (a + b) (gain.Dsp.step (d.fSlow0 pow) input0 output0) (d, m) :=
    gain.compute_eq_loop pow d (a + b) input0 output0 m _ rfl
  refine ⟨?_, ?_, ?_⟩
  · rw [hcB, hcAB]
    have e1 : ∀ x y : gain.Dsp, x.fSampleRate = y.fSampleRate → x.fRec0 = y.fRec0 →
        x.gain = y.gain → x = y := by
      intro x y h1 h2 h3
      cases x
      cases y
      simp_all
    apply e1
    · rw [hAB.2.2.1, hB.2.2.1, hcA, hA.2.2.1]
    · rw [hfAB, hfB, hr1, gain.rec0_add, hcA, hfA]
      by_cases ha : a = 0
      · subst ha
        by_cases hb : b = 0
        · subst hb
          simp
        · simp [hb]
      · by_cases hb : b = 0
        · subst hb
          simp [ha]
        · have hab : a + b ≠ 0 := by omega
          simp [hb, hab]
    · rw [hAB.2.1, hB.2.1, hcA, hA.2.1]
  · intro i hi
    rw [hcAB, hcA, hAB.2.2.2.2 i (by omega), hA.2.2.2.2 i hi]
  · intro i hi
    rw [hcB, hcAB, hAB.2.2.2.2 (a + i) (by omega), hB.2.2.2.2 i hi, hsh, hr1, gain.rec0_add]
    have e2 : i + a = a + i := by omega
    have e3 : a + (i + 1) = a + i + 1 := by omega
    rw [e2, e3]

/-! ## C30: the crop of a label at a character boundary -/

/-- With a first byte that starts a character, the scan from any position after it stops
at a byte that starts a character. -/
theorem utf8crop_scan_some (src : List Nat) (h0 : utf8_lead (src.getD 0 0) = true) (n : Nat)
    (hn : 0 < n) :
    ∃ k : Fin n, utf8crop_scan src n = some k ∧ utf8_lead (src.getD k.val 0) = true := by
  induction n with
  | zero => exact absurd hn (Nat.lt_irrefl 0)
  | succ k ih =>
    by_cases hl : utf8_lead (src.getD k 0) = true
    · refine ⟨⟨k, Nat.lt_succ_self k⟩, ?_, hl⟩
      simp only [utf8crop_scan, hl, if_true]
    · have hk : 0 < k := by
        rcases Nat.eq_zero_or_pos k with h | h
        · subst h
          exact absurd h0 hl
        · exact h
      obtain ⟨j, hj, hlead⟩ := ih hk
      refine ⟨Fin.castSucc j, ?_, hlead⟩
      simp only [utf8crop_scan, hl, hj, Option.map_some']
      rfl

/-- The loop of `utf8crop`, started at a character boundary `s`, ends at a character
boundary below `sizeDest`, and at `s` itself when `s` is below `sizeDest`. -/
theorem utf8crop_loop_spec (src : List Nat) (sizeDest : Nat)
    (h0 : utf8_lead (src.getD 0 0) = true) (hd : 0 < sizeDest) (s : Nat) :
    ∃ n, utf8crop_loop src sizeDest s = some n ∧ n ≤ s ∧ n < sizeDest ∧
      (utf8_lead (src.getD s 0) = true → utf8_lead (src.getD n 0) = true) ∧
      (s < sizeDest → n = s) := by
  induction s using Nat.strong_induction_on with
  | _ s ih =>
    rw [utf8crop_loop]
    by_cases hs : s ≥ sizeDest
    · rw [if_pos hs]
      obtain ⟨k, hk, hlead⟩ := utf8crop_scan_some src h0 s (by omega)
      obtain ⟨n, hn, hle, hlt, hb, _⟩ := ih k.val k.isLt
      refine ⟨n, ?_, ?_, hlt, fun _ => hb hlead, fun h => absurd h (by omega)⟩
      · rw [hk]
        exact hn
      · have := k.isLt
        omega
    · rw [if_neg hs]
      exact ⟨s, rfl, le_rfl, by omega, fun h => h, fun _ => rfl⟩

/-- C30: for a source string whose first byte does not continue a character and
`sizeDest > 0`, `utf8crop` returns, and `dst` then holds the first `n` bytes of `src` for an
`n` that is at most `strlen(src)` and at most `sizeDest - 1`, with the byte of `src` after
them not a continuation byte (the NUL when `n = strlen(src)`); when `strlen(src) < sizeDest`
the result is `src` unchanged. -/
theorem C30_utf8crop_boundary (dst src : List Nat) (sizeDest : Nat)
    (h0 : utf8_lead (src.getD 0 0) = true) (hd : 0 < sizeDest) :
    ∃ n, utf8crop dst src sizeDest = some (src.take n) ∧ (src.take n).length = n ∧
      n ≤ sizeDest - 1 ∧ utf8_lead (src.getD n 0) = true ∧
      (src.length < sizeDest → utf8crop dst src sizeDest = some src) := by
  obtain ⟨n, hn, hle, hlt, hb, hsame⟩ := utf8crop_loop_spec src sizeDest h0 hd src.length
  have hend : utf8_lead (src.getD src.length 0) = true := by
    rw [List.getD_eq_default _ _ le_rfl]
    decide
  have hu : utf8crop dst src sizeDest = some (src.take n) := by
    unfold utf8crop
    rw [if_pos (by omega), hn]
    rfl
  refine ⟨n, hu, ?_, by omega, hb hend, ?_⟩
  · rw [List.length_take]
    omega
  · intro h
    rw [hu, hsame h, List.take_length]

/-- C30 at a concrete input: the bytes of "Aé" (0x41 0xC3 0xA9) cropped for a buffer of 3. -/
theorem C30_utf8crop_boundary_witness :
    utf8_lead (([0x41, 0xC3, 0xA9] : List Nat).getD 0 0) = true ∧ 0 < 3 ∧
    ∃ n, utf8crop [] [0x41, 0xC3, 0xA9] 3 = some (([0x41, 0xC3, 0xA9] : List Nat).take n) ∧
      (([0x41, 0xC3, 0xA9] : List Nat).take n).length = n ∧
      n ≤ 3 - 1 ∧ utf8_lead (([0x41, 0xC3, 0xA9] : List Nat).getD n 0) = true ∧
      (([0x41, 0xC3, 0xA9] : List Nat).length < 3 →
        utf8crop [] [0x41, 0xC3, 0xA9] 3 = some [0x41, 0xC3, 0xA9]) :=
  ⟨by decide, by decide, C30_utf8crop_boundary [] [0x41, 0xC3, 0xA9] 3 (by decide) (by decide)⟩

/-- The crop of "Aé" for a buffer of 3 keeps "A": the two bytes of "é" are dropped together. -/
theorem utf8crop_example : utf8crop [] [0x41, 0xC3, 0xA9] 3 = some [0x41] := by
  unfold utf8crop
  rw [if_pos (by decide)]
  rw [utf8crop_loop, if_pos (by decide)]
  have h : utf8crop_scan [0x41, 0xC3, 0xA9] 3 = some ⟨1, by decide⟩ := by decide
  simp only [List.length_cons, List.length_nil] at *
  rw [h]
  dsimp only
  rw [utf8crop_loop, if_neg (by decide)]
  rfl
